import Mathlib

/-!
Resilient streaming clients of dolotech/ex: a shallow embedding.

Each vendor client (Bitget, gatews, okx, bybit, Kraken, huobi) is embedded as
pure functions over an explicit client state; the JSON decoders of the data
frames are embedded over token sequences.  Everything the Go code obtains
from the outside world (dial results, write results, the clock) is a field
of the state or an argument, so that every function below is executable.

Part 1 holds the definitions, Part 2 the theorems.
-/

set_option autoImplicit false

/-! ## Part 1: definitions -/

/-- One second as a Go `time.Duration` (nanoseconds). -/
def second : Nat := 1000000000

/-- One millisecond as a Go `time.Duration` (nanoseconds). -/
def millisecond : Nat := 1000000

/-! ### Bitget (`v3-bitget-api-sdk-go`) -/

namespace Bitget

/-- Modelled from the spec: `model.SubscribeReq` is declared outside the
sources at hand.  It is the comparable struct used as the subscription key
("composite identity"); its fields are the four the source reads and
writes: `InstType`, `Channel`, `InstId` and `Coin`. -/
structure SubscribeReq where
  InstType : String
  Channel : String
  InstId : String
  Coin : String
deriving DecidableEq, Repr

/-- `strings.ToUpper`, on the ASCII letters. -/
def toUpper (s : String) : String := String.mk (s.data.map Char.toUpper)

/-- `strings.ToLower`, on the ASCII letters. -/
def toLower (s : String) : String := String.mk (s.data.map Char.toLower)

/-- `normalizeReq` of `pkg/client/ws/bitgetwsclient.go`. -/
def normalizeReq (r : SubscribeReq) : SubscribeReq :=
  let r1 := { r with InstType := toUpper r.InstType }
  let r2 := { r1 with InstId := toUpper r1.InstId }
  let r3 := { r2 with Channel := toLower r2.Channel }
  if r3.Coin = "" then { r3 with Coin := toLower r3.InstId } else r3

/-- A value of Go type `OnReceive`: `none` is the nil function, `some n` the
callback named `n`. -/
abbrev OnReceive := Option Nat

/-- One invocation of a callback: which callback, with which message. -/
structure Call where
  listener : Nat
  message : String
deriving DecidableEq, Repr

/-- A decoded JSON value as `encoding/json` stores it in an `any`
(numbers restricted to the integral ones). -/
inductive Any
  | nil
  | bool (b : Bool)
  | float64 (n : Int)
  | str (s : String)
  | slice (items : List Any)
  | map (fields : List (String × Any))

mutual
/-- `fmt.Sprintf("%v", x)`; the fields of a map are taken in key order.  A
number is printed as an integer, which is what `%v` gives for an integral
`float64` below 10^6 in absolute value. -/
def sprintV : Any → String
  | .nil => "<nil>"
  | .bool b => if b then "true" else "false"
  | .float64 n => toString n
  | .str s => s
  | .slice items => "[" ++ sprintItems items ++ "]"
  | .map fields => "map[" ++ sprintFields fields ++ "]"
/-- The elements of a slice, separated by blanks. -/
def sprintItems : List Any → String
  | [] => ""
  | [x] => sprintV x
  | x :: xs => sprintV x ++ " " ++ sprintItems xs
/-- The `key:value` pairs of a map, separated by blanks. -/
def sprintFields : List (String × Any) → String
  | [] => ""
  | [(k, v)] => k ++ ":" ++ sprintV v
  | (k, v) :: rest => k ++ ":" ++ sprintV v ++ " " ++ sprintFields rest
end

/-- Indexing a `map[string]any`: a missing key yields nil. -/
def mapIndex (m : List (String × Any)) (k : String) : Any :=
  match m.find? (fun kv => kv.1 = k) with
  | some kv => kv.2
  | none => Any.nil

/-- Modelled from the spec: `model.Set` is declared outside the sources at
hand; it is the set of wanted subscriptions, here a duplicate-free list. -/
abbrev ModelSet := List SubscribeReq

/-- `Set.Add`. -/
def ModelSet.Add (s : ModelSet) (r : SubscribeReq) : ModelSet :=
  if r ∈ s then s else s ++ [r]

/-- `Set.Remove`. -/
def ModelSet.Remove (s : ModelSet) (r : SubscribeReq) : ModelSet :=
  s.filter (fun x => x ≠ r)

/-- An argument of a `model.WsBaseReq`. -/
inductive Arg
  | sub (r : SubscribeReq)
  | login (apiKey passphrase timestamp sign : String)
deriving DecidableEq, Repr

/-- `model.WsBaseReq`: an operation and its arguments. -/
structure WsBaseReq where
  Op : String
  Args : List Arg
deriving DecidableEq, Repr

/-- A text frame on the wire: a literal text, or the JSON of a request. -/
inductive Wire
  | text (s : String)
  | json (r : WsBaseReq)
deriving DecidableEq, Repr

/-- A dialed transport; `writable` tells whether `WriteMessage` succeeds. -/
structure Conn where
  id : Nat
  writable : Bool
deriving DecidableEq, Repr

/-- Modelled from the spec: `constants.WsOpSubscribe`, declared outside the
sources at hand; the wire operation is "subscribe". -/
def WsOpSubscribe : String := "subscribe"

/-- Modelled from the spec: `constants.WsOpUnsubscribe`, declared outside
the sources at hand; the wire operation is "unsubscribe". -/
def WsOpUnsubscribe : String := "unsubscribe"

/-- The fields of `BitgetBaseWsClient` the embedded functions touch; `sent`
logs the frames written to the transport. -/
structure BitgetBaseWsClient where
  ws : Option Conn
  lastPong : Nat
  scribeMap : SubscribeReq → Option OnReceive
  allSub : ModelSet
  needLogin : Bool
  loginOK : Bool
  defListener : OnReceive
  errorListener : OnReceive
  reconnectListener : OnReceive
  reconnecting : Bool
  sent : List Wire

/-- `BitgetBaseWsClient.Init` followed by `SetListener`, at time `now`. -/
def Init (needLogin : Bool) (reconnectListener l errL : OnReceive) (now : Nat) :
    BitgetBaseWsClient :=
  { ws := none, lastPong := now, scribeMap := fun _ => none, allSub := [],
    needLogin := needLogin, loginOK := false, defListener := l,
    errorListener := errL, reconnectListener := reconnectListener,
    reconnecting := false, sent := [] }

/-- `BitgetBaseWsClient.Send`: the error, if any, and the client after. -/
def Send (b : BitgetBaseWsClient) (msg : Wire) : Option String × BitgetBaseWsClient :=
  match b.ws with
  | none => (some "no active ws", b)
  | some conn =>
    if conn.writable then (none, { b with sent := b.sent ++ [msg] })
    else (some "write error", b)

/-- `BitgetBaseWsClient.SendByType`. -/
def SendByType (b : BitgetBaseWsClient) (req : WsBaseReq) :
    Option String × BitgetBaseWsClient :=
  Send b (Wire.json req)

/-- `BitgetBaseWsClient.AddSub`. -/
def AddSub (b : BitgetBaseWsClient) (r : SubscribeReq) (l : OnReceive) :
    BitgetBaseWsClient :=
  let b1 :=
    if l ≠ none then
      { b with scribeMap := fun k => if k = r then some l else b.scribeMap k }
    else b
  { b1 with allSub := b1.allSub.Add r }

/-- `BitgetBaseWsClient.DelSub`. -/
def DelSub (b : BitgetBaseWsClient) (r : SubscribeReq) : BitgetBaseWsClient :=
  { b with
    scribeMap := fun k => if k = r then none else b.scribeMap k
    allSub := b.allSub.Remove r }

/-- Calling a value of type `OnReceive`; calling nil panics (`none`). -/
def invoke (l : OnReceive) (raw : String) : Option Call :=
  l.map (fun n => { listener := n, message := raw })

/-- `BitgetBaseWsClient.dispatch`: the callback invocation it performs, or
`none` when it panics (failed type assertion, call of a nil function). -/
def dispatch (b : BitgetBaseWsClient) (arg : Any) (raw : String) : Option Call :=
  match arg with
  | Any.map m =>
    let req : SubscribeReq :=
      { InstType := sprintV (mapIndex m "instType")
        Channel := sprintV (mapIndex m "channel")
        InstId := sprintV (mapIndex m "instId")
        Coin := "" }
    match b.scribeMap req with
    | some (some l) => some { listener := l, message := raw }
    | _ => invoke b.defListener raw
  | _ => none

/-- `BitgetWsClient.Subscribe` (the client wraps one base client). -/
def Subscribe (c : BitgetBaseWsClient) (reqs : List SubscribeReq) (l : OnReceive) :
    BitgetBaseWsClient :=
  let c1 := reqs.foldl (fun b r => AddSub b (normalizeReq r) l) c
  (SendByType c1 { Op := WsOpSubscribe, Args := reqs.map Arg.sub }).2

/-- `BitgetWsClient.SubscribeDef`. -/
def SubscribeDef (c : BitgetBaseWsClient) (reqs : List SubscribeReq) : BitgetBaseWsClient :=
  let c1 := reqs.foldl (fun b r => AddSub b (normalizeReq r) none) c
  (SendByType c1 { Op := WsOpSubscribe, Args := reqs.map Arg.sub }).2

/-- `BitgetWsClient.UnSubscribe`. -/
def UnSubscribe (c : BitgetBaseWsClient) (reqs : List SubscribeReq) : BitgetBaseWsClient :=
  let c1 := reqs.foldl (fun b r => DelSub b (normalizeReq r)) c
  (SendByType c1 { Op := WsOpUnsubscribe, Args := reqs.map Arg.sub }).2

/-- The `arg` object of an inbound frame that carries the three routing
fields of `r`. -/
def argOf (r : SubscribeReq) : Any :=
  Any.map [("instType", Any.str r.InstType), ("channel", Any.str r.Channel),
    ("instId", Any.str r.InstId)]

/-- A call on the subscription registry. -/
inductive RegOp
  | add (r : SubscribeReq) (l : OnReceive)
  | del (r : SubscribeReq)
deriving DecidableEq, Repr

/-- The key a registry call is applied to. -/
def RegOp.key : RegOp → SubscribeReq
  | RegOp.add r _ => r
  | RegOp.del r => r

/-- Performing one registry call. -/
def applyOp (b : BitgetBaseWsClient) : RegOp → BitgetBaseWsClient
  | RegOp.add r l => AddSub b r l
  | RegOp.del r => DelSub b r

/-- Performing a sequence of registry calls, in order. -/
def runOps (b : BitgetBaseWsClient) (ops : List RegOp) : BitgetBaseWsClient :=
  ops.foldl applyOp b

/-- The last call of the sequence that was applied to key `k`. -/
def lastOp (k : SubscribeReq) (ops : List RegOp) : Option RegOp :=
  ops.reverse.find? (fun o => o.key = k)

/-- The registry state at key `k`: membership in `allSub` and the callback
bound in `scribeMap`. -/
def registryAt (b : BitgetBaseWsClient) (k : SubscribeReq) : Bool × Option OnReceive :=
  (decide (k ∈ b.allSub), b.scribeMap k)

/-- A client as `Init` leaves it, with default listener 0 and error
listener 1, connected to a writable transport. -/
def client0 : BitgetBaseWsClient :=
  { Init false none (some 0) (some 1) 0 with ws := some { id := 1, writable := true } }

/-- A spot ticker subscription request as a caller writes it. -/
def btcTicker : SubscribeReq :=
  { InstType := "SPOT", Channel := "ticker", InstId := "BTCUSDT", Coin := "" }

end Bitget

/-! ### gatews (`gatews/go`) -/

namespace Gatews

/-- `SubscribeOptions` of `channel.go`. -/
structure SubscribeOptions where
  ID : Int
  IsReConnect : Bool
deriving DecidableEq, Repr

/-- `requestHistory`, as `baseSubscribe` builds it (its declaration is
outside the sources at hand); `op` is the possibly nil options pointer. -/
structure requestHistory where
  Channel : String
  Event : String
  Payload : List String
  op : Option SubscribeOptions
deriving DecidableEq, Repr

/-- `Request`, as `baseSubscribe` builds it.  The HMAC-SHA512 signature is
kept symbolic: `AuthSecret` is the signing secret and `AuthSigned` the
signed text. -/
structure Request where
  Time : Nat
  Channel : String
  Event : String
  Payload : List String
  AuthMethod : String
  AuthKey : String
  AuthSecret : String
  AuthSigned : String
  Id : Option Int
deriving DecidableEq, Repr

/-- The data of a text message handed to `safeWrite`. -/
inductive Frame
  | request (r : Request)
  | text (s : String)
deriving DecidableEq, Repr

/-- What `Client.WriteMessage` answers. -/
inductive WriteResult
  | ok
  | netErr
  | otherErr
deriving DecidableEq, Repr

/-- `ConnConf`; `subscribeMsg` (a `sync.Map`) is an association list from
channel to its request history, in order of first insertion. -/
structure ConnConf where
  subscribeMsg : List (String × List requestHistory)
  URL : String
  Key : String
  Secret : String
  MaxRetryConn : Int
  SkipTlsVerify : Bool
  ShowReconnectMsg : Bool
  PingInterval : Nat
deriving DecidableEq, Repr

/-- `defaultMaxRetry`. -/
def defaultMaxRetry : Int := 5

/-- `defaultPingInterval`. -/
def defaultPingInterval : Nat := 10 * second

/-- Modelled from the spec: `BaseUrl`, declared outside the sources at hand
(the "default vendor endpoint"). -/
def BaseUrl : String := "wss://api.gateio.ws/ws/v4/"

/-- Modelled from the spec: the event name `Subscribe`, declared outside the
sources at hand; the wire operation is "subscribe". -/
def Subscribe : String := "subscribe"

/-- Modelled from the spec: `AuthMethodApiKey`, declared outside the sources
at hand. -/
def AuthMethodApiKey : String := "api_key"

/-- `defaultConnConf`. -/
def defaultConnConf : ConnConf :=
  { subscribeMsg := [], URL := BaseUrl, Key := "", Secret := "",
    MaxRetryConn := defaultMaxRetry, SkipTlsVerify := false,
    ShowReconnectMsg := true, PingInterval := defaultPingInterval }

/-- `mergeConf`. -/
def mergeConf (d user : ConnConf) : ConnConf :=
  let u1 := if user.URL = "" then { user with URL := d.URL } else user
  let u2 := if u1.MaxRetryConn = 0 then { u1 with MaxRetryConn := d.MaxRetryConn } else u1
  if u2.PingInterval = 0 then { u2 with PingInterval := d.PingInterval } else u2

/-- A buffered channel of `struct{}`: capacity and number of queued
signals. -/
structure SignalChan where
  cap : Nat
  len : Nat
deriving DecidableEq, Repr

/-- `WsService` together with the outside world it talks to.

* `muHeld`: whether `ws.mu` (a non-reentrant `sync.Mutex`) is locked;
* `Client`: the number of the current connection;
* `msgChs`: the channels that own a queue and a receiver goroutine;
* `onceDone`: whether `ws.once` has fired (the read goroutine runs);
* `authChannel`: the table of private channels (declared outside the
  sources at hand, hence a parameter);
* `dialResult i`: whether the dial number `i` (from 0) succeeds, `dialCount`
  the dials made so far; likewise `writeResult` and `writeCount`;
* `wire`: the frames written, with the connection they went to;
* `sleeps`: the durations passed to `time.Sleep`, in order;
* `closed`: the connections closed so far; `pingLoops`: the `activePing`
  goroutines started; `readDeadline`: the last read deadline set. -/
structure WsService where
  muHeld : Bool
  Client : Nat
  reconnectCall : Option SignalChan
  onceDone : Bool
  msgChs : List String
  conf : ConnConf
  authChannel : String → Bool
  now : Nat
  dialResult : Nat → Bool
  dialCount : Nat
  writeResult : Nat → WriteResult
  writeCount : Nat
  wire : List (Nat × Frame)
  sleeps : List Nat
  closed : List Nat
  pingLoops : Nat
  readDeadline : Nat

/-- The outcome of running a function of the client on one goroutine. -/
inductive Run (α : Type)
  /-- The call returned `a`. -/
  | done (a : α) (s : WsService)
  /-- The goroutine waits forever for a mutex it holds itself. -/
  | blocked (s : WsService)
  /-- The unrolling of the model was too short (never the case below). -/
  | exhausted (s : WsService)

/-- The state an outcome ends in. -/
def Run.state {α : Type} : Run α → WsService
  | Run.done _ s => s
  | Run.blocked s => s
  | Run.exhausted s => s

/-- Whether the call came back. -/
def Run.returned {α : Type} : Run α → Bool
  | Run.done _ _ => true
  | _ => false

/-- Whether the goroutine is stuck on the mutex. -/
def Run.isBlocked {α : Type} : Run α → Bool
  | Run.blocked _ => true
  | _ => false

/-- Whether the unrolling of the model was too short. -/
def Run.isExhausted {α : Type} : Run α → Bool
  | Run.exhausted _ => true
  | _ => false

/-- The value a call returned, if it returned. -/
def Run.value {α : Type} : Run α → Option α
  | Run.done a _ => some a
  | _ => none

/-- The type of `safeWrite`: message data in, error (or nil) out. -/
abbrev SafeWrite := WsService → Frame → Run (Option String)

/-- The type of `reconnect`. -/
abbrev Reconnect := WsService → Run (Option String)

/-- The error text of `reconnect`. -/
def errMaxRetry : String := "reconnect exceeded max retry"

/-- Modelled from the spec: the text of `newAuthEmptyErr()`, declared
outside the sources at hand. -/
def errAuthEmpty : String := "auth key or secret empty"

/-- `dial`: the new connection, or `none` on failure. -/
def dial (ws : WsService) : Option Nat × WsService :=
  let ws1 := { ws with dialCount := ws.dialCount + 1 }
  if ws.dialResult ws.dialCount then (some (ws.dialCount + 1), ws1) else (none, ws1)

/-- `time.Sleep`. -/
def sleep (d : Nat) (ws : WsService) : WsService :=
  { ws with sleeps := ws.sleeps ++ [d], now := ws.now + d }

/-- `setPongHandler` (and `refreshDeadline`): the read deadline moves to
four ping intervals from now. -/
def setPongHandler (ws : WsService) : WsService :=
  { ws with readDeadline := ws.now + ws.conf.PingInterval * 4 }

/-- The non-blocking send on `reconnectCall` inside `reconnect`. -/
def notifyReconnect (ws : WsService) : WsService :=
  match ws.reconnectCall with
  | none => ws
  | some ch =>
    if ch.len < ch.cap then { ws with reconnectCall := some { ch with len := ch.len + 1 } }
    else ws

/-- `strings.HasSuffix`. -/
def hasSuffix (s suffix : String) : Bool := suffix.data.isSuffixOf s.data

/-- The `LoadOrStore` / `append` / `Store` sequence of `baseSubscribe`. -/
def storeHistory (m : List (String × List requestHistory)) (channel : String)
    (h : requestHistory) : List (String × List requestHistory) :=
  if m.any (fun e => e.1 = channel) then
    m.map (fun e => if e.1 = channel then (e.1, e.2 ++ [h]) else e)
  else m ++ [(channel, [h])]

/-- `subscribeMsg.Load`: the history stored for a channel (empty if none). -/
def history (ws : WsService) (channel : String) : List requestHistory :=
  match ws.conf.subscribeMsg.find? (fun e => e.1 = channel) with
  | some e => e.2
  | none => []

/-- The test `op == nil || !op.IsReConnect` of `baseSubscribe`. -/
def recordsHistory : Option SubscribeOptions → Bool
  | none => true
  | some o => !o.IsReConnect

/-- `baseSubscribe`, over the `safeWrite` it calls. -/
def baseSubscribeK (safeWrite : SafeWrite) (ws : WsService) (event channel : String)
    (payload : List String) (op : Option SubscribeOptions) : Run (Option String) :=
  let ts := ws.now / second
  let req : Request :=
    { Time := ts, Channel := channel, Event := event, Payload := payload,
      AuthMethod := AuthMethodApiKey, AuthKey := ws.conf.Key,
      AuthSecret := ws.conf.Secret,
      AuthSigned := "channel=" ++ channel ++ "&event=" ++ event ++ "&time=" ++ toString ts,
      Id := op.map (fun o => o.ID) }
  match safeWrite ws (Frame.request req) with
  | Run.blocked s => Run.blocked s
  | Run.exhausted s => Run.exhausted s
  | Run.done (some err) ws1 => Run.done (some err) ws1
  | Run.done none ws1 =>
    if hasSuffix channel ".ping" || hasSuffix channel ".time" then Run.done none ws1
    else if recordsHistory op then
      let h : requestHistory :=
        { Channel := channel, Event := event, Payload := payload, op := op }
      let m := storeHistory ws1.conf.subscribeMsg channel h
      Run.done none { ws1 with conf := { ws1.conf with subscribeMsg := m } }
    else Run.done none ws1

/-- The write `r.op.IsReConnect = true` of `resubscribe` when `r.op` is not
nil: the options are shared by pointer with the stored history. -/
def markReConnect (ws : WsService) (r : requestHistory) : WsService :=
  let mark : requestHistory → requestHistory := fun x =>
    if x = r then { x with op := x.op.map (fun o => { o with IsReConnect := true }) } else x
  let m := ws.conf.subscribeMsg.map (fun e => (e.1, e.2.map mark))
  { ws with conf := { ws.conf with subscribeMsg := m } }

/-- The body of the `Range` callback of `resubscribe`, over the stored
requests. -/
def resubscribeEach (safeWrite : SafeWrite) : List requestHistory → WsService → Run Unit
  | [], ws => Run.done () ws
  | r :: rest, ws =>
    let op : SubscribeOptions :=
      match r.op with
      | none => { ID := 0, IsReConnect := true }
      | some o => { o with IsReConnect := true }
    let ws1 := if r.op = none then ws else markReConnect ws r
    match baseSubscribeK safeWrite ws1 r.Event r.Channel r.Payload (some op) with
    | Run.blocked s => Run.blocked s
    | Run.exhausted s => Run.exhausted s
    | Run.done _ ws2 => resubscribeEach safeWrite rest ws2

/-- `resubscribe`, over the `safeWrite` it calls.  The channels are taken
in the order of the association list, one of the orders in which
`sync.Map.Range` may yield them. -/
def resubscribeK (safeWrite : SafeWrite) (ws : WsService) : Run Unit :=
  resubscribeEach safeWrite (ws.conf.subscribeMsg.flatMap (fun e => e.2)) ws

/-- The success branch of `reconnect` up to the notification: install the
new connection, set its pong handler, signal `reconnectCall`. -/
def installConn (ws : WsService) (conn : Nat) : WsService :=
  notifyReconnect (setPongHandler { ws with Client := conn })

/-- The `for` loop of `reconnect`, with `retry` and `backoff` as they stand
at the top of an iteration; `fuel` bounds the iterations unrolled. -/
def reconnectLoop (safeWrite : SafeWrite) : Nat → Int → Nat → WsService → Run (Option String)
  | 0, _, _, ws => Run.exhausted ws
  | fuel + 1, retry, backoff, ws =>
    if retry ≥ ws.conf.MaxRetryConn then Run.done (some errMaxRetry) ws
    else
      match dial ws with
      | (none, ws1) =>
        reconnectLoop safeWrite fuel (retry + 1)
          (if backoff < 30 * second then backoff * 2 else backoff) (sleep backoff ws1)
      | (some conn, ws1) =>
        let ws2 := installConn ws1 conn
        match resubscribeK safeWrite ws2 with
        | Run.blocked s => Run.blocked s
        | Run.exhausted s => Run.exhausted s
        | Run.done _ ws3 => Run.done none { ws3 with pingLoops := ws3.pingLoops + 1 }

/-- The deferred `ws.mu.Unlock()`, run when the call returns. -/
def unlockOnReturn {α : Type} : Run α → Run α
  | Run.done a s => Run.done a { s with muHeld := false }
  | r => r

/-- The first statements of `reconnect` once `ws.mu` is free: lock it and
close the current connection. -/
def enterReconnect (ws : WsService) : WsService :=
  { ws with muHeld := true, closed := ws.closed ++ [ws.Client] }

/-- `reconnect`, over the `safeWrite` it calls: lock `ws.mu`, close the old
connection, loop. -/
def reconnectK (safeWrite : SafeWrite) (ws : WsService) : Run (Option String) :=
  if ws.muHeld then Run.blocked ws
  else
    let ws1 := enterReconnect ws
    unlockOnReturn
      (reconnectLoop safeWrite (ws1.conf.MaxRetryConn.toNat + 1) 0 second ws1)

/-- `safeWrite`, over the `reconnect` it calls. -/
def safeWriteK (reconnect : Reconnect) (ws : WsService) (data : Frame) : Run (Option String) :=
  if ws.muHeld then Run.blocked ws
  else
    let ws1 := { ws with muHeld := true, writeCount := ws.writeCount + 1 }
    match ws.writeResult ws.writeCount with
    | WriteResult.ok =>
      Run.done none { ws1 with wire := ws1.wire ++ [(ws1.Client, data)], muHeld := false }
    | WriteResult.netErr =>
      match reconnect ws1 with
      | Run.blocked s => Run.blocked s
      | Run.exhausted s => Run.exhausted s
      | Run.done _ ws2 => Run.done (some "net error") { ws2 with muHeld := false }
    | WriteResult.otherErr => Run.done (some "write error") { ws1 with muHeld := false }

/-- The call cycle `safeWrite → reconnect → resubscribe → baseSubscribe →
safeWrite` unrolled: `ws.mu` is locked by the first function entered and the
next one blocks on it, so the innermost call placed here is never reached. -/
def safeWriteInner : SafeWrite := safeWriteK (fun s => Run.exhausted s)

/-- `reconnect` as `safeWrite` calls it. -/
def reconnectInner : Reconnect := reconnectK safeWriteInner

/-- `WsService.safeWrite`. -/
def safeWrite : SafeWrite := safeWriteK reconnectInner

/-- `WsService.reconnect`. -/
def reconnect : Reconnect := reconnectK safeWrite

/-- `WsService.resubscribe`. -/
def resubscribe (ws : WsService) : Run Unit := resubscribeK safeWrite ws

/-- `WsService.baseSubscribe`. -/
def baseSubscribe (ws : WsService) (event channel : String) (payload : List String)
    (op : Option SubscribeOptions) : Run (Option String) :=
  baseSubscribeK safeWrite ws event channel payload op

/-- `WsService.newBaseChannel`. -/
def newBaseChannel (ws : WsService) (channel : String) (payload : List String)
    (op : Option SubscribeOptions) : Run (Option String) :=
  match baseSubscribe ws Subscribe channel payload op with
  | Run.done none ws1 => Run.done none { ws1 with onceDone := true }
  | r => r

/-- `WsService.SubscribeWithOption`. -/
def SubscribeWithOption (ws : WsService) (channel : String) (payload : List String)
    (op : Option SubscribeOptions) : Run (Option String) :=
  if (ws.conf.Key = "" ∨ ws.conf.Secret = "") ∧ ws.authChannel channel = true then
    Run.done (some errAuthEmpty) ws
  else
    let ws1 := if channel ∈ ws.msgChs then ws else { ws with msgChs := ws.msgChs ++ [channel] }
    newBaseChannel ws1 channel payload op

/-- `WsService.Subscribe` (named after its receiver to keep it apart from
the event name). -/
def WsService.Subscribe (ws : WsService) (channel : String) (payload : List String) :
    Run (Option String) :=
  SubscribeWithOption ws channel payload none

/-- The subscribe frames for `channel` among the frames written from
position `start` of the log on. -/
def framesFor (ws : WsService) (start : Nat) (channel : String) : List (Nat × Frame) :=
  (ws.wire.drop start).filter (fun f =>
    match f.2 with
    | Frame.request r => r.Channel = channel
    | Frame.text _ => false)

/-- Every stored request, channel by channel in the order of first
insertion.  The embedded `resubscribe` walks the history in this order;
`sync.Map.Range` itself promises no order across channels, and nothing
below depends on one. -/
def stored (ws : WsService) : List requestHistory :=
  ws.conf.subscribeMsg.flatMap (fun e => e.2)

/-- A service as `NewWsService` leaves it after a successful first dial with
configuration `conf`: connection 0, no subscription yet; every later write
succeeds and `dialOk` tells which later dials succeed. -/
def newService (conf : ConnConf) (dialOk : Nat → Bool) : WsService :=
  { muHeld := false, Client := 0, reconnectCall := none, onceDone := false, msgChs := [],
    conf := mergeConf defaultConnConf conf, authChannel := fun _ => false, now := 0,
    dialResult := dialOk, dialCount := 0, writeResult := fun _ => WriteResult.ok,
    writeCount := 0, wire := [], sleeps := [], closed := [], pingLoops := 1,
    readDeadline := 4 * (mergeConf defaultConnConf conf).PingInterval }

/-- A freshly connected service with the default configuration on which
every later dial succeeds. -/
def svcUp : WsService := newService defaultConnConf (fun _ => true)

/-- The service `svcUp` after one successful `Subscribe`. -/
def svcOneSub : WsService :=
  (WsService.Subscribe svcUp "spot.tickers" ["BTC_USDT"]).state

/-- The service `svcUp` after two successful `Subscribe` calls with the same
channel and payload. -/
def svcTwoSubs : WsService :=
  (WsService.Subscribe svcOneSub "spot.tickers" ["BTC_USDT"]).state

/-- A freshly connected service, configured by `conf`, on which every later
dial fails. -/
def svcDown (conf : ConnConf) : WsService := newService conf (fun _ => false)

end Gatews

/-! ### okx (`okx/websocket.go`) -/

namespace Okx

/-- `WsConn` with its configuration and the outside world it talks to.

* `c`: the current connection, if any;
* `ConnectSuccessAfterSendMessage`: `none` for nil, else the message the
  function yields; `hasErrorHandleFunc`, `hasConnectedHandleFunc`: whether
  the callback is set;
* `closed`: whether the channel `ws.close` (and with it the four buffer
  channels) has been closed; `writeBuffer`: the content of
  `writeBufferChan`;
* `writers`, `readers`: the `writeRequest` and `receiveMessage` goroutines
  running;
* `dialResult i`: whether dial number `i` (from 0) succeeds, `dialCount` the
  dials made so far; `jitter i backoff`: the value of
  `time.Duration(float64(backoff) * jitter)` on retry `i` (a random
  floating-point product, left to the outside world);
* `connectedCalls`, `errorCalls`: the arguments `ConnectedHandleFunc` and
  `ErrorHandleFunc` were called with (`true` for a nil error);
* `sleeps`: the durations passed to `time.Sleep`; `closedConns`: the
  connections closed. -/
structure WsConn where
  c : Option Nat
  HeartbeatIntervalTime : Nat
  readDeadLineTime : Nat
  IsAutoReconnect : Bool
  ConnectSuccessAfterSendMessage : Option String
  hasErrorHandleFunc : Bool
  hasConnectedHandleFunc : Bool
  subs : List String
  closed : Bool
  writeBuffer : List String
  reConnectLockHeld : Bool
  writers : Nat
  readers : Nat
  dialResult : Nat → Bool
  dialCount : Nat
  jitter : Nat → Nat → Nat
  connectedCalls : List Bool
  errorCalls : List String
  sleeps : List Nat
  closedConns : List Nat

/-- The outcome of running a function of the client on one goroutine. -/
inductive Outcome (α : Type)
  /-- The call returned `a`. -/
  | done (a : α) (s : WsConn)
  /-- The goroutine panicked (send on a closed channel). -/
  | panicked (s : WsConn)
  /-- The goroutine waits forever (a send nobody receives, a held lock). -/
  | blocked (s : WsConn)
  /-- The loop is still running after the iterations unrolled. -/
  | running (s : WsConn)

/-- The state an outcome ends in. -/
def Outcome.state {α : Type} : Outcome α → WsConn
  | Outcome.done _ s => s
  | Outcome.panicked s => s
  | Outcome.blocked s => s
  | Outcome.running s => s

/-- The value a call returned, if it returned. -/
def Outcome.value {α : Type} : Outcome α → Option α
  | Outcome.done a _ => some a
  | _ => none

/-- Whether the loop is still running after the iterations unrolled. -/
def Outcome.isRunning {α : Type} : Outcome α → Bool
  | Outcome.running _ => true
  | _ => false

/-- `time.Sleep`. -/
def sleep (d : Nat) (ws : WsConn) : WsConn := { ws with sleeps := ws.sleeps ++ [d] }

/-- `WsConn.connect`: whether it returned a nil error, and the state after. -/
def connect (ws : WsConn) : Bool × WsConn :=
  let ok := ws.dialResult ws.dialCount
  let ws1 := { ws with dialCount := ws.dialCount + 1 }
  let ws2 :=
    if ws1.hasConnectedHandleFunc then
      { ws1 with connectedCalls := ws1.connectedCalls ++ [ok] }
    else ws1
  if ok then (true, { ws2 with c := some (ws.dialCount + 1) }) else (false, ws2)

/-- `maxRetry` of `NewWs`. -/
def maxRetry : Nat := 10

/-- `initBackoff` of `NewWs`. -/
def initBackoff : Nat := 100 * millisecond

/-- `maxBackoff` of `NewWs`. -/
def maxBackoff : Nat := 2 * second

/-- The dial loop of `NewWs`, `for i := 1; i <= maxRetry; i++`, with
`remaining` iterations to go: whether it reached `READY`, and the state. -/
def dialLoop : Nat → Nat → Nat → WsConn → Bool × WsConn
  | 0, _, _, ws => (false, ws)
  | remaining + 1, i, backoff, ws =>
    match connect ws with
    | (true, ws1) => (true, ws1)
    | (false, ws1) =>
      let sleep0 := ws1.jitter i backoff
      let sleep1 := if sleep0 > maxBackoff then maxBackoff else sleep0
      dialLoop remaining (i + 1) (if backoff < maxBackoff then backoff * 2 else backoff)
        (sleep sleep1 ws1)

/-- `WsConn.SendMessage`: a send on `writeBufferChan`, which panics once the
channel is closed (`none`). -/
def SendMessage (ws : WsConn) (msg : String) : Option WsConn :=
  if ws.closed then none else some { ws with writeBuffer := ws.writeBuffer ++ [msg] }

/-- Steps 1 and 2 of `NewWs`: fresh channels and lock, read deadline. -/
def initNewWs (ws : WsConn) : WsConn :=
  let ws1 := { ws with closed := false, writeBuffer := [], reConnectLockHeld := false }
  { ws1 with readDeadLineTime :=
      if ws1.HeartbeatIntervalTime = 0 then second * 60 else ws1.HeartbeatIntervalTime * 2 }

/-- `WsConn.NewWs`: `done true` when it returns the client, `done false`
when it returns nil. -/
def NewWs (ws : WsConn) : Outcome Bool :=
  match dialLoop maxRetry 1 initBackoff (initNewWs ws) with
  | (false, ws3) => Outcome.done false ws3
  | (true, ws3) =>
    let ws4 := { ws3 with writers := ws3.writers + 1, readers := ws3.readers + 1 }
    match ws4.ConnectSuccessAfterSendMessage with
    | none => Outcome.done true ws4
    | some msg =>
      match SendMessage ws4 msg with
      | none => Outcome.panicked ws4
      | some ws5 => Outcome.done true ws5

/-- `WsConn.CloseWs`.  The send `ws.close <- struct{}{}` is taken by the
`writeRequest` goroutine, which then exits; with no such goroutine the send
waits forever (`none`). -/
def CloseWs (ws : WsConn) : Option WsConn :=
  if ws.closed then some ws
  else if ws.writers = 0 then none
  else
    some { ws with
      writers := ws.writers - 1
      closed := true
      closedConns := ws.closedConns ++ ws.c.toList }

/-- The statements of `reconnect` after its retry loop. -/
def afterReconnect (ws : WsConn) : Outcome Unit :=
  let first : Option WsConn :=
    match ws.ConnectSuccessAfterSendMessage with
    | none => some ws
    | some msg => (SendMessage ws msg).map (sleep second)
  match first with
  | none => Outcome.panicked ws
  | some ws1 =>
    match ws1.subs.foldl (fun acc sub => acc.bind (fun s => SendMessage s sub)) (some ws1) with
    | none => Outcome.panicked ws1
    | some ws2 => Outcome.done () { ws2 with reConnectLockHeld := false }

/-- The retry loop of `reconnect`, with `backoff` as it stands at the top of
an iteration; `fuel` bounds the iterations unrolled. -/
def reconnectLoop : Nat → Nat → WsConn → Outcome Unit
  | 0, _, ws => Outcome.running ws
  | fuel + 1, backoff, ws =>
    match connect ws with
    | (false, ws1) =>
      let ws2 := sleep backoff ws1
      if backoff < 32 * second then reconnectLoop fuel (backoff + 2) ws2
      else
        match CloseWs ws2 with
        | none => Outcome.blocked ws2
        | some ws3 =>
          let ws4 :=
            if ws3.hasErrorHandleFunc then
              { ws3 with errorCalls := ws3.errorCalls ++ ["retry reconnect fail"] }
            else ws3
          reconnectLoop fuel backoff ws4
    | (true, ws1) => afterReconnect ws1

/-- `WsConn.reconnect`, its retry loop unrolled `fuel` times. -/
def reconnect (fuel : Nat) (ws : WsConn) : Outcome Unit :=
  if ws.closed then Outcome.done () ws
  else if ws.reConnectLockHeld then Outcome.blocked ws
  else
    let ws1 := { ws with reConnectLockHeld := true, closedConns := ws.closedConns ++ ws.c.toList }
    reconnectLoop fuel second ws1

/-- A client that `NewWs` has connected (connection 1, one writer and one
reader goroutine, an error callback set, auto-reconnect on) and whose server
then stays unreachable: every later dial fails. -/
def wsDown : WsConn :=
  { c := some 1, HeartbeatIntervalTime := 0, readDeadLineTime := 60 * second,
    IsAutoReconnect := true, ConnectSuccessAfterSendMessage := none,
    hasErrorHandleFunc := true, hasConnectedHandleFunc := false, subs := [],
    closed := false, writeBuffer := [], reConnectLockHeld := false, writers := 1,
    readers := 1, dialResult := fun _ => false, dialCount := 1, jitter := fun _ b => b,
    connectedCalls := [], errorCalls := [], sleeps := [], closedConns := [] }

/-- A client not yet dialed, as `Build` hands it to `NewWs`; `dialOk` tells
which dials succeed. -/
def wsNew (dialOk : Nat → Bool) : WsConn :=
  { c := none, HeartbeatIntervalTime := 0, readDeadLineTime := 0,
    IsAutoReconnect := true, ConnectSuccessAfterSendMessage := none,
    hasErrorHandleFunc := true, hasConnectedHandleFunc := false, subs := [],
    closed := false, writeBuffer := [], reConnectLockHeld := false, writers := 0,
    readers := 0, dialResult := dialOk, dialCount := 0, jitter := fun _ b => b,
    connectedCalls := [], errorCalls := [], sleeps := [], closedConns := [] }

end Okx

/-! ### bybit (`bybit/ws.go`) -/

namespace Bybit

/-- `handleQueueSize`. -/
def handleQueueSize : Nat := 4096

/-- `WsClient` and the outside world it talks to.

* `hasSubscriber`: whether `Options.subscriber` is set;
* `cancelled`: whether `ctx` is done;
* `conn`: the current connection; `connected`: the atomic flag;
* `handleQueue`: the content of the channel of that name;
* `dialResult i`, `dialCount`: the results of the dials and the dials made;
  `subscribeResult`, `subscribeCount`: likewise for the calls of
  `subscriber`;
* `sleeps`: the durations passed to `time.Sleep`; `closedConns`: the
  connections closed. -/
structure WsClient where
  url : String
  hasSubscriber : Bool
  cancelled : Bool
  conn : Option Nat
  connected : Bool
  handleQueue : List String
  dialResult : Nat → Bool
  dialCount : Nat
  subscribeResult : Nat → Bool
  subscribeCount : Nat
  sleeps : List Nat
  closedConns : List Nat

/-- The outcome of `redialBlocking`. -/
inductive Outcome
  /-- It returned the given error (`none` for nil). -/
  | done (err : Option String) (c : WsClient)
  /-- The loop is still running after the iterations unrolled. -/
  | running (c : WsClient)

/-- The state an outcome ends in. -/
def Outcome.state : Outcome → WsClient
  | Outcome.done _ c => c
  | Outcome.running c => c

/-- `time.Sleep`. -/
def sleep (d : Nat) (c : WsClient) : WsClient := { c with sleeps := c.sleeps ++ [d] }

/-- `WsClient.dial`: whether it returned a nil error, and the state after. -/
def dial (c : WsClient) : Bool × WsClient :=
  let c1 := { c with dialCount := c.dialCount + 1 }
  if c.dialResult c.dialCount then
    (true, { c1 with
      connected := true
      closedConns := c1.closedConns ++ c1.conn.toList
      conn := some (c.dialCount + 1) })
  else (false, c1)

/-- The call `c.subscriber(c.conn, c.subscribeArgs...)`. -/
def subscriber (c : WsClient) : Bool × WsClient :=
  (c.subscribeResult c.subscribeCount, { c with subscribeCount := c.subscribeCount + 1 })

/-- The loop of `redialBlocking`, with `backoff` as it stands at the top of
an iteration; `fuel` bounds the iterations unrolled. -/
def redialLoop : Nat → Nat → WsClient → Outcome
  | 0, _, c => Outcome.running c
  | fuel + 1, backoff, c =>
    if c.cancelled then Outcome.done (some "context canceled") c
    else
      match dial c with
      | (false, c1) =>
        redialLoop fuel (if backoff < 30 * second then backoff * 2 else backoff)
          (sleep backoff c1)
      | (true, c1) =>
        if c1.hasSubscriber then
          match subscriber c1 with
          | (false, c2) =>
            redialLoop fuel (if backoff < 30 * second then backoff * 2 else backoff)
              (sleep backoff c2)
          | (true, c2) => Outcome.done none c2
        else Outcome.done none c1

/-- `WsClient.redialBlocking`, its loop unrolled `fuel` times. -/
def redialBlocking (fuel : Nat) (c : WsClient) : Outcome :=
  redialLoop fuel second c

/-- A client as `NewWsClient` builds it before the first dial, whose server
is unreachable: every dial fails. -/
def clientDown : WsClient :=
  { url := "wss://stream.bytick.com/realtime_public", hasSubscriber := false,
    cancelled := false, conn := none, connected := false, handleQueue := [],
    dialResult := fun _ => false, dialCount := 0, subscribeResult := fun _ => true,
    subscribeCount := 0, sleeps := [], closedConns := [] }

end Bybit

/-! ### Kraken (`go_kraken/websocket/kraken.go`) -/

namespace GoKraken

/-- `Kraken` and the outside world it talks to.

* `conn`: the current connection; `reconnect`: the number of signals queued
  in the channel of that name (capacity 1); `stopped`: whether `stop` has a
  signal or is closed;
* `lastPong`: the time of the last activity; `listeners`: the running
  `listenSocket` goroutines (the count of `wg`);
* `subscribers`: the number of `Subscribers`;
* `dialCount`: the dials made; `sleeps`: the durations passed to
  `time.Sleep`; `closedConns`: the connections closed; `pings`: the ping
  requests sent; `subCalls`: the calls of subscribers by `resubscribe`. -/
structure Kraken where
  conn : Option Nat
  readTimeout : Nat
  heartbeatTimeout : Nat
  lastPong : Nat
  reconnect : Nat
  stopped : Bool
  listeners : Nat
  subscribers : Nat
  dialCount : Nat
  sleeps : List Nat
  closedConns : List Nat
  pings : Nat
  subCalls : Nat
deriving DecidableEq, Repr

/-- The `managerThread` goroutine: the client, the local `backoff`, and
whether the loop is still running. -/
structure Manager where
  k : Kraken
  backoff : Nat
  running : Bool
deriving DecidableEq, Repr

/-- What `managerThread` can receive in its `select`, with what the outside
world answers to the action it then takes. -/
inductive Event
  /-- `case <-k.reconnect`, for a branch that runs to its dial (the wait in
  `k.wg.Wait()` has come to an end); `dialOk` tells whether the redial
  succeeds and `now` is the time of the dial. -/
  | reconnectSig (dialOk : Bool) (now : Nat)
  /-- `case <-k.stop`. -/
  | stop
  /-- `case <-heartbeat.C` at time `now`; `sendOk` tells whether the ping
  write succeeds. -/
  | heartbeat (now : Nat) (sendOk : Bool)
deriving DecidableEq, Repr

/-- `Kraken.triggerReconnect`: a non-blocking send on a channel of
capacity 1. -/
def triggerReconnect (k : Kraken) : Kraken :=
  if k.reconnect < 1 then { k with reconnect := k.reconnect + 1 } else k

/-- `time.Sleep`. -/
def sleep (d : Nat) (k : Kraken) : Kraken := { k with sleeps := k.sleeps ++ [d] }

/-- `Kraken.safeCloseConn`. -/
def safeCloseConn (k : Kraken) : Kraken :=
  match k.conn with
  | none => k
  | some c => { k with closedConns := k.closedConns ++ [c], conn := none }

/-- `Kraken.dial` at time `now`: the new connection, or `none`. -/
def dial (k : Kraken) (dialOk : Bool) (now : Nat) : Option Nat × Kraken :=
  let k1 := { k with dialCount := k.dialCount + 1 }
  if dialOk then (some (k.dialCount + 1), { k1 with lastPong := now }) else (none, k1)

/-- `Kraken.send`: the error, if any. -/
def send (k : Kraken) (sendOk : Bool) : Option String × Kraken :=
  match k.conn with
  | none => (some "ws not connected", k)
  | some _ => if sendOk then (none, { k with pings := k.pings + 1 }) else (some "write error", k)

/-- `Kraken.resubscribe`: every subscriber is called on the connection, its
error only logged; the result is always nil. -/
def resubscribe (k : Kraken) : Kraken :=
  if k.conn.isSome ∧ k.subscribers > 0 then { k with subCalls := k.subCalls + k.subscribers }
  else k

/-- A `listenSocket` goroutine returning.  `listenSocket` never reads its
`ctx`: a goroutine that is reading leaves the loop only when a read fails,
and then calls `triggerReconnect` before the deferred `k.wg.Done()`.  (The
other way out, the test `c == nil` at the top of the loop, needs `k.conn`
to be nil while a listener runs, which only a `Close` in between brings
about.) -/
def listenerReturns (k : Kraken) : Kraken :=
  { triggerReconnect k with listeners := k.listeners - 1 }

/-- The branch `case <-k.reconnect` of `managerThread` up to the call of
`k.wg.Wait()`: the signal is taken, `cancel()` is called, which no goroutine
observes, and the manager sleeps `backoff`. -/
def beforeWait (m : Manager) : Kraken :=
  sleep m.backoff { m.k with reconnect := m.k.reconnect - 1 }

/-- Whether `k.wg.Wait()` returns without waiting for a listener: none is
running. -/
def waitReturns (k : Kraken) : Bool := decide (k.listeners = 0)

/-- The state in which `k.wg.Wait()` returns: every running listener has
returned. -/
def afterWait (k : Kraken) : Kraken := listenerReturns^[k.listeners] k

/-- The branch `case <-k.reconnect` of `managerThread`, run to its end.  It
gets past `k.wg.Wait()` only once every running listener has returned
(`afterWait`); while a listener keeps reading, the manager stays in the wait
in the state `beforeWait`. -/
def onReconnect (m : Manager) (dialOk : Bool) (now : Nat) : Manager :=
  let k1 := afterWait (beforeWait m)
  let k2 := safeCloseConn k1
  let backoff1 := if m.backoff < 32 * second then m.backoff * 2 else m.backoff
  match dial k2 dialOk now with
  | (none, k3) =>
    { m with k := triggerReconnect (sleep second { k3 with conn := none }), backoff := backoff1 }
  | (some c, k3) =>
    { m with k := { resubscribe { k3 with conn := some c } with listeners := k3.listeners + 1 },
             backoff := second }

/-- The branch `case <-heartbeat.C` of `managerThread`. -/
def onHeartbeat (m : Manager) (now : Nat) (sendOk : Bool) : Manager :=
  if now - m.k.lastPong > m.k.heartbeatTimeout + m.k.readTimeout then
    { m with k := triggerReconnect m.k }
  else
    match send m.k sendOk with
    | (some _, k1) => { m with k := triggerReconnect k1 }
    | (none, k1) => { m with k := k1 }

/-- One turn of the `for`/`select` loop of `managerThread`.  A branch is
taken only when its channel is ready. -/
def step (m : Manager) (e : Event) : Manager :=
  if m.running = false then m
  else
    match e with
    | Event.reconnectSig dialOk now =>
      if m.k.reconnect = 0 then m else onReconnect m dialOk now
    | Event.stop => if m.k.stopped then { m with running := false } else m
    | Event.heartbeat now sendOk => onHeartbeat m now sendOk

/-- The loop of `managerThread` over a sequence of events. -/
def run (m : Manager) (events : List Event) : Manager := events.foldl step m

/-- The state in which `Connect` starts `managerThread`: connected, one
listener, `backoff` at one second. -/
def managerStart : Manager :=
  { k := { conn := some 1, readTimeout := 30 * second, heartbeatTimeout := 15 * second,
           lastPong := 0, reconnect := 0, stopped := false, listeners := 1, subscribers := 0,
           dialCount := 1, sleeps := [], closedConns := [], pings := 0, subCalls := 0 },
    backoff := second, running := true }

/-- The manager at start with one reconnect signal queued. -/
def managerSignalled : Manager :=
  { managerStart with k := triggerReconnect managerStart.k }

end GoKraken

/-! ### Bitget: connection upkeep (`common/bitgetwsclient.go`) -/

namespace Bitget

/-- `pingInterval`. -/
def pingInterval : Nat := 25 * second

/-- `pongTimeout`. -/
def pongTimeout : Nat := 35 * second

/-- `reconnectBackoff`. -/
def reconnectBackoff : Nat := 3 * second

/-- `loginTimeout`. -/
def loginTimeout : Nat := 5 * second

/-- Modelled from the spec: `constants.WsOpLogin`, declared outside the
sources at hand; the operation of the "dedicated login frame". -/
def WsOpLogin : String := "login"

/-- The fields of `config.BitgetConfig` the client reads. -/
structure BitgetConfig where
  WsUrl : String
  ApiKey : String
  SecretKey : String
  PASSPHRASE : String
deriving DecidableEq, Repr

/-- Modelled from the spec: the signature of `Signer.Sign` (declared outside
the sources at hand), a keyed hash over a canonical string with the
timestamp; kept symbolic. -/
def signOf (secret timestamp : String) : String :=
  "sign(" ++ secret ++ "," ++ timestamp ++ ")"

/-- A Bitget client with the outside world it talks to.

* `b`: the `BitgetBaseWsClient`; `cfg`: its configuration;
* `now`: the clock;
* `dialResult i`: the result of dial number `i` (from 0): `none` when it
  fails, else whether writes on the new connection succeed; `dialCount`:
  the dials made so far;
* `loginAck i`: whether the login event answering login request `i` is
  handled by the read goroutine before `loginTimeout`; `loginCount`: the
  login requests sent so far;
* `calls`: the callback invocations, in order; `closedConns`: the
  connections closed; `sleeps`: the durations passed to `time.Sleep`. -/
structure Session where
  b : BitgetBaseWsClient
  cfg : BitgetConfig
  now : Nat
  dialResult : Nat → Option Bool
  dialCount : Nat
  loginAck : Nat → Bool
  loginCount : Nat
  calls : List Call
  closedConns : List Nat
  sleeps : List Nat

/-- `time.Sleep`. -/
def sleep (d : Nat) (w : Session) : Session :=
  { w with sleeps := w.sleeps ++ [d], now := w.now + d }

/-- `BitgetBaseWsClient.login`: the error, if any, and the state after.  The
wait loop ends at once when `loginOK` is set, otherwise when the login event
is handled or `loginTimeout` has passed. -/
def login (w : Session) : Option String × Session :=
  let ts := toString (w.now / second)
  let req : WsBaseReq :=
    { Op := WsOpLogin
      Args := [Arg.login w.cfg.ApiKey w.cfg.PASSPHRASE ts (signOf w.cfg.SecretKey ts)] }
  match SendByType w.b req with
  | (some err, b1) => (some err, { w with b := b1 })
  | (none, b1) =>
    let w1 := { w with b := b1, loginCount := w.loginCount + 1 }
    if b1.loginOK then (none, w1)
    else if w.loginAck w.loginCount then (none, { w1 with b := { b1 with loginOK := true } })
    else (some "login timeout", sleep loginTimeout w1)

/-- `BitgetBaseWsClient.resubscribe`. -/
def resubscribe (w : Session) : Session :=
  if w.b.allSub.length = 0 then w
  else
    let req : WsBaseReq := { Op := WsOpSubscribe, Args := w.b.allSub.map Arg.sub }
    { w with b := (SendByType w.b req).2 }

/-- `BitgetBaseWsClient.ConnectWebSocket`. -/
def ConnectWebSocket (w : Session) : Session :=
  let w0 := { w with dialCount := w.dialCount + 1 }
  match w.dialResult w.dialCount with
  | none => w0
  | some writable =>
    let conn : Conn := { id := w.dialCount + 1, writable := writable }
    let w1 := { w0 with b := { w0.b with ws := some conn } }
    let w2 := if w1.b.needLogin then (login w1).2 else w1
    resubscribe w2

/-- The block of `Reconnect` that closes and forgets the transport. -/
def dropTransport (w : Session) : Session :=
  match w.b.ws with
  | none => w
  | some c => { w with closedConns := w.closedConns ++ [c.id], b := { w.b with ws := none } }

/-- The call of `reconnectListener("reconnected")` in `Reconnect`, skipped
when the listener is nil. -/
def notifyReconnected (w : Session) : Session :=
  match w.b.reconnectListener with
  | none => w
  | some l => { w with calls := w.calls ++ [{ listener := l, message := "reconnected" }] }

/-- `BitgetBaseWsClient.Reconnect`. -/
def Reconnect (w : Session) : Session :=
  if w.b.reconnecting then w
  else
    let w1 := { w with b := { w.b with reconnecting := true } }
    let w2 := notifyReconnected (ConnectWebSocket (sleep reconnectBackoff (dropTransport w1)))
    { w2 with b := { w2.b with lastPong := w2.now, reconnecting := false } }

/-- One tick of the ticker in `StartPingLoop`, at time `w.now`. -/
def pingTick (w : Session) : Session :=
  if w.now - w.b.lastPong > pongTimeout then Reconnect w
  else
    match Send w.b (Wire.text "ping") with
    | (some _, b1) => Reconnect { w with b := b1 }
    | (none, b1) => { w with b := b1 }

/-- The number of "ping" frames written so far. -/
def pingsSent (w : Session) : Nat :=
  (w.b.sent.filter (fun f => f = Wire.text "ping")).length

/-- The lookup `v, ok := msg[key]`. -/
def mapLookup (m : List (String × Any)) (k : String) : Option Any :=
  (m.find? (fun kv => kv.1 = k)).map (fun kv => kv.2)

/-- The comparison `ev == "login"` of an `any` with a string. -/
def isStr (a : Any) (s : String) : Bool :=
  match a with
  | Any.str t => t = s
  | _ => false

/-- Recording a callback invocation; `none` when the call panicked. -/
def record (w : Session) (c : Option Call) : Option Session :=
  c.map (fun x => { w with calls := w.calls ++ [x] })

/-- The tail of `handleMessage`, after the error-code test: data frames go
to `dispatch`, the rest to the default listener. -/
def handleData (w : Session) (msg : List (String × Any)) (raw : String) : Option Session :=
  match mapLookup msg "data" with
  | some _ => record w (dispatch w.b (mapIndex msg "arg") raw)
  | none => record w (invoke w.b.defListener raw)

/-- The test `ev, ok := msg["event"]; ok && ev == "login"`. -/
def isLoginEvent (msg : List (String × Any)) : Bool :=
  match mapLookup msg "event" with
  | some ev => isStr ev "login"
  | none => false

/-- The part of `handleMessage` from the error-code test on.  The type
assertion `code.(float64)` panics on any other value. -/
def handleCode (w : Session) (msg : List (String × Any)) (raw : String) : Option Session :=
  match mapLookup msg "code" with
  | some (Any.float64 n) =>
    if n ≠ 0 then record w (invoke w.b.errorListener raw) else handleData w msg raw
  | some _ => none
  | none => handleData w msg raw

/-- `BitgetBaseWsClient.handleMessage`, at time `w.now`; `none` when it
panics.  `jsonToMap` is `internal.JSONToMap`, declared outside the sources
at hand. -/
def handleMessage (jsonToMap : String → List (String × Any)) (w : Session) (raw : String) :
    Option Session :=
  if raw = "pong" then some { w with b := { w.b with lastPong := w.now } }
  else if isLoginEvent (jsonToMap raw) then some { w with b := { w.b with loginOK := true } }
  else handleCode w (jsonToMap raw) raw

/-- One turn of the loop in `StartReadLoop` at time `w.now`; `read` is what
`ReadMessage` yields (`none` for an error).  The result is `none` when the
goroutine panics. -/
def readTurn (jsonToMap : String → List (String × Any)) (w : Session) (read : Option String) :
    Option Session :=
  match w.b.ws with
  | none => some (sleep (100 * millisecond) w)
  | some _ =>
    match read with
    | none => some (Reconnect w)
    | some data => handleMessage jsonToMap w data

/-- A connected session around `client0` (default listener 0, error
listener 1) with reconnect listener 2, on which every dial succeeds. -/
def session0 : Session :=
  { b := { client0 with reconnectListener := some 2 },
    cfg := { WsUrl := "wss://ws.bitget.com/mix/v1/stream", ApiKey := "", SecretKey := "",
             PASSPHRASE := "" },
    now := 0, dialResult := fun _ => some true, dialCount := 1, loginAck := fun _ => true,
    loginCount := 0, calls := [], closedConns := [], sleeps := [] }

/-- The session `session0` while a reconnect is in flight. -/
def sessionReconnecting : Session :=
  { session0 with b := { session0.b with reconnecting := true } }

/-- The session `session0` at second 36, with `lastPong` still at 0. -/
def sessionLate : Session := { session0 with now := 36 * second }

/-- A decoder that knows three frames: an error frame whose code is a
string, a data frame without `arg`, and a subscribe acknowledgement. -/
def sampleDecode (raw : String) : List (String × Any) :=
  if raw = "\x7b\"code\":\"30001\"\x7d" then [("code", Any.str "30001")]
  else if raw = "\x7b\"data\":[]\x7d" then [("data", Any.slice [])]
  else if raw = "\x7b\"event\":\"subscribe\"\x7d" then [("event", Any.str "subscribe")]
  else []

end Bitget

/-! ### gatews: sample services for the private channels -/

namespace Gatews

/-- The service `svcUp` without credentials, with "spot.orders" marked as a
private channel in `authChannel`. -/
def svcPrivate : WsService :=
  { svcUp with authChannel := fun c => decide (c = "spot.orders") }

/-- The service `svcUp` on which every write fails with an error that is
not a network error. -/
def svcWriteFails : WsService :=
  { svcUp with writeResult := fun _ => WriteResult.otherErr }

end Gatews

/-! ### okx: the public channel (`okx/okx_v5_ws_public.go`) -/

namespace Okx

/-- A Go `[]byte`. -/
abbrev Bytes := List UInt8

/-- The bytes of the string "pong". -/
def pong : Bytes := [112, 111, 110, 103]

/-- `OKExV5WsPublic.handle`, for a client whose callback `hand` is `none`
(nil) or a function from the message to its error: the messages `hand` was
invoked with, in order, and the error returned (`none` for nil). -/
def handle (hand : Option (Bytes → Option String)) (bs : Bytes) :
    List Bytes × Option String :=
  if bs = pong then ([], none)
  else
    match hand with
    | some f => ([bs], f bs)
    | none => ([], none)

end Okx

/-! ### bybit: the dispatch queue -/

namespace Bybit

/-- The buffered send `c.handleQueue <- bs`. -/
def enqueue (c : WsClient) (bs : String) : WsClient :=
  { c with handleQueue := c.handleQueue ++ [bs] }

/-- `WsClient.dispatch`.  The `select` takes a ready case: the send when the
queue has room, `ctx.Done()` when the context is cancelled (`pickSend`
settles the choice when both are ready), and `default`, which drops the
message, when neither is. -/
def dispatch (c : WsClient) (bs : String) (pickSend : Bool) : WsClient :=
  if c.handleQueue.length < handleQueueSize then
    if c.cancelled then (if pickSend then enqueue c bs else c) else enqueue c bs
  else c

/-- What happens to the queue: the read loop dispatches a frame, or a
worker takes the message at the head. -/
inductive QueueOp
  | frame (bs : String) (pickSend : Bool)
  | take
deriving DecidableEq, Repr

/-- One operation on the queue. -/
def applyQueueOp (c : WsClient) : QueueOp → WsClient
  | QueueOp.frame bs pickSend => dispatch c bs pickSend
  | QueueOp.take => { c with handleQueue := c.handleQueue.tail }

/-- A sequence of operations on the queue, in order. -/
def runQueue (c : WsClient) (ops : List QueueOp) : WsClient := ops.foldl applyQueueOp c

/-- The frames received in a sequence of operations, in order. -/
def framesOf : List QueueOp → List String
  | [] => []
  | QueueOp.frame bs _ :: rest => bs :: framesOf rest
  | QueueOp.take :: rest => framesOf rest

/-- The client `clientDown` with its queue filled by 4096 messages. -/
def clientFull : WsClient :=
  { clientDown with handleQueue := List.replicate handleQueueSize "m" }

end Bybit

/-! ### Kraken: signals and shutdown -/

namespace GoKraken

/-- Who acts on the client next: some goroutine calls `triggerReconnect`, or
`managerThread` takes an event. -/
inductive Action
  | trigger
  | manager (e : Event)
deriving DecidableEq, Repr

/-- One action. -/
def act (m : Manager) : Action → Manager
  | Action.trigger => { m with k := triggerReconnect m.k }
  | Action.manager e => step m e

/-- A sequence of actions, in order. -/
def runActions (m : Manager) (actions : List Action) : Manager := actions.foldl act m

/-- `Kraken.Close`; `none` when it panics.  The channels `stop` and `msg`
are closed only here, one after the other, so `stopped` stands for both;
closing a closed channel panics. -/
def Close (k : Kraken) : Option Kraken :=
  let k1 := safeCloseConn k
  if k1.stopped then none else some { k1 with stopped := true }

end GoKraken

/-! ### JSON as `encoding/json` reads it -/

namespace GoJson

/-- A JSON value.  Numbers are integer literals (`int`) or any other
numeral, kept as its text (`real`). -/
inductive Json
  | null
  | bool (b : Bool)
  | int (neg : Bool) (n : Nat)
  | real (text : String)
  | str (s : String)
  | arr (items : List Json)
  | obj (members : List (String × Json))

/-- A JSON text as the sequence of its tokens: white space, string escapes
and the spelling of integers are abstracted away. -/
inductive Tok
  | lbrace
  | rbrace
  | lbrack
  | rbrack
  | comma
  | colon
  | null
  | bool (b : Bool)
  | int (neg : Bool) (n : Nat)
  | real (text : String)
  | str (s : String)
deriving DecidableEq, Repr

mutual
/-- The text of a JSON value. -/
def toks : Json → List Tok
  | Json.null => [Tok.null]
  | Json.bool b => [Tok.bool b]
  | Json.int neg n => [Tok.int neg n]
  | Json.real t => [Tok.real t]
  | Json.str s => [Tok.str s]
  | Json.arr items => Tok.lbrack :: (toksItems items ++ [Tok.rbrack])
  | Json.obj members => Tok.lbrace :: (toksMembers members ++ [Tok.rbrace])
/-- The elements of an array, separated by commas. -/
def toksItems : List Json → List Tok
  | [] => []
  | [x] => toks x
  | x :: y :: rest => toks x ++ Tok.comma :: toksItems (y :: rest)
/-- The members of an object, separated by commas. -/
def toksMembers : List (String × Json) → List Tok
  | [] => []
  | [(k, v)] => Tok.str k :: Tok.colon :: toks v
  | (k, v) :: m :: rest => Tok.str k :: Tok.colon :: (toks v ++ Tok.comma :: toksMembers (m :: rest))
end

mutual
/-- The scanner of `encoding/json` on one value at the head of the text:
the value and the text left, or `none` on a syntax error. -/
def parseValue : Nat → List Tok → Option (Json × List Tok)
  | 0, _ => none
  | _ + 1, Tok.null :: r => some (Json.null, r)
  | _ + 1, Tok.bool b :: r => some (Json.bool b, r)
  | _ + 1, Tok.int neg n :: r => some (Json.int neg n, r)
  | _ + 1, Tok.real t :: r => some (Json.real t, r)
  | _ + 1, Tok.str s :: r => some (Json.str s, r)
  | _ + 1, Tok.lbrack :: Tok.rbrack :: r => some (Json.arr [], r)
  | fuel + 1, Tok.lbrack :: r =>
    match parseItems fuel r with
    | some (items, Tok.rbrack :: r1) => some (Json.arr items, r1)
    | _ => none
  | _ + 1, Tok.lbrace :: Tok.rbrace :: r => some (Json.obj [], r)
  | fuel + 1, Tok.lbrace :: r =>
    match parseMembers fuel r with
    | some (members, Tok.rbrace :: r1) => some (Json.obj members, r1)
    | _ => none
  | _ + 1, _ => none
/-- One or more values separated by commas. -/
def parseItems : Nat → List Tok → Option (List Json × List Tok)
  | 0, _ => none
  | fuel + 1, ts =>
    match parseValue fuel ts with
    | some (v, Tok.comma :: r) =>
      match parseItems fuel r with
      | some (vs, r1) => some (v :: vs, r1)
      | none => none
    | some (v, r) => some ([v], r)
    | none => none
/-- One or more members separated by commas. -/
def parseMembers : Nat → List Tok → Option (List (String × Json) × List Tok)
  | 0, _ => none
  | fuel + 1, Tok.str k :: Tok.colon :: ts =>
    match parseValue fuel ts with
    | some (v, Tok.comma :: r) =>
      match parseMembers fuel r with
      | some (ms, r1) => some ((k, v) :: ms, r1)
      | none => none
    | some (v, r) => some ([(k, v)], r)
    | none => none
  | _ + 1, _ => none
end

/-- The syntax check and parse of a whole JSON text (`none`: a syntax
error; the empty text is one, "unexpected end of JSON input"). -/
def parse (ts : List Tok) : Option Json :=
  match parseValue (2 * ts.length) ts with
  | some (v, []) => some v
  | _ => none

/-- The `Value` of an `UnmarshalTypeError`: the kind of JSON value that did
not fit the Go target. -/
def kind : Json → String
  | Json.null => "null"
  | Json.bool _ => "bool"
  | Json.int _ _ => "number"
  | Json.real _ => "number"
  | Json.str _ => "string"
  | Json.arr _ => "array"
  | Json.obj _ => "object"

/-- An error returned by `encoding/json` or by a decoder built on it; the
texts are abbreviated. -/
inductive Err
  | malformed
  | mismatch (value : String)
  | invalidNumber
  | other (msg : String)
deriving DecidableEq, Repr

/-- How a decoding step fails: `soft` errors are saved (`d.saveError`) and
decoding goes on, `hard` errors end the call at once. -/
inductive Fault
  | soft (e : Err)
  | hard (e : Err)
deriving DecidableEq, Repr

/-- What one JSON value does to one Go target: `keep` leaves it as it was. -/
inductive Assign (α : Type)
  | keep
  | set (a : α)
  | soft (e : Err)
  | hard (e : Err)

/-- A Go target inside a larger value `σ`: decoding a JSON value into it
gives the new `σ` and possibly a fault. -/
abbrev Target (σ : Type) := Json → σ → σ × Option Fault

/-- Apply an assignment through the setter of a field. -/
def store {σ α : Type} (a : Assign α) (put : α → σ → σ) (s : σ) : σ × Option Fault :=
  match a with
  | Assign.keep => (s, none)
  | Assign.set x => (put x s, none)
  | Assign.soft e => (s, some (Fault.soft e))
  | Assign.hard e => (s, some (Fault.hard e))

/-- The text of an integer literal. -/
def intText (neg : Bool) (n : Nat) : String :=
  (if neg then "-" else "") ++ toString n

/-- The value of an integer literal. -/
def intValue (neg : Bool) (n : Nat) : Int :=
  if neg then -(n : Int) else (n : Int)

/-- Skip a run of decimal digits. -/
def skipDigits : List Char → List Char
  | [] => []
  | c :: cs => if c.isDigit then skipDigits cs else c :: cs

/-- The integer part of a number: `0`, or a non-zero digit and more digits. -/
def afterInt : List Char → Option (List Char)
  | [] => none
  | c :: cs =>
    if c = '0' then some cs
    else if '1' ≤ c ∧ c ≤ '9' then some (skipDigits cs)
    else none

/-- The optional fraction: `.` followed by one or more digits. -/
def afterFrac : List Char → List Char
  | c :: d :: cs => if c = '.' ∧ d.isDigit then skipDigits cs else c :: d :: cs
  | cs => cs

/-- The optional exponent: `e` or `E`, an optional sign, digits. -/
def afterExp : List Char → Option (List Char)
  | e :: c :: cs =>
    if e = 'e' ∨ e = 'E' then
      if c = '+' ∨ c = '-' then
        if cs = [] then none else some (skipDigits cs)
      else some (skipDigits (c :: cs))
    else some (e :: c :: cs)
  | cs => some cs

/-- The grammar test `isValidNumber` of `encoding/json` on the characters of
a string. -/
def validNumberChars (s : List Char) : Bool :=
  match s with
  | [] => false
  | c :: cs =>
    let body := if c = '-' then cs else c :: cs
    if body = [] then false
    else
      match afterInt body with
      | none => false
      | some r =>
        match afterExp (afterFrac r) with
        | none => false
        | some rest => rest = []

/-- The test `isValidNumber` of `encoding/json`. -/
def isValidNumber (s : String) : Bool := validNumberChars s.toList

/-- Decode into an `int64`: an integer literal in range is stored, `null`
changes nothing, everything else is a type error. -/
def decodeInt64 : Json → Assign Int
  | Json.null => Assign.keep
  | Json.int neg n =>
    if -(2 : Int) ^ 63 ≤ intValue neg n ∧ intValue neg n < (2 : Int) ^ 63 then
      Assign.set (intValue neg n)
    else Assign.soft (Err.mismatch "number")
  | v => Assign.soft (Err.mismatch (kind v))

/-- Decode into a `string`. -/
def decodeString : Json → Assign String
  | Json.null => Assign.keep
  | Json.str s => Assign.set s
  | v => Assign.soft (Err.mismatch (kind v))

/-- Decode into a `json.Number`: a numeral is stored as its text, a string is
stored if it spells a number and ends the call with an error otherwise. -/
def decodeNumber : Json → Assign String
  | Json.null => Assign.keep
  | Json.int neg n => Assign.set (intText neg n)
  | Json.real t => Assign.set t
  | Json.str s => if isValidNumber s then Assign.set s else Assign.hard Err.invalidNumber
  | v => Assign.soft (Err.mismatch (kind v))

/-- Decode into a `json.RawMessage` held behind an interface: the text of
the value is stored, except that a literal `null` leaves the target as it
was (the decoder does not look through the interface for `null`). -/
def decodeRaw : Json → Assign (List Tok)
  | Json.null => Assign.keep
  | v => Assign.set (toks v)

mutual
/-- Decode into an empty `interface{}`: the only possible error is a
number outside the range of `float64`; `fits` is `strconv.ParseFloat` on
the text of a numeral that is not an integer literal. -/
def interfaceFault (fits : String → Bool) : Json → Option Err
  | Json.int _ n => if n < 2 ^ 1024 - 2 ^ 970 then none else some (Err.mismatch "number")
  | Json.real t => if fits t then none else some (Err.mismatch "number")
  | Json.arr items => interfaceFaultItems fits items
  | Json.obj members => interfaceFaultMembers fits members
  | _ => none
/-- The first range error among the elements of an array. -/
def interfaceFaultItems (fits : String → Bool) : List Json → Option Err
  | [] => none
  | x :: xs =>
    match interfaceFault fits x with
    | some e => some e
    | none => interfaceFaultItems fits xs
/-- The first range error among the members of an object. -/
def interfaceFaultMembers (fits : String → Bool) : List (String × Json) → Option Err
  | [] => none
  | (_, x) :: ms =>
    match interfaceFault fits x with
    | some e => some e
    | none => interfaceFaultMembers fits ms
end

/-- Keep the first saved error. -/
def saveError (saved : Option Err) (e : Err) : Option Err :=
  match saved with
  | some e0 => some e0
  | none => some e

/-- Decode the elements of a JSON array into a slice of targets, position
by position.  Elements beyond the targets go into fresh empty interfaces;
targets beyond the elements are left alone.  A soft error is saved and the
next element is decoded; a hard error ends the decoding. -/
def decodeArray {σ : Type} (fits : String → Bool) :
    List (Target σ) → List Json → σ → Option Err → σ × Option Err
  | _, [], s, saved => (s, saved)
  | [], x :: rest, s, saved =>
    match interfaceFault fits x with
    | some e => decodeArray fits [] rest s (saveError saved e)
    | none => decodeArray fits [] rest s saved
  | t :: ts, x :: rest, s, saved =>
    match t x s with
    | (s1, none) => decodeArray fits ts rest s1 saved
    | (s1, some (Fault.soft e)) => decodeArray fits ts rest s1 (saveError saved e)
    | (s1, some (Fault.hard e)) => (s1, some e)

/-- The call `json.Unmarshal(data, &body)` for a slice `body` of pointers
held in interfaces.  `data = none` is the nil slice left by a failed
`json.Marshal`.  The result is the error and the value after the call. -/
def unmarshalArray {σ : Type} (fits : String → Bool) (body : List (Target σ))
    (data : Option (List Tok)) (s : σ) : Option Err × σ :=
  match data.bind parse with
  | none => (some Err.malformed, s)
  | some Json.null => (none, s)
  | some (Json.arr items) =>
    match decodeArray fits body items s none with
    | (s1, e) => (e, s1)
  | some v => (some (Err.mismatch (kind v)), s)

/-- The call `json.Unmarshal(data, &raw)` for `raw []json.RawMessage`: the
texts of the elements of an array; `null` gives the nil slice. -/
def unmarshalRawList (data : List Tok) : Except Err (List (List Tok)) :=
  match parse data with
  | none => Except.error Err.malformed
  | some Json.null => Except.ok []
  | some (Json.arr items) => Except.ok (items.map toks)
  | some v => Except.error (Err.mismatch (kind v))

/-- Texts separated by commas. -/
def joinComma : List (List Tok) → List Tok
  | [] => []
  | [r] => r
  | r :: s :: rest => r ++ Tok.comma :: joinComma (s :: rest)

/-- The call `json.Marshal` on a slice of non-nil `json.RawMessage`: every
element must be valid JSON (the encoder compacts it, which at the level of
tokens changes nothing); `none` is the error. -/
def marshalRawList (raws : List (List Tok)) : Option (List Tok) :=
  if raws.all (fun r => (parse r).isSome) then
    some (Tok.lbrack :: (joinComma raws ++ [Tok.rbrack]))
  else none

/-- Whether an object key selects the struct field of the given lower-case
ASCII name: equal up to simple case folding, under which the long s and the
Kelvin sign fold to `s` and `k`. -/
def foldChar (c : Char) : Char :=
  if c = Char.ofNat 0x17F then 's' else if c = Char.ofNat 0x212A then 'k' else c.toLower

/-- The key of a struct field given by its tag, matched as the decoder does. -/
def fieldMatches (name key : String) : Bool :=
  key.toList.map foldChar = name.toList

end GoJson

/-! ### Kraken: the decoders of the data frames (`go_kraken/websocket/data.go`) -/

namespace GoKraken

open GoJson

/-- The struct `Seq`. -/
structure Seq where
  Value : Int
deriving DecidableEq, Repr

/-- The struct `Message`; a `json.RawMessage` is the text it holds, empty
for nil. -/
structure Message where
  ChannelID : Int
  Data : List Tok
  ChannelName : String
  Pair : String
  Sequence : Seq
deriving DecidableEq, Repr

/-- Decode the members of an object into a `Seq`: the member `sequence`
goes to `Value`, other members are skipped. -/
def decodeSeqMembers : List (String × Json) → Seq → Option Err → Seq × Option Fault
  | [], s, saved => (s, saved.map Fault.soft)
  | (key, v) :: rest, s, saved =>
    if fieldMatches "sequence" key then
      match decodeInt64 v with
      | Assign.keep => decodeSeqMembers rest s saved
      | Assign.set z => decodeSeqMembers rest { s with Value := z } saved
      | Assign.soft e => decodeSeqMembers rest s (saveError saved e)
      | Assign.hard e => (s, some (Fault.hard e))
    else decodeSeqMembers rest s saved

/-- Decode into a `Seq`. -/
def decodeSeq (v : Json) (s : Seq) : Seq × Option Fault :=
  match v with
  | Json.null => (s, none)
  | Json.obj members => decodeSeqMembers members s none
  | v => (s, some (Fault.soft (Err.mismatch (kind v))))

/-- The target `&msg.ChannelID`. -/
def Message.channelIDTarget : Target Message :=
  fun v msg => store (decodeInt64 v) (fun z m => { m with ChannelID := z }) msg

/-- The target `&msg.Data`. -/
def Message.dataTarget : Target Message :=
  fun v msg => store (decodeRaw v) (fun r m => { m with Data := r }) msg

/-- The target `&msg.ChannelName`. -/
def Message.channelNameTarget : Target Message :=
  fun v msg => store (decodeString v) (fun x m => { m with ChannelName := x }) msg

/-- The target `&msg.Pair`. -/
def Message.pairTarget : Target Message :=
  fun v msg => store (decodeString v) (fun x m => { m with Pair := x }) msg

/-- The target `&msg.Sequence`. -/
def Message.sequenceTarget : Target Message :=
  fun v msg =>
    match decodeSeq v msg.Sequence with
    | (s, f) => ({ msg with Sequence := s }, f)

/-- The block `if len(raw) == 5` of `Message.UnmarshalJSON`: the new value
of `data`, `none` inside when `json.Marshal` failed (its error is dropped),
or the error returned. -/
def Message.mergeBook (raw : List (List Tok)) (data : List Tok) :
    Except Err (Option (List Tok)) :=
  match raw with
  | [r0, ask, bid, r3, r4] =>
    if ask.getLast? ≠ some Tok.rbrace ∨ bid.head? ≠ some Tok.lbrace then
      Except.error (Err.other "invalid data length/payload")
    else
      let merged := ask.dropLast ++ Tok.comma :: bid.drop 1
      Except.ok (marshalRawList [r0, merged, r3, r4])
  | _ => Except.ok (some data)

/-- The method `Message.UnmarshalJSON`: the error returned and the message
after the call. -/
def Message.UnmarshalJSON (fits : String → Bool) (msg : Message) (data : List Tok) :
    Option Err × Message :=
  match unmarshalRawList data with
  | Except.error e => (some e, msg)
  | Except.ok raw =>
    if raw.length < 3 then (some (Err.other "invalid data length"), msg)
    else
      match Message.mergeBook raw data with
      | Except.error e => (some e, msg)
      | Except.ok data1 =>
        let body : List (Target Message) :=
          if raw.length = 3 then
            [Message.dataTarget, Message.channelNameTarget, Message.sequenceTarget]
          else
            [Message.channelIDTarget, Message.dataTarget, Message.channelNameTarget,
              Message.pairTarget]
        unmarshalArray fits body data1 msg

/-- The zero `Message`. -/
def message0 : Message :=
  { ChannelID := 0, Data := [], ChannelName := "", Pair := "", Sequence := { Value := 0 } }

/-- The struct `Spread`. -/
structure Spread where
  Ask : String
  Bid : String
  AskVolume : String
  BidVolume : String
  Time : String
deriving DecidableEq, Repr

/-- The method `Spread.UnmarshalJSON`, with the targets in the order of the
source: `&s.Bid, &s.Ask, &s.Time, &s.AskVolume, &s.BidVolume, &s.Time`. -/
def Spread.UnmarshalJSON (fits : String → Bool) (s : Spread) (data : List Tok) :
    Option Err × Spread :=
  let raw : List (Target Spread) :=
    [fun v s => store (decodeNumber v) (fun x s => { s with Bid := x }) s,
     fun v s => store (decodeNumber v) (fun x s => { s with Ask := x }) s,
     fun v s => store (decodeNumber v) (fun x s => { s with Time := x }) s,
     fun v s => store (decodeNumber v) (fun x s => { s with AskVolume := x }) s,
     fun v s => store (decodeNumber v) (fun x s => { s with BidVolume := x }) s,
     fun v s => store (decodeNumber v) (fun x s => { s with Time := x }) s]
  unmarshalArray fits raw (some data) s

/-- The zero `Spread`. -/
def spread0 : Spread :=
  { Ask := "", Bid := "", AskVolume := "", BidVolume := "", Time := "" }

/-- A spread payload as Kraken sends it:
`[bid, ask, timestamp, bidVolume, askVolume]`. -/
def spreadSample : List Tok :=
  toks (Json.arr [Json.str "5698.4", Json.str "5700.0", Json.str "1542057299.5",
    Json.str "1.5", Json.str "0.25"])

/-- The struct `OrderBookItem`. -/
structure OrderBookItem where
  Price : String
  Volume : String
  Time : String
  Republish : Bool
deriving DecidableEq, Repr

/-- The zero `OrderBookItem`. -/
def item0 : OrderBookItem := { Price := "", Volume := "", Time := "", Republish := false }

/-- The call `json.Unmarshal(raw, &n)` for a `json.Number` field. -/
def unmarshalNumber (raw : List Tok) (old : String) : Option Err × String :=
  match parse raw with
  | none => (some Err.malformed, old)
  | some v =>
    match decodeNumber v with
    | Assign.keep => (none, old)
    | Assign.set x => (none, x)
    | Assign.soft e => (some e, old)
    | Assign.hard e => (some e, old)

/-- The method `OrderBookItem.UnmarshalJSON`. -/
def OrderBookItem.UnmarshalJSON (obi : OrderBookItem) (data : List Tok) :
    Option Err × OrderBookItem :=
  match unmarshalRawList data with
  | Except.error e => (some e, obi)
  | Except.ok raw =>
    match raw with
    | r0 :: r1 :: r2 :: rest =>
      let obi1 := { obi with Republish := decide ((r0 :: r1 :: r2 :: rest).length = 4) }
      match unmarshalNumber r0 obi1.Price with
      | (some e, _) => (some e, obi1)
      | (none, price) =>
        let obi2 := { obi1 with Price := price }
        match unmarshalNumber r1 obi2.Volume with
        | (some e, _) => (some e, obi2)
        | (none, volume) =>
          let obi3 := { obi2 with Volume := volume }
          match unmarshalNumber r2 obi3.Time with
          | (e, time) => (e, { obi3 with Time := time })
    | _ => (some (Err.other "Invalid order book item"), obi)

/-- Decode the elements of an array into a slice of `OrderBookItem`: element
`i` is decoded into the old element `i` if there is one and into a zero item
otherwise; the first error ends the decoding and leaves the old elements
behind it in place. -/
def decodeItems : List Json → List OrderBookItem → List OrderBookItem × Option Err
  | [], _ => ([], none)
  | v :: rest, old =>
    match OrderBookItem.UnmarshalJSON (old.headD item0) (toks v) with
    | (some e, item) => (item :: old.tail, some e)
    | (none, item) =>
      match decodeItems rest old.tail with
      | (items, e) => (item :: items, e)

/-- The call `json.Unmarshal(raw, &items)` for `items []OrderBookItem`. -/
def unmarshalItems (raw : List Tok) (old : List OrderBookItem) :
    Option Err × List OrderBookItem :=
  match parse raw with
  | none => (some Err.malformed, old)
  | some Json.null => (none, [])
  | some (Json.arr items) =>
    match decodeItems items old with
    | (new, e) => (e, new)
  | some v => (some (Err.mismatch (kind v)), old)

/-- The call `json.Unmarshal(raw, &s)` for a `string`. -/
def unmarshalString (raw : List Tok) (old : String) : Option Err × String :=
  match parse raw with
  | none => (some Err.malformed, old)
  | some v =>
    match decodeString v with
    | Assign.keep => (none, old)
    | Assign.set x => (none, x)
    | Assign.soft e => (some e, old)
    | Assign.hard e => (some e, old)

/-- The struct `OrderBookUpdate`. -/
structure OrderBookUpdate where
  Asks : List OrderBookItem
  Bids : List OrderBookItem
  CheckSum : String
  IsSnapshot : Bool
deriving DecidableEq, Repr

/-- The zero `OrderBookUpdate`. -/
def update0 : OrderBookUpdate := { Asks := [], Bids := [], CheckSum := "", IsSnapshot := false }

/-- Store a member in a Go map held as a list of distinct keys: a key that
is already there gets the new value. -/
def mapStore (body : List (String × List Tok)) (key : String) (raw : List Tok) :
    List (String × List Tok) :=
  if body.any (fun e => e.1 == key) then
    body.map (fun e => if e.1 == key then (key, raw) else e)
  else body ++ [(key, raw)]

/-- The call `json.Unmarshal(data, &body)` for
`body map[string]json.RawMessage`. -/
def unmarshalRawMap (data : List Tok) : Except Err (List (String × List Tok)) :=
  match parse data with
  | none => Except.error Err.malformed
  | some Json.null => Except.ok []
  | some (Json.obj members) =>
    Except.ok (members.foldl (fun body m => mapStore body m.1 (toks m.2)) [])
  | some v => Except.error (Err.mismatch (kind v))

/-- The outcome of a call that may panic. -/
inductive Crash (α : Type)
  | returned (a : α)
  | panicked (msg : String)
deriving DecidableEq, Repr

/-- The loop `for key, raw := range body` of `OrderBookUpdate.UnmarshalJSON`
over the entries in the order the runtime yields them.  `len(key)` counts
bytes; `key[0]` is the first byte, which is `a`, `b` or `c` exactly when the
first character is; indexing the empty key panics. -/
def rangeBody : List (String × List Tok) → OrderBookUpdate →
    Crash (Option Err × OrderBookUpdate)
  | [], obu => Crash.returned (none, obu)
  | (key, raw) :: rest, obu =>
    let obu1 := if key.utf8ByteSize = 2 then { obu with IsSnapshot := true } else obu
    match key.toList.head? with
    | none => Crash.panicked "index out of range [0] with length 0"
    | some c =>
      if c = 'a' then
        match unmarshalItems raw obu1.Asks with
        | (some e, asks) => Crash.returned (some e, { obu1 with Asks := asks })
        | (none, asks) => rangeBody rest { obu1 with Asks := asks }
      else if c = 'b' then
        match unmarshalItems raw obu1.Bids with
        | (some e, bids) => Crash.returned (some e, { obu1 with Bids := bids })
        | (none, bids) => rangeBody rest { obu1 with Bids := bids }
      else if c = 'c' then
        match unmarshalString raw obu1.CheckSum with
        | (some e, sum) => Crash.returned (some e, { obu1 with CheckSum := sum })
        | (none, sum) => rangeBody rest { obu1 with CheckSum := sum }
      else rangeBody rest obu1

/-- The method `OrderBookUpdate.UnmarshalJSON`; `order` is the order in
which the runtime ranges over the map. -/
def OrderBookUpdate.UnmarshalJSON
    (order : List (String × List Tok) → List (String × List Tok))
    (obu : OrderBookUpdate) (data : List Tok) : Crash (Option Err × OrderBookUpdate) :=
  match unmarshalRawMap data with
  | Except.error e => Crash.returned (some e, obu)
  | Except.ok body => rangeBody (order body) obu

end GoKraken

/-! ### huobi (`huobi/websocket.go`) -/

namespace Huobi

/-- The capacity of `handleCh` in `readLoop`. -/
def handleBacklog : Nat := 4096

/-- `WsClient` and the outside world it talks to.

* `hasSubscriber`: whether `Options.subscriber` is set;
* `cancelled`: whether `ctx` is done; `closed`: whether `closeCh` has been
  closed;
* `conn`: the current connection (`none` for nil);
* `pingCancel`: the number of the keep-alive goroutine whose cancel function
  is stored (`none` for nil); `pingLoops`: the keep-alive goroutines
  started; `pingCancels`: the keep-alive goroutines cancelled;
* `isRedial`: the atomic flag (`true` for 1);
* `readLoops`: the `readLoop` goroutines started by `reDial`;
  `redialTasks`: the goroutines started by `triggerReDial`;
* `dialResult i`, `dialCount`: the results of the dials and the dials made;
  `subscribeResult`, `subscribeCount`: likewise for the calls of
  `subscriber`;
* `waits`: the durations waited on `time.After`; `closedConns`: the
  connections closed. -/
structure WsClient where
  hasSubscriber : Bool
  cancelled : Bool
  closed : Bool
  conn : Option Nat
  pingCancel : Option Nat
  pingLoops : Nat
  pingCancels : List Nat
  isRedial : Bool
  readLoops : Nat
  redialTasks : Nat
  dialResult : Nat → Bool
  dialCount : Nat
  subscribeResult : Nat → Bool
  subscribeCount : Nat
  waits : List Nat
  closedConns : List Nat

/-- The outcome of `reDial`. -/
inductive Outcome
  /-- It returned the given error (`none` for nil). -/
  | done (err : Option String) (c : WsClient)
  /-- The loop is still running after the iterations unrolled. -/
  | running (c : WsClient)

/-- The state an outcome ends in. -/
def Outcome.state : Outcome → WsClient
  | Outcome.done _ c => c
  | Outcome.running c => c

/-- `WsClient.Close`; `none` when it panics.  Once `closeCh` is closed the
call does nothing; otherwise it closes `closeCh`, cancels the context and
the keep-alive goroutine and closes the connection, which panics on a nil
connection. -/
def Close (c : WsClient) : Option WsClient :=
  if c.closed then some c
  else
    let c1 := { c with closed := true, cancelled := true }
    let c2 :=
      match c1.pingCancel with
      | none => c1
      | some p => { c1 with pingCancels := c1.pingCancels ++ [p] }
    match c2.conn with
    | none => none
    | some k => some { c2 with closedConns := c2.closedConns ++ [k] }

/-- `WsClient.startAlivePing`. -/
def startAlivePing (c : WsClient) : WsClient :=
  let c1 :=
    match c.pingCancel with
    | none => c
    | some p => { c with pingCancels := c.pingCancels ++ [p] }
  { c1 with pingCancel := some (c1.pingLoops + 1), pingLoops := c1.pingLoops + 1 }

/-- `WsClient.dial`: whether it returned a nil error, and the state after. -/
def dial (c : WsClient) : Bool × WsClient :=
  let c1 := { c with dialCount := c.dialCount + 1 }
  if c.dialResult c.dialCount then
    let c2 := startAlivePing c1
    (true, { c2 with
      closedConns := c2.closedConns ++ c2.conn.toList
      conn := some (c.dialCount + 1) })
  else (false, c1)

/-- The call `c.subscriber(c.conn, c.subscribeArgs...)`. -/
def subscriber (c : WsClient) : Bool × WsClient :=
  (c.subscribeResult c.subscribeCount, { c with subscribeCount := c.subscribeCount + 1 })

/-- The loop of `reDial`, with `backoff` as it stands at the top of an
iteration; `fuel` bounds the iterations unrolled.  After a failed dial the
`select` returns the context error when the context is done and waits
`backoff` otherwise. -/
def reDialLoop : Nat → Nat → WsClient → Outcome
  | 0, _, c => Outcome.running c
  | fuel + 1, backoff, c =>
    match dial c with
    | (false, c1) =>
      let backoff1 := if backoff < 32 * second then backoff + 2 * second else backoff
      if c1.cancelled then Outcome.done (some "context canceled") c1
      else reDialLoop fuel backoff1 { c1 with waits := c1.waits ++ [backoff1] }
    | (true, c1) =>
      if c1.hasSubscriber then
        match subscriber c1 with
        | (false, c2) =>
          reDialLoop fuel backoff { c2 with closedConns := c2.closedConns ++ c2.conn.toList }
        | (true, c2) => Outcome.done none { c2 with readLoops := c2.readLoops + 1 }
      else Outcome.done none { c1 with readLoops := c1.readLoops + 1 }

/-- `WsClient.reDial`, its loop unrolled `fuel` times. -/
def reDial (fuel : Nat) (c : WsClient) : Outcome := reDialLoop fuel second c

/-- `WsClient.triggerReDial`, up to the `go` statement: the goroutine it
starts is counted in `redialTasks` and runs `redialTask`. -/
def triggerReDial (c : WsClient) : WsClient :=
  if c.isRedial then c
  else
    let c1 := { c with isRedial := true }
    if c1.closed then c1
    else
      let c2 := { c1 with closedConns := c1.closedConns ++ c1.conn.toList }
      { c2 with redialTasks := c2.redialTasks + 1 }

/-- How the goroutine of `triggerReDial` ends. -/
inductive Task
  | finished (c : WsClient)
  | panicked (c : WsClient)
  | running (c : WsClient)

/-- The goroutine started by `triggerReDial`: `reDial`, `Close` if it
failed, and the deferred reset of `isRedial`.  (`reDialMu` is locked
nowhere else.) -/
def redialTask (fuel : Nat) (c : WsClient) : Task :=
  match reDial fuel c with
  | Outcome.running c1 => Task.running c1
  | Outcome.done none c1 => Task.finished { c1 with isRedial := false }
  | Outcome.done (some _) c1 =>
    match Close c1 with
    | none => Task.panicked { c1 with isRedial := false }
    | some c2 => Task.finished { c2 with isRedial := false }

/-- One `readLoop` goroutine: the client, the content of its `handleCh`,
whether it has returned, and the durations it slept. -/
structure ReadLoop where
  client : WsClient
  handleCh : List String
  exited : Bool
  sleeps : List Nat

/-- What one iteration of `readLoop` meets.

* `readOk`: whether `ReadMessage` returned a nil error;
* `deadlineOk`: whether `SetReadDeadline` did;
* `unzipped`: the result of `ParseGzip` (`none` for an error);
* `pongWriteOk`, `pongDeadlineOk`: whether the write and the
  `SetReadDeadline` of `writePong` succeed;
* `pickClose`: the choice of the last `select` when both `closeCh` and the
  send are ready. -/
structure Read where
  readOk : Bool
  deadlineOk : Bool
  unzipped : Option String
  pongWriteOk : Bool
  pongDeadlineOk : Bool
  pickClose : Bool
deriving DecidableEq, Repr

/-- `WsClient.writePong`: whether it returned a nil error.  A failed write
triggers a redial inside `safeWrite`. -/
def writePong (c : WsClient) (ev : Read) : Bool × WsClient :=
  if ev.pongWriteOk then (ev.pongDeadlineOk, c) else (false, triggerReDial c)

/-- One iteration of the `for` loop of `readLoop`.  `isPing` is the test
`json.Unmarshal(bs, &ping) == nil && ping.Ping > 0`.  In the last `select`
the send on `handleCh` is ready when the channel has room; when no case is
ready, `default` runs and the message just read is dropped. -/
def readTurn (isPing : String → Bool) (r : ReadLoop) (ev : Read) : ReadLoop :=
  if r.exited then r
  else if ev.readOk = false then
    { r with sleeps := r.sleeps ++ [second], client := triggerReDial r.client, exited := true }
  else if ev.deadlineOk = false then
    { r with client := triggerReDial r.client, exited := true }
  else
    match ev.unzipped with
    | none => r
    | some bs =>
      if isPing bs then
        match writePong r.client ev with
        | (false, c1) => { r with client := triggerReDial c1, exited := true }
        | (true, c1) => { r with client := c1 }
      else if r.handleCh.length < handleBacklog then
        if r.client.closed ∧ ev.pickClose then { r with exited := true }
        else { r with handleCh := r.handleCh ++ [bs] }
      else if r.client.closed then { r with exited := true }
      else r

/-- A worker takes the message at the head of `handleCh`. -/
def workerTake (r : ReadLoop) : ReadLoop := { r with handleCh := r.handleCh.tail }

/-- A client as `NewWsClient` returns it: connection 1 from the first dial,
one keep-alive goroutine and one read loop running; every later dial
succeeds. -/
def clientUp : WsClient :=
  { hasSubscriber := false, cancelled := false, closed := false, conn := some 1,
    pingCancel := some 1, pingLoops := 1, pingCancels := [], isRedial := false,
    readLoops := 1, redialTasks := 0, dialResult := fun _ => true, dialCount := 1,
    subscribeResult := fun _ => true, subscribeCount := 0, waits := [], closedConns := [] }

/-- The client `clientUp` after `Close`. -/
def clientClosed : WsClient :=
  { clientUp with closed := true, cancelled := true, pingCancels := [1], closedConns := [1] }

/-- The read loop of `clientUp` with a full backlog: the message "oldest"
at the head and 4095 more behind it. -/
def loopFull : ReadLoop :=
  { client := clientUp, handleCh := "oldest" :: List.replicate 4095 "m", exited := false,
    sleeps := [] }

/-- A frame that was read and unzipped to `bs` without error. -/
def frameOf (bs : String) : Read :=
  { readOk := true, deadlineOk := true, unzipped := some bs, pongWriteOk := true,
    pongDeadlineOk := true, pickClose := false }

end Huobi

/-! ### bybit: shutdown, and the encoder of `ExtFields` (`bybit/result.go`) -/

namespace Bybit

/-- `WsClient.Close`. -/
def Close (c : WsClient) : WsClient :=
  let c1 := { c with cancelled := true }
  match c1.conn with
  | none => c1
  | some k => { c1 with closedConns := c1.closedConns ++ [k] }

/-- The struct `ExtFields`. -/
structure ExtFields where
  ReduceOnly : Bool
  OpFrom : String
  Remark : String
  OReqNum : Int
  XreqType : String
  CrossStatus : String
deriving DecidableEq, Repr

/-- The result of an encoder call: the bytes it returned, or `nesting` when
the calls nest deeper than the depth unrolled. -/
inductive Encoded
  | returned (bytes : String)
  | nesting
deriving DecidableEq, Repr

/-- The call `json.Marshal(e)` for `e *ExtFields`.  The type implements
`json.Marshaler`, so the encoder writes `null` for a nil pointer and
otherwise calls the method `MarshalJSON` of `e`, here `marshalJSON`, and
takes over what it returns. -/
def jsonMarshal (marshalJSON : ExtFields → Encoded) (e : Option ExtFields) : Encoded :=
  match e with
  | none => Encoded.returned "null"
  | some v => marshalJSON v

/-- The method `ExtFields.MarshalJSON`, `return json.Marshal(e)`, with the
nested calls unrolled to `depth`. -/
def ExtFields.MarshalJSON : Nat → ExtFields → Encoded
  | 0, _ => Encoded.nesting
  | depth + 1, e => jsonMarshal (ExtFields.MarshalJSON depth) (some e)

/-- An `ExtFields` value as the exchange sends it. -/
def extSample : ExtFields :=
  { ReduceOnly := false, OpFrom := "pc", Remark := "", OReqNum := 42, XreqType := "x-create",
    CrossStatus := "" }

end Bybit

/-! ### okx: a closed client -/

namespace Okx

/-- The client `wsDown` after `CloseWs`. -/
def wsClosed : WsConn :=
  { wsDown with writers := 0, closed := true, closedConns := [1] }

end Okx

/-! ### Bitget: sessions that log in, sessions that cannot dial -/

namespace Bitget

/-- A private session around `session0`: login is required, the first login
request (number 0) is acknowledged and no later one is. -/
def sessionPrivate : Session :=
  { session0 with
    b := { session0.b with needLogin := true }
    loginAck := fun i => decide (i = 0) }

/-- The session `session0` whose server has become unreachable: every dial
fails. -/
def sessionUnreachable : Session :=
  { session0 with dialResult := fun _ => none }

end Bitget

/-! ### gatews: the stored options -/

namespace Gatews

/-- A stored request with the flag `IsReConnect` of its options set. -/
def markOp (x : requestHistory) : requestHistory :=
  { x with op := x.op.map (fun o => { o with IsReConnect := true }) }

/-- The history with the flag `IsReConnect` set in every stored request
that has options: two histories with the same image differ at most in
these flags. -/
def markAll (m : List (String × List requestHistory)) : List (String × List requestHistory) :=
  m.map (fun e => (e.1, e.2.map markOp))

/-- The request stored by `svcWithOption`, with the given flag in its
options. -/
def tickerRequest (flag : Bool) : requestHistory :=
  { Channel := "spot.tickers", Event := Subscribe, Payload := ["BTC_USDT"],
    op := some { ID := 7, IsReConnect := flag } }

/-- The service `svcUp` after one successful `SubscribeWithOption` with the
options `ID = 7`, `IsReConnect = false`. -/
def svcWithOption : WsService :=
  (SubscribeWithOption svcUp "spot.tickers" ["BTC_USDT"]
    (some { ID := 7, IsReConnect := false })).state

end Gatews

/-! ## Part 2: theorems -/

namespace Bitget

theorem mem_Add (s : ModelSet) (r k : SubscribeReq) :
    k ∈ s.Add r ↔ k = r ∨ k ∈ s := by
  unfold ModelSet.Add
  split
  · constructor
    · intro h; exact Or.inr h
    · rintro (h | h)
      · subst h; assumption
      · exact h
  · simp [or_comm]

theorem mem_Remove (s : ModelSet) (r k : SubscribeReq) :
    k ∈ s.Remove r ↔ k ≠ r ∧ k ∈ s := by
  unfold ModelSet.Remove
  simp [List.mem_filter, and_comm]

theorem registryAt_applyOp_other (b : BitgetBaseWsClient) (op : RegOp) (k : SubscribeReq)
    (h : op.key ≠ k) : registryAt (applyOp b op) k = registryAt b k := by
  have h2 : k ≠ op.key := fun e => h e.symm
  cases op with
  | add r l =>
    simp only [RegOp.key] at h2
    by_cases hl : l = none
    · simp [applyOp, AddSub, registryAt, hl, mem_Add, h2]
    · simp [applyOp, AddSub, registryAt, hl, mem_Add, h2]
  | del r =>
    simp only [RegOp.key] at h2
    simp [applyOp, DelSub, registryAt, mem_Remove, h2]

theorem lastOp_append_singleton (k : SubscribeReq) (ops : List RegOp) (op : RegOp) :
    lastOp k (ops ++ [op]) = if op.key = k then some op else lastOp k ops := by
  unfold lastOp
  simp [List.find?_cons]
  split <;> simp_all

theorem runOps_append_singleton (b : BitgetBaseWsClient) (ops : List RegOp) (op : RegOp) :
    runOps b (ops ++ [op]) = applyOp (runOps b ops) op := by
  simp [runOps, List.foldl_append]

theorem registryAt_runOps (b : BitgetBaseWsClient) (k : SubscribeReq) (ops : List RegOp) :
    match lastOp k ops with
    | none => registryAt (runOps b ops) k = registryAt b k
    | some (RegOp.del _) => registryAt (runOps b ops) k = (false, none)
    | some (RegOp.add _ (some l)) => registryAt (runOps b ops) k = (true, some (some l))
    | some (RegOp.add _ none) => (registryAt (runOps b ops) k).1 = true := by
  induction ops using List.reverseRecOn with
  | nil => simp [lastOp, runOps]
  | append_singleton ops op ih =>
    rw [lastOp_append_singleton, runOps_append_singleton]
    by_cases hk : op.key = k
    · rw [if_pos hk]
      cases op with
      | add r l =>
        simp only [RegOp.key] at hk
        subst hk
        cases l with
        | none => simp [applyOp, AddSub, registryAt, mem_Add]
        | some l => simp [applyOp, AddSub, registryAt, mem_Add]
      | del r =>
        simp only [RegOp.key] at hk
        subst hk
        simp [applyOp, DelSub, registryAt, mem_Remove]
    · rw [if_neg hk, registryAt_applyOp_other (runOps b ops) op k hk]
      exact ih

theorem toLower_ne_empty (s : String) (h : s ≠ "") : toLower s ≠ "" := by
  intro e
  apply h
  have hd : (toLower s).data = [] := by rw [e]
  have hs : s.data = [] := by simpa [toLower] using hd
  cases s with
  | mk d => exact congrArg String.mk hs

theorem toUpper_ne_empty (s : String) (h : s ≠ "") : toUpper s ≠ "" := by
  intro e
  apply h
  have hd : (toUpper s).data = [] := by rw [e]
  have hs : s.data = [] := by simpa [toUpper] using hd
  cases s with
  | mk d => exact congrArg String.mk hs

theorem Send_scribeMap (b : BitgetBaseWsClient) (m : Wire) :
    (Send b m).2.scribeMap = b.scribeMap ∧ (Send b m).2.defListener = b.defListener := by
  unfold Send
  cases b.ws with
  | none => simp
  | some conn => by_cases hw : conn.writable = true <;> simp [hw]

theorem dispatch_after_Subscribe (c : BitgetBaseWsClient) (r : SubscribeReq) (l : OnReceive)
    (raw : String) (hCoin : r.Coin = "") (hId : r.InstId ≠ "") :
    dispatch (Subscribe c [r] l) (argOf (normalizeReq r)) raw
      = dispatch c (argOf (normalizeReq r)) raw := by
  have hne : (normalizeReq r).Coin ≠ "" := by
    simp only [normalizeReq, hCoin, if_true]
    exact toLower_ne_empty _ (toUpper_ne_empty _ hId)
  have key : ∀ q : SubscribeReq, q.Coin = "" →
      (Subscribe c [r] l).scribeMap q = c.scribeMap q := by
    intro q hq
    have hqn : q ≠ normalizeReq r := by
      intro e; rw [e] at hq; exact hne hq
    unfold Subscribe SendByType
    rw [(Send_scribeMap _ _).1]
    by_cases hl : l = none
    · simp [AddSub, hl]
    · simp [AddSub, hl, hqn]
  have hdef : (Subscribe c [r] l).defListener = c.defListener := by
    unfold Subscribe SendByType
    rw [(Send_scribeMap _ _).2]
    by_cases hl : l = none
    · simp [AddSub, hl]
    · simp [AddSub, hl]
  unfold dispatch argOf
  simp only
  rw [key _ rfl, hdef]

/-- C1: after `Subscribe([btcTicker], l)` with callback 7, a data frame whose
`arg` carries the normalized instType, channel and instId is handed by
`dispatch` to the default listener 0, not to callback 7: the registered key
has `Coin = "btcusdt"`, the key `dispatch` looks up has `Coin = ""`. -/
theorem C1_dispatch_misses_subscribed_callback :
    (normalizeReq btcTicker).Coin = "btcusdt" ∧
    dispatch (Subscribe client0 [btcTicker] (some 7)) (argOf (normalizeReq btcTicker)) "frame"
      = some { listener := 0, message := "frame" } ∧
    dispatch (Subscribe client0 [btcTicker] (some 7)) (argOf (normalizeReq btcTicker)) "frame"
      ≠ some { listener := 7, message := "frame" } := by
  decide

/-- C2 (as stated) fails: the two call sequences below end with the same call
on the key, `AddSub(k, nil)`, yet leave different callbacks bound to it. -/
theorem C2_last_op_alone_counterexample :
    lastOp (normalizeReq btcTicker)
        [RegOp.add (normalizeReq btcTicker) (some 7), RegOp.add (normalizeReq btcTicker) none]
      = lastOp (normalizeReq btcTicker) [RegOp.add (normalizeReq btcTicker) none] ∧
    registryAt (runOps client0
        [RegOp.add (normalizeReq btcTicker) (some 7), RegOp.add (normalizeReq btcTicker) none])
        (normalizeReq btcTicker)
      ≠ registryAt (runOps client0 [RegOp.add (normalizeReq btcTicker) none])
        (normalizeReq btcTicker) := by
  decide

/-- C2 (amended): for two sequences of `AddSub`/`DelSub` calls run from the
same registry whose last call on key `k` is the same, membership of `k` in
`allSub` agrees, and so does the callback bound to `k` in `scribeMap` unless
that last call is an `AddSub` with a nil callback. -/
theorem C2_registry_fixed_by_last_op (b : BitgetBaseWsClient) (k : SubscribeReq)
    (ops1 ops2 : List RegOp) (h : lastOp k ops1 = lastOp k ops2) :
    (registryAt (runOps b ops1) k).1 = (registryAt (runOps b ops2) k).1 ∧
    ((∀ r, lastOp k ops1 ≠ some (RegOp.add r none)) →
      registryAt (runOps b ops1) k = registryAt (runOps b ops2) k) := by
  have h1 := registryAt_runOps b k ops1
  have h2 := registryAt_runOps b k ops2
  rw [← h] at h2
  cases hl : lastOp k ops1 with
  | none =>
    rw [hl] at h1 h2
    simp only at h1 h2
    rw [h1, h2]
    simp
  | some op =>
    rw [hl] at h1 h2
    cases op with
    | del r =>
      simp only at h1 h2
      rw [h1, h2]; simp
    | add r l =>
      cases l with
      | none =>
        simp only at h1 h2
        rw [h1, h2]
        simp
      | some l =>
        simp only at h1 h2
        rw [h1, h2]; simp

/-- C2 witness: a subscribe followed by an unsubscribe, against the
unsubscribe alone. -/
theorem C2_registry_fixed_by_last_op_witness :
    lastOp btcTicker [RegOp.add btcTicker (some 7), RegOp.del btcTicker]
      = lastOp btcTicker [RegOp.del btcTicker] ∧
    ((registryAt (runOps client0 [RegOp.add btcTicker (some 7), RegOp.del btcTicker])
        btcTicker).1
      = (registryAt (runOps client0 [RegOp.del btcTicker]) btcTicker).1 ∧
    ((∀ r, lastOp btcTicker [RegOp.add btcTicker (some 7), RegOp.del btcTicker]
        ≠ some (RegOp.add r none)) →
      registryAt (runOps client0 [RegOp.add btcTicker (some 7), RegOp.del btcTicker]) btcTicker
        = registryAt (runOps client0 [RegOp.del btcTicker]) btcTicker)) :=
  ⟨by decide, C2_registry_fixed_by_last_op client0 btcTicker
    [RegOp.add btcTicker (some 7), RegOp.del btcTicker] [RegOp.del btcTicker] (by decide)⟩

end Bitget

namespace Gatews

theorem dial_fields (ws : WsService) :
    (dial ws).2.dialCount = ws.dialCount + 1 ∧ (dial ws).2.dialResult = ws.dialResult ∧
    (dial ws).2.conf = ws.conf ∧ (dial ws).2.Client = ws.Client ∧
    (dial ws).2.muHeld = ws.muHeld := by
  unfold dial
  split <;> simp

theorem dial_fst (ws : WsService) :
    (dial ws).1 = if ws.dialResult ws.dialCount then some (ws.dialCount + 1) else none := by
  unfold dial
  split <;> simp

/-- With `ws.mu` held, `safeWrite` blocks at once. -/
theorem safeWrite_held (ws : WsService) (data : Frame) (h : ws.muHeld = true) :
    safeWrite ws data = Run.blocked ws := by
  simp [safeWrite, safeWriteK, h]

theorem markReConnect_fields (ws : WsService) (r : requestHistory) :
    (markReConnect ws r).muHeld = ws.muHeld ∧ (markReConnect ws r).Client = ws.Client ∧
    (markReConnect ws r).dialCount = ws.dialCount ∧ (markReConnect ws r).wire = ws.wire ∧
    (markReConnect ws r).conf.MaxRetryConn = ws.conf.MaxRetryConn := by
  simp [markReConnect]

/-- With `ws.mu` held, `resubscribe` returns only if nothing is stored;
otherwise it blocks in its first `safeWrite`. -/
theorem resubscribe_held (ws : WsService) (h : ws.muHeld = true) :
    (ws.conf.subscribeMsg.flatMap (fun e => e.2) = [] ∧
      resubscribeK safeWrite ws = Run.done () ws) ∨
    (ws.conf.subscribeMsg.flatMap (fun e => e.2) ≠ [] ∧
      ∃ s, resubscribeK safeWrite ws = Run.blocked s ∧ s.Client = ws.Client ∧
        s.dialCount = ws.dialCount ∧ s.wire = ws.wire) := by
  unfold resubscribeK
  cases hs : ws.conf.subscribeMsg.flatMap (fun e => e.2) with
  | nil => left; simp [resubscribeEach]
  | cons r rest =>
    right
    refine ⟨by simp, ?_⟩
    by_cases hop : r.op = none
    · refine ⟨ws, ?_, rfl, rfl, rfl⟩
      simp [resubscribeEach, hop, baseSubscribeK, safeWrite_held, h]
    · refine ⟨markReConnect ws r, ?_, (markReConnect_fields ws r).2.1,
        (markReConnect_fields ws r).2.2.1, (markReConnect_fields ws r).2.2.2.1⟩
      have hm : (markReConnect ws r).muHeld = true := by
        rw [(markReConnect_fields ws r).1]; exact h
      simp [resubscribeEach, hop, baseSubscribeK, safeWrite_held, hm]


theorem notifyReconnect_fields (ws : WsService) :
    (notifyReconnect ws).muHeld = ws.muHeld ∧ (notifyReconnect ws).Client = ws.Client ∧
    (notifyReconnect ws).dialCount = ws.dialCount ∧ (notifyReconnect ws).wire = ws.wire ∧
    (notifyReconnect ws).conf = ws.conf := by
  unfold notifyReconnect
  cases ws.reconnectCall with
  | none => simp
  | some ch => by_cases hc : ch.len < ch.cap <;> simp [hc]

theorem installConn_fields (ws : WsService) (conn : Nat) :
    (installConn ws conn).muHeld = ws.muHeld ∧ (installConn ws conn).Client = conn ∧
    (installConn ws conn).dialCount = ws.dialCount ∧ (installConn ws conn).wire = ws.wire ∧
    (installConn ws conn).conf = ws.conf := by
  obtain ⟨n1, n2, n3, n4, n5⟩ := notifyReconnect_fields
    (setPongHandler { ws with Client := conn })
  unfold installConn
  rw [n1, n2, n3, n4, n5]
  simp [setPongHandler]

/-- The retry loop gives up exactly after `m` failed dials, `m` being the
number of attempts still allowed. -/
theorem reconnectLoop_all_fail (fuel : Nat) :
    ∀ (retry : Int) (backoff : Nat) (ws : WsService) (m : Nat),
      (ws.conf.MaxRetryConn - retry).toNat = m → m < fuel →
      (∀ i, i < m → ws.dialResult (ws.dialCount + i) = false) →
      ∃ s, reconnectLoop safeWrite fuel retry backoff ws = Run.done (some errMaxRetry) s ∧
        s.dialCount = ws.dialCount + m ∧ s.Client = ws.Client ∧ s.wire = ws.wire := by
  induction fuel with
  | zero => intro retry backoff ws m _ hlt; omega
  | succ fuel ih =>
    intro retry backoff ws m hm hlt hfail
    by_cases hge : retry ≥ ws.conf.MaxRetryConn
    · have hm0 : m = 0 := by omega
      subst hm0
      exact ⟨ws, by simp [reconnectLoop, hge], rfl, rfl, rfl⟩
    · have hpos : 0 < m := by omega
      have h0 : ws.dialResult ws.dialCount = false := by
        have := hfail 0 hpos
        simpa using this
      obtain ⟨hc, hr, hconf, hcl, _⟩ := dial_fields ws
      have hd : dial ws = (none, (dial ws).2) := by
        rw [Prod.ext_iff]; simp [dial_fst, h0]
      have := ih (retry + 1) (if backoff < 30 * second then backoff * 2 else backoff)
        (sleep backoff (dial ws).2) (m - 1)
        (by simp only [sleep, hconf]; omega) (by omega)
        (by
          intro i hi
          simp only [sleep, hr, hc]
          have := hfail (i + 1) (by omega)
          rw [← this]; congr 1; omega)
      obtain ⟨s, hs, hs1, hs2, hs3⟩ := this
      refine ⟨s, ?_, ?_, ?_, ?_⟩
      · rw [reconnectLoop, if_neg hge, hd]
        exact hs
      · rw [hs1]; simp only [sleep, hc]; omega
      · rw [hs2]; simp only [sleep, hcl]
      · rw [hs3]; simp [sleep, dial]; split <;> rfl

/-- If dial number `j` is the first to succeed and is still allowed, the
loop installs its connection, makes `j + 1` dials and does not report the
max-retry error. -/
theorem reconnectLoop_first_success (fuel : Nat) :
    ∀ (retry : Int) (backoff : Nat) (ws : WsService) (j : Nat),
      ws.muHeld = true →
      j < (ws.conf.MaxRetryConn - retry).toNat → (ws.conf.MaxRetryConn - retry).toNat < fuel →
      (∀ i, i < j → ws.dialResult (ws.dialCount + i) = false) →
      ws.dialResult (ws.dialCount + j) = true →
      (reconnectLoop safeWrite fuel retry backoff ws).value ≠ some (some errMaxRetry) ∧
      (reconnectLoop safeWrite fuel retry backoff ws).isExhausted = false ∧
      (reconnectLoop safeWrite fuel retry backoff ws).state.Client = ws.dialCount + j + 1 ∧
      (reconnectLoop safeWrite fuel retry backoff ws).state.dialCount = ws.dialCount + j + 1 := by
  induction fuel with
  | zero => intro retry backoff ws j _ _ hlt; omega
  | succ fuel ih =>
    intro retry backoff ws j hmu hj hlt hfail hok
    have hge : ¬ retry ≥ ws.conf.MaxRetryConn := by omega
    obtain ⟨hc, hr, hconf, hcl, hmu2⟩ := dial_fields ws
    cases j with
    | zero =>
      have h0 : ws.dialResult ws.dialCount = true := by simpa using hok
      have hd : dial ws = (some (ws.dialCount + 1), (dial ws).2) := by
        rw [Prod.ext_iff]; simp [dial_fst, h0]
      rw [reconnectLoop, if_neg hge, hd]
      simp only
      obtain ⟨n1, n2, n3, _, _⟩ := installConn_fields (dial ws).2 (ws.dialCount + 1)
      have hheld : (installConn (dial ws).2 (ws.dialCount + 1)).muHeld = true := by
        rw [n1, hmu2]; exact hmu
      rcases resubscribe_held _ hheld with ⟨_, hdone⟩ | ⟨_, s, hb, hb1, hb2, _⟩
      · rw [hdone]
        simp [Run.value, Run.isExhausted, Run.state, n2, n3, hc]
      · rw [hb]
        simp [Run.value, Run.isExhausted, Run.state, hb1, hb2, n2, n3, hc]
    | succ j =>
      have h0 : ws.dialResult ws.dialCount = false := by
        have := hfail 0 (by omega)
        simpa using this
      have hd : dial ws = (none, (dial ws).2) := by
        rw [Prod.ext_iff]; simp [dial_fst, h0]
      have := ih (retry + 1) (if backoff < 30 * second then backoff * 2 else backoff)
        (sleep backoff (dial ws).2) j
        (by simp [sleep, hmu2, hmu])
        (by simp only [sleep, hconf]; omega)
        (by simp only [sleep, hconf]; omega)
        (by
          intro i hi
          simp only [sleep, hr, hc]
          have := hfail (i + 1) (by omega)
          rw [← this]; congr 1; omega)
        (by
          simp only [sleep, hr, hc]
          rw [← hok]; congr 1; omega)
      rw [reconnectLoop, if_neg hge, hd]
      simp only
      have e : (sleep backoff (dial ws).2).dialCount + j + 1 = ws.dialCount + (j + 1) + 1 := by
        simp only [sleep, hc]; omega
      rw [e] at this
      exact this


theorem unlockOnReturn_fields {α : Type} (r : Run α) :
    (unlockOnReturn r).value = r.value ∧ (unlockOnReturn r).isExhausted = r.isExhausted ∧
    (unlockOnReturn r).state.Client = r.state.Client ∧
    (unlockOnReturn r).state.dialCount = r.state.dialCount ∧
    (unlockOnReturn r).state.wire = r.state.wire ∧
    (unlockOnReturn r).isBlocked = r.isBlocked := by
  cases r <;> simp [unlockOnReturn, Run.value, Run.isExhausted, Run.state, Run.isBlocked]

theorem enterReconnect_fields (ws : WsService) :
    (enterReconnect ws).muHeld = true ∧ (enterReconnect ws).Client = ws.Client ∧
    (enterReconnect ws).dialCount = ws.dialCount ∧
    (enterReconnect ws).dialResult = ws.dialResult ∧
    (enterReconnect ws).conf = ws.conf ∧ (enterReconnect ws).wire = ws.wire := by
  simp [enterReconnect]

/-- The state in which `reconnect` enters its loop. -/
theorem reconnect_unfold (ws : WsService) (hmu : ws.muHeld = false) :
    reconnect ws = unlockOnReturn (reconnectLoop safeWrite (ws.conf.MaxRetryConn.toNat + 1) 0
      second (enterReconnect ws)) := by
  simp [reconnect, reconnectK, hmu, enterReconnect]

/-- With `ws.mu` free and a write that succeeds, `safeWrite` puts the frame
on the wire, releases the mutex and returns nil. -/
theorem safeWrite_ok (ws : WsService) (data : Frame) (hmu : ws.muHeld = false)
    (hw : ws.writeResult ws.writeCount = WriteResult.ok) :
    safeWrite ws data = Run.done none
      { ws with writeCount := ws.writeCount + 1, wire := ws.wire ++ [(ws.Client, data)] } := by
  simp only [safeWrite, safeWriteK, hmu, hw]
  simp

theorem find_map_key (m : List (String × List requestHistory)) (channel : String)
    (h : requestHistory) :
    (m.map (fun e => if e.1 = channel then (e.1, e.2 ++ [h]) else e)).find?
        (fun e => e.1 = channel)
      = (m.find? (fun e => e.1 = channel)).map (fun e => (e.1, e.2 ++ [h])) := by
  induction m with
  | nil => rfl
  | cons e rest ih =>
    by_cases he : e.1 = channel
    · simp [List.find?_cons, he]
    · simp [List.find?_cons, he]
      simpa using ih

theorem find_none_of_not_any (m : List (String × List requestHistory)) (channel : String)
    (hn : m.any (fun e => e.1 = channel) = false) :
    m.find? (fun e => e.1 = channel) = none := by
  induction m with
  | nil => rfl
  | cons e rest ih =>
    simp only [List.any_cons, Bool.or_eq_false_iff] at hn
    rw [List.find?_cons, hn.1]
    exact ih hn.2

theorem find_some_of_any (m : List (String × List requestHistory)) (channel : String)
    (hn : m.any (fun e => e.1 = channel) = true) :
    ∃ e, m.find? (fun e => e.1 = channel) = some e := by
  induction m with
  | nil => simp at hn
  | cons e rest ih =>
    by_cases he : e.1 = channel
    · exact ⟨e, by simp [List.find?_cons, he]⟩
    · simp only [List.any_cons, Bool.or_eq_true] at hn
      rcases hn with hn | hn
      · simp [he] at hn
      · obtain ⟨e2, h2⟩ := ih hn
        exact ⟨e2, by simp [List.find?_cons, he, h2]⟩

/-- The history of a channel after `storeHistory` is the old one with the
new request appended. -/
theorem find_storeHistory (m : List (String × List requestHistory)) (channel : String)
    (h : requestHistory) :
    (match (storeHistory m channel h).find? (fun e => e.1 = channel) with
      | some e => e.2
      | none => [])
    = (match m.find? (fun e => e.1 = channel) with
      | some e => e.2
      | none => []) ++ [h] := by
  unfold storeHistory
  cases hany : m.any (fun e => e.1 = channel) with
  | true =>
    obtain ⟨e, he⟩ := find_some_of_any m channel hany
    simp only [if_true, find_map_key, he, Option.map_some']
  | false =>
    have hn := find_none_of_not_any m channel hany
    simp [List.find?_append, hn]


/-- A successful `baseSubscribe` that records: the frame is written and the
request is appended to the history of its channel. -/
theorem baseSubscribe_records (ws : WsService) (event channel : String)
    (payload : List String) (op : Option SubscribeOptions)
    (hmu : ws.muHeld = false) (hw : ws.writeResult ws.writeCount = WriteResult.ok)
    (hsfx : (hasSuffix channel ".ping" || hasSuffix channel ".time") = false)
    (hop : recordsHistory op = true) :
    ∃ s, baseSubscribe ws event channel payload op = Run.done none s ∧
      s.muHeld = false ∧ s.writeResult = ws.writeResult ∧
      s.writeCount = ws.writeCount + 1 ∧ s.conf.Key = ws.conf.Key ∧
      s.conf.Secret = ws.conf.Secret ∧ s.authChannel = ws.authChannel ∧
      history s channel = history ws channel
        ++ [{ Channel := channel, Event := event, Payload := payload, op := op }] := by
  unfold baseSubscribe baseSubscribeK
  simp only [safeWrite_ok ws _ hmu hw, hsfx, hop]
  refine ⟨_, rfl, ?_, rfl, rfl, rfl, rfl, rfl, ?_⟩
  · simpa using hmu
  · simp only [history]
    exact find_storeHistory _ _ _

/-- A successful `Subscribe` on a channel that is not rejected and is not a
ping or time channel appends one request to the history of the channel. -/
theorem Subscribe_appends (ws : WsService) (channel : String) (payload : List String)
    (hmu : ws.muHeld = false) (hw : ws.writeResult ws.writeCount = WriteResult.ok)
    (hauth : ¬ ((ws.conf.Key = "" ∨ ws.conf.Secret = "") ∧ ws.authChannel channel = true))
    (hsfx : (hasSuffix channel ".ping" || hasSuffix channel ".time") = false) :
    ∃ s, WsService.Subscribe ws channel payload = Run.done none s ∧
      s.muHeld = false ∧ s.writeResult = ws.writeResult ∧
      s.writeCount = ws.writeCount + 1 ∧ s.conf.Key = ws.conf.Key ∧
      s.conf.Secret = ws.conf.Secret ∧ s.authChannel = ws.authChannel ∧
      history s channel = history ws channel
        ++ [{ Channel := channel, Event := Subscribe, Payload := payload, op := none }] := by
  unfold WsService.Subscribe SubscribeWithOption newBaseChannel
  rw [if_neg hauth]
  obtain ⟨s, hs, h1, h2, h3, h4, h5, h6, h7⟩ := baseSubscribe_records
    (if channel ∈ ws.msgChs then ws else { ws with msgChs := ws.msgChs ++ [channel] })
    Subscribe channel payload none
    (by split <;> simpa using hmu) (by split <;> simpa using hw) hsfx rfl
  simp only [hs]
  refine ⟨_, rfl, h1, ?_, ?_, ?_, ?_, ?_, ?_⟩
  · rw [h2]; split <;> rfl
  · rw [h3]; split <;> rfl
  · simp only [h4]; split <;> rfl
  · simp only [h5]; split <;> rfl
  · simp only [h6]; split <;> rfl
  · have : history { s with onceDone := true } channel = history s channel := rfl
    rw [this, h7]
    congr 1
    split <;> rfl

/-- With `ws.mu` held by `reconnect`, a successful dial followed by a
non-empty replay never returns: the first resend blocks in `safeWrite`. -/
theorem reconnect_blocks (ws : WsService) (hmu : ws.muHeld = false)
    (hmax : 0 < ws.conf.MaxRetryConn) (hdial : ws.dialResult ws.dialCount = true)
    (hst : stored ws ≠ []) :
    (reconnect ws).isBlocked = true ∧ (reconnect ws).state.wire = ws.wire := by
  rw [reconnect_unfold ws hmu]
  obtain ⟨_, _, _, _, u5, u6⟩ := unlockOnReturn_fields
    (reconnectLoop safeWrite (ws.conf.MaxRetryConn.toNat + 1) 0 second (enterReconnect ws))
  rw [u5, u6]
  obtain ⟨e1, e2, e3, e4, e5, e6⟩ := enterReconnect_fields ws
  have hge : ¬ (0 : Int) ≥ (enterReconnect ws).conf.MaxRetryConn := by rw [e5]; omega
  have hd : dial (enterReconnect ws) = (some (ws.dialCount + 1), (dial (enterReconnect ws)).2) := by
    rw [Prod.ext_iff]; simp [dial_fst, e3, e4, hdial]
  obtain ⟨d1, d2, d3, d4, d5⟩ := dial_fields (enterReconnect ws)
  obtain ⟨n1, n2, n3, n4, n5⟩ := installConn_fields (dial (enterReconnect ws)).2
    (ws.dialCount + 1)
  have hheld : (installConn (dial (enterReconnect ws)).2 (ws.dialCount + 1)).muHeld = true := by
    rw [n1, d5]; exact e1
  have hwire : (dial (enterReconnect ws)).2.wire = ws.wire := by
    rw [← e6]; unfold dial; split <;> rfl
  rw [reconnectLoop, if_neg hge, hd]
  simp only
  rcases resubscribe_held _ hheld with ⟨hnil, _⟩ | ⟨_, s, hb, _, _, hb3⟩
  · exfalso
    apply hst
    rw [n5, d3, e5] at hnil
    exact hnil
  · rw [hb]
    simp only [Run.isBlocked, Run.state]
    rw [hb3, n4, hwire]
    simp


theorem mergeConf_zero_retry (user : ConnConf) (h0 : user.MaxRetryConn = 0) :
    (mergeConf defaultConnConf user).MaxRetryConn = 5 := by
  unfold mergeConf
  by_cases h1 : user.URL = "" <;> by_cases h2 : user.PingInterval = 0 <;>
    simp [h0, h1, h2, defaultConnConf, defaultMaxRetry]

/-- C3 (as stated) fails: after two successful `Subscribe` calls with the
same channel and payload the history of the channel holds two requests, not
one; and a `reconnect` of that service resends no frame for the channel at
all, because it blocks in its replay. -/
theorem C3_single_entry_counterexample :
    (WsService.Subscribe svcUp "spot.tickers" ["BTC_USDT"]).value = some none ∧
    (WsService.Subscribe svcOneSub "spot.tickers" ["BTC_USDT"]).value = some none ∧
    (history svcTwoSubs "spot.tickers").length = 2 ∧
    (history svcTwoSubs "spot.tickers").length ≠ 1 ∧
    (reconnect svcTwoSubs).isBlocked = true ∧
    (framesFor (reconnect svcTwoSubs).state svcTwoSubs.wire.length "spot.tickers").length
      = 0 := by
  decide

/-- C3 (amended): with `ws.mu` free and every write succeeding, two
`Subscribe` calls with the same channel (not rejected for missing
credentials, not a ping or time channel) and payload both return nil and
append two requests to the stored history of the channel, one per call: no
equal entry is looked for. -/
theorem C3_subscribe_twice_stores_twice (ws : WsService) (channel : String)
    (payload : List String) (hmu : ws.muHeld = false)
    (hw : ∀ i, ws.writeResult i = WriteResult.ok)
    (hauth : ¬ ((ws.conf.Key = "" ∨ ws.conf.Secret = "") ∧ ws.authChannel channel = true))
    (hsfx : (hasSuffix channel ".ping" || hasSuffix channel ".time") = false) :
    ∃ s1 s2,
      WsService.Subscribe ws channel payload = Run.done none s1 ∧
      WsService.Subscribe s1 channel payload = Run.done none s2 ∧
      history s2 channel = history ws channel
        ++ [{ Channel := channel, Event := Subscribe, Payload := payload, op := none },
            { Channel := channel, Event := Subscribe, Payload := payload, op := none }] := by
  obtain ⟨s1, hs1, a1, a2, _, a4, a5, a6, a7⟩ :=
    Subscribe_appends ws channel payload hmu (hw _) hauth hsfx
  obtain ⟨s2, hs2, _, _, _, _, _, _, b7⟩ :=
    Subscribe_appends s1 channel payload a1 (by rw [a2]; exact hw _)
      (by rw [a4, a5, a6]; exact hauth) hsfx
  refine ⟨s1, s2, hs1, hs2, ?_⟩
  rw [b7, a7]
  simp

/-- C3 witness: two subscriptions to "spot.tickers" on a fresh service. -/
theorem C3_subscribe_twice_stores_twice_witness :
    svcUp.muHeld = false ∧
    ∃ s1 s2,
      WsService.Subscribe svcUp "spot.tickers" ["BTC_USDT"] = Run.done none s1 ∧
      WsService.Subscribe s1 "spot.tickers" ["BTC_USDT"] = Run.done none s2 ∧
      history s2 "spot.tickers" = history svcUp "spot.tickers"
        ++ [{ Channel := "spot.tickers", Event := Subscribe, Payload := ["BTC_USDT"],
              op := none },
            { Channel := "spot.tickers", Event := Subscribe, Payload := ["BTC_USDT"],
              op := none }] :=
  ⟨rfl, C3_subscribe_twice_stores_twice svcUp "spot.tickers" ["BTC_USDT"] rfl
    (fun _ => rfl) (by decide) (by decide)⟩

/-- C4: on a service with one stored subscription, `reconnect` whose first
redial succeeds installs the new connection and then never returns: it
holds `ws.mu` while `resubscribe` reaches `safeWrite`, which waits for the
same mutex; no request is resent. -/
theorem C4_reconnect_blocks_in_replay :
    svcOneSub.muHeld = false ∧ stored svcOneSub ≠ [] ∧
    svcOneSub.dialResult svcOneSub.dialCount = true ∧
    (reconnect svcOneSub).isBlocked = true ∧
    (reconnect svcOneSub).returned = false ∧
    (reconnect svcOneSub).state.Client = 1 ∧
    (reconnect svcOneSub).state.wire = svcOneSub.wire := by
  decide

/-- C5: `reconnect`, entered with `ws.mu` free, makes at most `MaxRetryConn`
dials; it returns "reconnect exceeded max retry" if and only if the first
`MaxRetryConn` dials all fail (and it has then made exactly that many and
kept `Client`); and if dial `j + 1` is the first to succeed within the
allowance, its connection is installed as `Client` after exactly `j + 1`
dials. -/
theorem C5_reconnect_max_retry (ws : WsService) (hmu : ws.muHeld = false) :
    (reconnect ws).isExhausted = false ∧
    (reconnect ws).state.dialCount ≤ ws.dialCount + ws.conf.MaxRetryConn.toNat ∧
    ((reconnect ws).value = some (some errMaxRetry) ↔
      ∀ i, i < ws.conf.MaxRetryConn.toNat → ws.dialResult (ws.dialCount + i) = false) ∧
    ((reconnect ws).value = some (some errMaxRetry) →
      (reconnect ws).state.dialCount = ws.dialCount + ws.conf.MaxRetryConn.toNat ∧
      (reconnect ws).state.Client = ws.Client) ∧
    (∀ j, j < ws.conf.MaxRetryConn.toNat →
      (∀ i, i < j → ws.dialResult (ws.dialCount + i) = false) →
      ws.dialResult (ws.dialCount + j) = true →
      (reconnect ws).state.Client = ws.dialCount + j + 1 ∧
      (reconnect ws).state.dialCount = ws.dialCount + j + 1) := by
  rw [reconnect_unfold ws hmu]
  obtain ⟨e1, e2, e3, e4, e5, _⟩ := enterReconnect_fields ws
  have hN : ((enterReconnect ws).conf.MaxRetryConn - 0).toNat = ws.conf.MaxRetryConn.toNat := by
    rw [e5]; simp
  generalize enterReconnect ws = ws1 at *
  obtain ⟨u1, u2, u3, u4, _, _⟩ := unlockOnReturn_fields
    (reconnectLoop safeWrite (ws.conf.MaxRetryConn.toNat + 1) 0 second ws1)
  rw [u1, u2, u3, u4]
  rw [← e4, ← e3, ← e2]
  have hsucc := fun j hj hf hok =>
    reconnectLoop_first_success (ws.conf.MaxRetryConn.toNat + 1) 0 second ws1 j e1
      (by rw [hN]; exact hj) (by rw [hN]; exact Nat.lt_succ_self _) hf hok
  by_cases hall : ∀ i, i < ws.conf.MaxRetryConn.toNat → ws1.dialResult (ws1.dialCount + i) = false
  · obtain ⟨s, hs, hs1, hs2, _⟩ := reconnectLoop_all_fail (ws.conf.MaxRetryConn.toNat + 1) 0
      second ws1 ws.conf.MaxRetryConn.toNat hN (Nat.lt_succ_self _) hall
    rw [hs]
    refine ⟨rfl, ?_, ?_, ?_, ?_⟩
    · simp [Run.state, hs1]
    · simp only [Run.value]
      exact ⟨fun _ => hall, fun _ => trivial⟩
    · intro _; exact ⟨by simp [Run.state, hs1], by simp [Run.state, hs2]⟩
    · intro j hj _ hok
      rw [hall j hj] at hok
      cases hok
  · have hex : ∃ j, j < ws.conf.MaxRetryConn.toNat ∧
        ws1.dialResult (ws1.dialCount + j) = true := by
      by_contra hne
      apply hall
      intro i hi
      cases hv : ws1.dialResult (ws1.dialCount + i) with
      | false => rfl
      | true => exact absurd ⟨i, hi, hv⟩ hne
    have hmin := fun m => @Nat.find_min _ _ hex m
    obtain ⟨hj, hok⟩ := Nat.find_spec hex
    have hf : ∀ i, i < Nat.find hex → ws1.dialResult (ws1.dialCount + i) = false := by
      intro i hi
      cases hv : ws1.dialResult (ws1.dialCount + i) with
      | false => rfl
      | true => exact absurd ⟨by omega, hv⟩ (hmin i hi)
    obtain ⟨a1, a2, a3, a4⟩ := hsucc (Nat.find hex) hj hf hok
    refine ⟨a2, ?_, ?_, ?_, ?_⟩
    · rw [a4]; omega
    · constructor
      · intro h; exact absurd h a1
      · intro h; exact absurd h hall
    · intro h; exact absurd h a1
    · intro j hj2 hf2 hok2
      have := hsucc j hj2 hf2 hok2
      exact ⟨this.2.2.1, this.2.2.2⟩

/-- C5 witness: the default configuration (five retries) with every dial
failing. -/
theorem C5_reconnect_max_retry_witness :
    (svcDown defaultConnConf).muHeld = false ∧
    ((reconnect (svcDown defaultConnConf)).value = some (some errMaxRetry) ↔
      ∀ i, i < (svcDown defaultConnConf).conf.MaxRetryConn.toNat →
        (svcDown defaultConnConf).dialResult ((svcDown defaultConnConf).dialCount + i)
          = false) :=
  ⟨rfl, (C5_reconnect_max_retry (svcDown defaultConnConf) rfl).2.2.1⟩

/-- C6 (as stated) fails: with `MaxRetryConn = 0` in the user configuration
and every dial failing, `reconnect` gives up with the max-retry error after
five dials. -/
theorem C6_zero_retry_counterexample :
    ({ defaultConnConf with MaxRetryConn := 0 } : ConnConf).MaxRetryConn = 0 ∧
    (reconnect (svcDown { defaultConnConf with MaxRetryConn := 0 })).value
      = some (some errMaxRetry) ∧
    (reconnect (svcDown { defaultConnConf with MaxRetryConn := 0 })).state.dialCount = 5 := by
  decide

/-- C6 (amended): a user configuration with `MaxRetryConn = 0` is given the
default of five retries by `mergeConf`; on the service built from it,
`reconnect` gives up with the max-retry error after five consecutive failed
dials. -/
theorem C6_zero_retry_means_default (user : ConnConf) (dialOk : Nat → Bool)
    (h0 : user.MaxRetryConn = 0) (hfail : ∀ i, i < 5 → dialOk i = false) :
    (mergeConf defaultConnConf user).MaxRetryConn = 5 ∧
    (reconnect (newService user dialOk)).value = some (some errMaxRetry) ∧
    (reconnect (newService user dialOk)).state.dialCount = 5 := by
  have h5 := mergeConf_zero_retry user h0
  have hc : (newService user dialOk).conf.MaxRetryConn.toNat = 5 := by
    show (mergeConf defaultConnConf user).MaxRetryConn.toNat = 5
    rw [h5]; rfl
  rw [reconnect_unfold (newService user dialOk) rfl, hc]
  obtain ⟨_, _, e3, e4, e5, _⟩ := enterReconnect_fields (newService user dialOk)
  obtain ⟨s, hs, hs1, _, _⟩ := reconnectLoop_all_fail (5 + 1) 0 second
    (enterReconnect (newService user dialOk)) 5
    (by rw [e5]; simp only [sub_zero]; exact hc) (by omega)
    (by
      intro i hi
      rw [e4, e3]
      show dialOk (0 + i) = false
      rw [Nat.zero_add]; exact hfail i hi)
  obtain ⟨u1, _, _, u4, _, _⟩ := unlockOnReturn_fields
    (reconnectLoop safeWrite (5 + 1) 0 second (enterReconnect (newService user dialOk)))
  rw [u1, u4, hs]
  refine ⟨h5, rfl, ?_⟩
  simp only [Run.state]
  rw [hs1, e3]
  rfl

/-- C6 witness: the default configuration with `MaxRetryConn` set to 0 and
every dial failing. -/
theorem C6_zero_retry_means_default_witness :
    ({ defaultConnConf with MaxRetryConn := 0 } : ConnConf).MaxRetryConn = 0 ∧
    (mergeConf defaultConnConf { defaultConnConf with MaxRetryConn := 0 }).MaxRetryConn = 5 ∧
    (reconnect (newService { defaultConnConf with MaxRetryConn := 0 } (fun _ => false))).value
      = some (some errMaxRetry) ∧
    (reconnect (newService { defaultConnConf with MaxRetryConn := 0 }
      (fun _ => false))).state.dialCount = 5 :=
  ⟨rfl, C6_zero_retry_means_default { defaultConnConf with MaxRetryConn := 0 }
    (fun _ => false) rfl (fun _ _ => rfl)⟩

end Gatews

namespace Okx

theorem connect_fields (ws : WsConn) :
    (connect ws).1 = ws.dialResult ws.dialCount ∧
    (connect ws).2.dialCount = ws.dialCount + 1 ∧
    (connect ws).2.dialResult = ws.dialResult ∧
    (connect ws).2.closed = ws.closed ∧
    (connect ws).2.ConnectSuccessAfterSendMessage = ws.ConnectSuccessAfterSendMessage ∧
    ((connect ws).1 = true → (connect ws).2.c = some (ws.dialCount + 1)) := by
  unfold connect
  by_cases h1 : ws.dialResult ws.dialCount = true <;>
    by_cases h2 : ws.hasConnectedHandleFunc = true <;> simp [h1, h2]

/-- The dial loop of `NewWs` when the next `n` dials all fail. -/
theorem dialLoop_all_fail (n : Nat) :
    ∀ (i backoff : Nat) (ws : WsConn),
      (∀ k, k < n → ws.dialResult (ws.dialCount + k) = false) →
      (dialLoop n i backoff ws).1 = false ∧
      (dialLoop n i backoff ws).2.dialCount = ws.dialCount + n := by
  induction n with
  | zero => intro i backoff ws _; simp [dialLoop]
  | succ n ih =>
    intro i backoff ws hfail
    obtain ⟨c1, c2, c3, _, _, _⟩ := connect_fields ws
    have h0 : (connect ws).1 = false := by
      rw [c1]; simpa using hfail 0 (by omega)
    have hc : connect ws = (false, (connect ws).2) := by
      rw [Prod.ext_iff]; exact ⟨h0, rfl⟩
    rw [dialLoop, hc]
    simp only
    have := ih (i + 1) (if backoff < maxBackoff then backoff * 2 else backoff)
      (sleep (if (connect ws).2.jitter i backoff > maxBackoff then maxBackoff
        else (connect ws).2.jitter i backoff) (connect ws).2)
      (by
        intro k hk
        simp only [sleep, c2, c3]
        have := hfail (k + 1) (by omega)
        rw [← this]; congr 1; omega)
    refine ⟨this.1, ?_⟩
    rw [this.2]
    simp only [sleep, c2]; omega

/-- The dial loop of `NewWs` when dial `j + 1` is the first to succeed. -/
theorem dialLoop_first_success (n : Nat) :
    ∀ (i backoff : Nat) (ws : WsConn) (j : Nat), j < n →
      (∀ k, k < j → ws.dialResult (ws.dialCount + k) = false) →
      ws.dialResult (ws.dialCount + j) = true →
      (dialLoop n i backoff ws).1 = true ∧
      (dialLoop n i backoff ws).2.dialCount = ws.dialCount + j + 1 ∧
      (dialLoop n i backoff ws).2.c = some (ws.dialCount + j + 1) ∧
      (dialLoop n i backoff ws).2.closed = ws.closed ∧
      (dialLoop n i backoff ws).2.ConnectSuccessAfterSendMessage
        = ws.ConnectSuccessAfterSendMessage := by
  induction n with
  | zero => intro i backoff ws j hj; omega
  | succ n ih =>
    intro i backoff ws j hj hfail hok
    obtain ⟨c1, c2, c3, c4, c5, c6⟩ := connect_fields ws
    cases j with
    | zero =>
      have h0 : (connect ws).1 = true := by
        rw [c1]; simpa using hok
      have hc : connect ws = (true, (connect ws).2) := by
        rw [Prod.ext_iff]; exact ⟨h0, rfl⟩
      rw [dialLoop, hc]
      simp only
      exact ⟨trivial, by rw [c2], by rw [c6 h0], c4, c5⟩
    | succ j =>
      have h0 : (connect ws).1 = false := by
        rw [c1]; simpa using hfail 0 (by omega)
      have hc : connect ws = (false, (connect ws).2) := by
        rw [Prod.ext_iff]; exact ⟨h0, rfl⟩
      rw [dialLoop, hc]
      simp only
      have := ih (i + 1) (if backoff < maxBackoff then backoff * 2 else backoff)
        (sleep (if (connect ws).2.jitter i backoff > maxBackoff then maxBackoff
          else (connect ws).2.jitter i backoff) (connect ws).2) j (by omega)
        (by
          intro k hk
          simp only [sleep, c2, c3]
          have := hfail (k + 1) (by omega)
          rw [← this]; congr 1; omega)
        (by
          simp only [sleep, c2, c3]
          rw [← hok]; congr 1; omega)
      obtain ⟨t1, t2, t3, t4, t5⟩ := this
      refine ⟨t1, ?_, ?_, ?_, ?_⟩
      · rw [t2]; simp only [sleep, c2]; omega
      · rw [t3]; simp only [sleep, c2]; congr 1; omega
      · rw [t4]; simp only [sleep, c4]
      · rw [t5]; simp only [sleep, c5]


theorem initNewWs_fields (ws : WsConn) :
    (initNewWs ws).dialCount = ws.dialCount ∧ (initNewWs ws).dialResult = ws.dialResult ∧
    (initNewWs ws).closed = false ∧
    (initNewWs ws).ConnectSuccessAfterSendMessage = ws.ConnectSuccessAfterSendMessage := by
  simp [initNewWs]

/-- What `NewWs` returns, from what its dial loop returns. -/
theorem NewWs_of_dialLoop (ws : WsConn) :
    ((dialLoop maxRetry 1 initBackoff (initNewWs ws)).1 = false →
      (NewWs ws).value = some false ∧
      (NewWs ws).state = (dialLoop maxRetry 1 initBackoff (initNewWs ws)).2) ∧
    ((dialLoop maxRetry 1 initBackoff (initNewWs ws)).1 = true →
      (dialLoop maxRetry 1 initBackoff (initNewWs ws)).2.closed = false →
      (NewWs ws).value = some true ∧
      (NewWs ws).state.dialCount = (dialLoop maxRetry 1 initBackoff (initNewWs ws)).2.dialCount ∧
      (NewWs ws).state.c = (dialLoop maxRetry 1 initBackoff (initNewWs ws)).2.c) := by
  unfold NewWs
  generalize dialLoop maxRetry 1 initBackoff (initNewWs ws) = r
  obtain ⟨b, s⟩ := r
  constructor
  · intro h
    simp only at h
    subst h
    exact ⟨rfl, rfl⟩
  · intro h hcl
    simp only at h hcl
    subst h
    simp only
    cases hm : s.ConnectSuccessAfterSendMessage with
    | none => exact ⟨rfl, rfl, rfl⟩
    | some msg =>
      simp only [SendMessage, hcl]
      exact ⟨rfl, rfl, rfl⟩

/-- C7: `NewWs` makes at most 10 dials; it returns nil if and only if the
first 10 dials all fail (having made exactly 10); and if dial `j + 1` is the
first to succeed (`j < 10`), it returns the client after exactly `j + 1`
dials, with that connection installed. -/
theorem C7_NewWs_first_dial (ws : WsConn) :
    (NewWs ws).state.dialCount ≤ ws.dialCount + 10 ∧
    ((NewWs ws).value = some false ↔
      ∀ i, i < 10 → ws.dialResult (ws.dialCount + i) = false) ∧
    ((NewWs ws).value = some false → (NewWs ws).state.dialCount = ws.dialCount + 10) ∧
    (∀ j, j < 10 → (∀ i, i < j → ws.dialResult (ws.dialCount + i) = false) →
      ws.dialResult (ws.dialCount + j) = true →
      (NewWs ws).value = some true ∧
      (NewWs ws).state.dialCount = ws.dialCount + j + 1 ∧
      (NewWs ws).state.c = some (ws.dialCount + j + 1)) := by
  obtain ⟨i1, i2, i3, i4⟩ := initNewWs_fields ws
  obtain ⟨hF, hT⟩ := NewWs_of_dialLoop ws
  have hsucc : ∀ j, j < 10 → (∀ i, i < j → ws.dialResult (ws.dialCount + i) = false) →
      ws.dialResult (ws.dialCount + j) = true →
      (NewWs ws).value = some true ∧
      (NewWs ws).state.dialCount = ws.dialCount + j + 1 ∧
      (NewWs ws).state.c = some (ws.dialCount + j + 1) := by
    intro j hj hf hok
    obtain ⟨t1, t2, t3, t4, _⟩ := dialLoop_first_success maxRetry 1 initBackoff (initNewWs ws) j
      hj (by rw [i1, i2]; exact hf) (by rw [i1, i2]; exact hok)
    obtain ⟨v, d, c⟩ := hT t1 (by rw [t4]; exact i3)
    exact ⟨v, by rw [d, t2, i1], by rw [c, t3, i1]⟩
  by_cases hall : ∀ i, i < 10 → ws.dialResult (ws.dialCount + i) = false
  · obtain ⟨t1, t2⟩ := dialLoop_all_fail maxRetry 1 initBackoff (initNewWs ws)
      (by rw [i1, i2]; exact hall)
    obtain ⟨v, st⟩ := hF t1
    have hd : (NewWs ws).state.dialCount = ws.dialCount + 10 := by
      rw [st, t2, i1]; rfl
    exact ⟨by rw [hd], ⟨fun _ => hall, fun _ => v⟩, fun _ => hd, hsucc⟩
  · have hex : ∃ j, j < 10 ∧ ws.dialResult (ws.dialCount + j) = true := by
      by_contra hne
      apply hall
      intro i hi
      cases hv : ws.dialResult (ws.dialCount + i) with
      | false => rfl
      | true => exact absurd ⟨i, hi, hv⟩ hne
    have hmin := fun m => @Nat.find_min _ _ hex m
    obtain ⟨hj, hok⟩ := Nat.find_spec hex
    have hf : ∀ i, i < Nat.find hex → ws.dialResult (ws.dialCount + i) = false := by
      intro i hi
      cases hv : ws.dialResult (ws.dialCount + i) with
      | false => rfl
      | true => exact absurd ⟨by omega, hv⟩ (hmin i hi)
    obtain ⟨v, d, _⟩ := hsucc (Nat.find hex) hj hf hok
    refine ⟨by rw [d]; omega, ⟨?_, fun h => absurd h hall⟩, ?_, hsucc⟩
    · intro h; rw [v] at h; cases h
    · intro h; rw [v] at h; cases h


theorem connect_fail_fields (ws : WsConn) (h : ws.dialResult ws.dialCount = false) :
    connect ws = (false, (connect ws).2) ∧
    (connect ws).2.dialCount = ws.dialCount + 1 ∧
    (connect ws).2.dialResult = ws.dialResult ∧
    (connect ws).2.hasErrorHandleFunc = ws.hasErrorHandleFunc ∧
    (connect ws).2.closed = ws.closed ∧ (connect ws).2.writers = ws.writers ∧
    (connect ws).2.errorCalls = ws.errorCalls := by
  unfold connect
  by_cases h2 : ws.hasConnectedHandleFunc = true <;> simp [h, h2]

theorem CloseWs_fields (ws : WsConn) (h : ws.closed = true ∨ 0 < ws.writers) :
    ∃ s, CloseWs ws = some s ∧ s.closed = true ∧ s.dialCount = ws.dialCount ∧
      s.dialResult = ws.dialResult ∧ s.hasErrorHandleFunc = ws.hasErrorHandleFunc ∧
      s.errorCalls = ws.errorCalls := by
  unfold CloseWs
  by_cases hc : ws.closed = true
  · exact ⟨ws, by simp [hc], hc, rfl, rfl, rfl, rfl⟩
  · have hw : ws.writers ≠ 0 := by
      rcases h with h | h
      · exact absurd h hc
      · omega
    simp only [hc, hw, if_false]
    exact ⟨_, rfl, rfl, rfl, rfl, rfl, rfl⟩

/-- While every dial fails, the retry loop of `reconnect` never leaves: after
`fuel` iterations it has dialed `fuel` times and is still running, and it
has called `ErrorHandleFunc` once per failure met with `backoff` at 32
seconds or more. -/
theorem okx_reconnectLoop_all_fail (fuel : Nat) :
    ∀ (backoff : Nat) (ws : WsConn),
      (∀ i, ws.dialResult i = false) → ws.hasErrorHandleFunc = true →
      (ws.closed = true ∨ 0 < ws.writers) →
      (reconnectLoop fuel backoff ws).isRunning = true ∧
      (reconnectLoop fuel backoff ws).state.dialCount = ws.dialCount + fuel ∧
      (reconnectLoop fuel backoff ws).state.errorCalls.length
        = ws.errorCalls.length + (fuel - (32000000000 - backoff + 1) / 2) ∧
      ((reconnectLoop fuel backoff ws).state.closed
        = (ws.closed || decide ((32000000000 - backoff + 1) / 2 < fuel))) := by
  induction fuel with
  | zero =>
    intro backoff ws _ _ _
    simp [reconnectLoop, Outcome.isRunning, Outcome.state]
  | succ fuel ih =>
    intro backoff ws hfail herr hcl
    obtain ⟨hc, c1, c2, c3, c4, c5, c6⟩ := connect_fail_fields ws (hfail _)
    rw [reconnectLoop, hc]
    simp only
    have h32 : 32 * second = 32000000000 := rfl
    rw [h32]
    by_cases hb : backoff < 32000000000
    · rw [if_pos hb]
      obtain ⟨r1, r2, r3, r4⟩ := ih (backoff + 2) (sleep backoff (connect ws).2)
        (by intro i; simp only [sleep, c2]; exact hfail i)
        (by simp only [sleep, c3]; exact herr)
        (by simp only [sleep, c4, c5]; exact hcl)
      refine ⟨r1, ?_, ?_, ?_⟩
      · rw [r2]; simp only [sleep, c1]; omega
      · rw [r3]; simp only [sleep, c6]; omega
      · rw [r4]; simp only [sleep, c4]
        congr 1
        rw [decide_eq_decide]
        omega
    · rw [if_neg hb]
      obtain ⟨s, hs, s1, s2, s3, s4, s5⟩ := CloseWs_fields (sleep backoff (connect ws).2)
        (by simp only [sleep, c4, c5]; exact hcl)
      rw [hs]
      simp only
      have herr3 : s.hasErrorHandleFunc = true := by
        rw [s4]; simp only [sleep, c3]; exact herr
      rw [if_pos herr3]
      obtain ⟨r1, r2, r3, r4⟩ := ih backoff
        { s with errorCalls := s.errorCalls ++ ["retry reconnect fail"] }
        (by intro i; simp only [s3, sleep, c2]; exact hfail i)
        herr3 (Or.inl s1)
      refine ⟨r1, ?_, ?_, ?_⟩
      · rw [r2]; simp only [s2, sleep, c1]; omega
      · rw [r3]; simp only [s5, sleep, c6, List.length_append, List.length_singleton]; omega
      · rw [r4]; simp only [s1, Bool.true_or]
        have : (32000000000 - backoff + 1) / 2 < fuel + 1 := by omega
        simp [this]


/-- C8: with the server unreachable, `reconnect` never stops dialing: after
`n` failed dials, for every `n`, its loop is still running; `CloseWs` is
reached only once more than 15 500 000 000 dials have failed (`backoff`
grows by 2 nanoseconds per failure), and from then on `ErrorHandleFunc` is
called at every failed dial, not once. -/
theorem C8_reconnect_never_stops_dialing :
    ∀ n : Nat,
      (reconnect n wsDown).isRunning = true ∧
      (reconnect n wsDown).state.dialCount = wsDown.dialCount + n ∧
      (reconnect n wsDown).state.errorCalls.length = n - 15500000000 ∧
      (reconnect n wsDown).state.closed = decide (15500000000 < n) := by
  intro n
  have h := okx_reconnectLoop_all_fail n second
    { wsDown with reConnectLockHeld := true, closedConns := wsDown.closedConns ++ wsDown.c.toList }
    (fun _ => rfl) rfl (Or.inr (by decide))
  have e : reconnect n wsDown = reconnectLoop n second
      { wsDown with reConnectLockHeld := true,
                    closedConns := wsDown.closedConns ++ wsDown.c.toList } := rfl
  rw [e]
  obtain ⟨h1, h2, h3, h4⟩ := h
  refine ⟨h1, h2, ?_, ?_⟩
  · rw [h3]
    have : (32000000000 - second + 1) / 2 = 15500000000 := by decide
    rw [this]
    simp [wsDown]
  · rw [h4]
    have : (32000000000 - second + 1) / 2 = 15500000000 := by decide
    rw [this]
    simp [wsDown]

end Okx

/-- C9: after consecutive failed dials, bybit `redialBlocking` and gatews
`reconnect` (here allowed 7 retries) wait 1, 2, 4, 8, 16, then 32 and again
32 seconds: the wait starts at one second, doubles and never decreases, but
the sixth and seventh waits exceed the 30 seconds the code compares with. -/
theorem C9_backoff_exceeds_thirty_seconds :
    (Bybit.redialBlocking 7 Bybit.clientDown).state.sleeps
      = [1 * second, 2 * second, 4 * second, 8 * second, 16 * second, 32 * second,
         32 * second] ∧
    (Gatews.reconnect (Gatews.svcDown { Gatews.defaultConnConf with MaxRetryConn := 7 })).state.sleeps
      = [1 * second, 2 * second, 4 * second, 8 * second, 16 * second, 32 * second,
         32 * second] ∧
    30 * second < 32 * second := by
  decide

namespace GoKraken

theorem safeCloseConn_fields (k : Kraken) :
    (safeCloseConn k).reconnect = k.reconnect ∧ (safeCloseConn k).sleeps = k.sleeps := by
  unfold safeCloseConn
  cases k.conn <;> simp

theorem triggerReconnect_fields (k : Kraken) :
    (k.reconnect ≤ 1 → (triggerReconnect k).reconnect = 1) ∧
    (triggerReconnect k).dialCount = k.dialCount ∧ (triggerReconnect k).pings = k.pings := by
  unfold triggerReconnect
  by_cases h : k.reconnect < 1
  · rw [if_pos h]
    exact ⟨fun _ => by show k.reconnect + 1 = 1; omega, rfl, rfl⟩
  · rw [if_neg h]
    exact ⟨fun _ => by omega, rfl, rfl⟩

theorem listenerReturns_fields (k : Kraken) :
    (listenerReturns k).sleeps = k.sleeps ∧ (listenerReturns k).dialCount = k.dialCount ∧
    (listenerReturns k).conn = k.conn ∧ (listenerReturns k).listeners = k.listeners - 1 ∧
    (k.reconnect ≤ 1 → (listenerReturns k).reconnect = 1) := by
  unfold listenerReturns triggerReconnect
  by_cases h : k.reconnect < 1
  · rw [if_pos h]
    exact ⟨rfl, rfl, rfl, rfl, fun _ => by show k.reconnect + 1 = 1; omega⟩
  · rw [if_neg h]
    exact ⟨rfl, rfl, rfl, rfl, fun _ => by show k.reconnect = 1; omega⟩

/-- What the listeners leave behind when the wait in `k.wg.Wait()` ends:
none is running any more, and if one was running a signal is queued. -/
theorem afterWait_fields (k : Kraken) :
    (afterWait k).sleeps = k.sleeps ∧ (afterWait k).dialCount = k.dialCount ∧
    (afterWait k).conn = k.conn ∧ (afterWait k).listeners = 0 ∧
    (k.listeners = 0 → (afterWait k).reconnect = k.reconnect) ∧
    (0 < k.listeners → k.reconnect ≤ 1 → (afterWait k).reconnect = 1) := by
  have key : ∀ (n : Nat) (k : Kraken), k.listeners = n →
      (listenerReturns^[n] k).sleeps = k.sleeps ∧
      (listenerReturns^[n] k).dialCount = k.dialCount ∧
      (listenerReturns^[n] k).conn = k.conn ∧ (listenerReturns^[n] k).listeners = 0 ∧
      (n = 0 → (listenerReturns^[n] k).reconnect = k.reconnect) ∧
      (0 < n → k.reconnect ≤ 1 → (listenerReturns^[n] k).reconnect = 1) := by
    intro n
    induction n with
    | zero =>
      intro k hk
      exact ⟨rfl, rfl, rfl, hk, fun _ => rfl, fun h => absurd h (by omega)⟩
    | succ n ih =>
      intro k hk
      obtain ⟨l1, l2, l3, l4, l5⟩ := listenerReturns_fields k
      obtain ⟨i1, i2, i3, i4, i5, i6⟩ := ih (listenerReturns k) (by rw [l4, hk]; rfl)
      rw [Function.iterate_succ_apply]
      refine ⟨i1.trans l1, i2.trans l2, i3.trans l3, i4, fun h => absurd h (by omega), ?_⟩
      intro _ hle
      cases n with
      | zero => rw [i5 rfl]; exact l5 hle
      | succ n => exact i6 (by omega) (by rw [l5 hle])
  exact key k.listeners k rfl

/-- What the branch `case <-k.reconnect` leaves behind: the first sleep it
adds is `backoff`; after a failed dial a signal is queued again and after a
successful one `backoff` is back at one second, with a signal queued exactly
when a listener was running. -/
theorem onReconnect_fields (m : Manager) (ok : Bool) (t : Nat) (hsig : m.k.reconnect = 1) :
    (onReconnect m ok t).running = m.running ∧
    ((onReconnect m ok t).k.sleeps.drop m.k.sleeps.length).head? = some m.backoff ∧
    (ok = false → (onReconnect m ok t).k.reconnect = 1) ∧
    (ok = true → (onReconnect m ok t).backoff = second ∧
      (onReconnect m ok t).k.reconnect ≤ 1 ∧
      (m.k.listeners = 0 → (onReconnect m ok t).k.reconnect = 0) ∧
      (0 < m.k.listeners → (onReconnect m ok t).k.reconnect = 1)) := by
  obtain ⟨s1, s2⟩ := safeCloseConn_fields (afterWait (beforeWait m))
  obtain ⟨w1, _, _, _, w5, w6⟩ := afterWait_fields (beforeWait m)
  have hb : (beforeWait m).reconnect = 0 := by
    show m.k.reconnect - 1 = 0
    omega
  have hbl : (beforeWait m).listeners = m.k.listeners := rfl
  have hbs : (beforeWait m).sleeps = m.k.sleeps ++ [m.backoff] := rfl
  have hle : (safeCloseConn (afterWait (beforeWait m))).reconnect ≤ 1 := by
    rw [s1]
    by_cases hl : (beforeWait m).listeners = 0
    · rw [w5 hl, hb]; omega
    · rw [w6 (by omega) (by omega)]
  have hsl : (safeCloseConn (afterWait (beforeWait m))).sleeps = m.k.sleeps ++ [m.backoff] := by
    rw [s2, w1, hbs]
  cases ok with
  | false =>
    refine ⟨rfl, ?_, ?_, fun h => by cases h⟩
    · have hts : ∀ k : Kraken, (triggerReconnect k).sleeps = k.sleeps := by
        intro k; unfold triggerReconnect; split <;> rfl
      have : (onReconnect m false t).k.sleeps = m.k.sleeps ++ [m.backoff] ++ [second] := by
        show (triggerReconnect (sleep second _)).sleeps = _
        rw [hts]
        show (safeCloseConn (afterWait (beforeWait m))).sleeps ++ [second] = _
        rw [hsl]
      rw [this]
      simp
    · intro _
      show (triggerReconnect (sleep second
        { (dial (safeCloseConn (afterWait (beforeWait m))) false t).2 with conn := none })).reconnect
        = 1
      apply (triggerReconnect_fields _).1
      show (safeCloseConn (afterWait (beforeWait m))).reconnect ≤ 1
      exact hle
  | true =>
    have hrec : (onReconnect m true t).k.reconnect
        = (safeCloseConn (afterWait (beforeWait m))).reconnect := by
      simp only [onReconnect, dial, resubscribe, if_true]
      split <;> rfl
    have hsleeps : (onReconnect m true t).k.sleeps
        = (safeCloseConn (afterWait (beforeWait m))).sleeps := by
      simp only [onReconnect, dial, resubscribe, if_true]
      split <;> rfl
    refine ⟨rfl, ?_, fun h => (by cases h), fun _ => ⟨rfl, ?_, ?_, ?_⟩⟩
    · rw [hsleeps, hsl]; simp
    · rw [hrec]; exact hle
    · intro hl
      rw [hrec, s1, w5 (by rw [hbl]; exact hl), hb]
    · intro hl
      rw [hrec, s1, w6 (by rw [hbl]; exact hl) (by omega)]

theorem step_failed_redial (m : Manager) (t : Nat) (hrun : m.running = true)
    (hsig : m.k.reconnect = 1) :
    (step m (Event.reconnectSig false t)).running = true ∧
    (step m (Event.reconnectSig false t)).k.reconnect = 1 := by
  obtain ⟨a, _, c, _⟩ := onReconnect_fields m false t hsig
  simp only [step, hrun, hsig]
  simp only [Bool.true_eq_false, if_false, one_ne_zero]
  exact ⟨by rw [a, hrun], c rfl⟩

theorem run_failed_redials (fails : List Nat) :
    ∀ m : Manager, m.running = true → m.k.reconnect = 1 →
      (run m (fails.map (Event.reconnectSig false))).running = true ∧
      (run m (fails.map (Event.reconnectSig false))).k.reconnect = 1 := by
  induction fails with
  | nil => intro m h1 h2; exact ⟨h1, h2⟩
  | cons t rest ih =>
    intro m h1 h2
    obtain ⟨a, b⟩ := step_failed_redial m t h1 h2
    exact ih (step m (Event.reconnectSig false t)) a b

theorem step_successful_redial (m : Manager) (t : Nat) (hrun : m.running = true)
    (hsig : m.k.reconnect = 1) :
    (step m (Event.reconnectSig true t)).running = true ∧
    (step m (Event.reconnectSig true t)).backoff = second ∧
    (step m (Event.reconnectSig true t)).k.reconnect ≤ 1 := by
  obtain ⟨a, _, _, d⟩ := onReconnect_fields m true t hsig
  simp only [step, hrun, hsig]
  simp only [Bool.true_eq_false, if_false, one_ne_zero]
  exact ⟨by rw [a, hrun], (d rfl).1, (d rfl).2.1⟩

theorem step_reconnect_first_sleep (m : Manager) (ok : Bool) (t : Nat)
    (hrun : m.running = true) (hsig : m.k.reconnect = 1) :
    ((step m (Event.reconnectSig ok t)).k.sleeps.drop m.k.sleeps.length).head?
      = some m.backoff := by
  obtain ⟨_, b, _, _⟩ := onReconnect_fields m ok t hsig
  simp only [step, hrun, hsig]
  simp only [Bool.true_eq_false, if_false, one_ne_zero]
  exact b

/-- C10: after any number of failed redials followed by one successful
redial, `backoff` is one second again, and the next reconnect signal that
`managerThread` handles, whatever its dial gives, first sleeps one second. -/
theorem C10_backoff_resets_after_success (m : Manager) (fails : List Nat) (t1 t2 : Nat)
    (ok : Bool) (hrun : m.running = true) (hsig : m.k.reconnect = 1) :
    (run m (fails.map (Event.reconnectSig false) ++ [Event.reconnectSig true t1])).backoff
      = second ∧
    ((step
        { run m (fails.map (Event.reconnectSig false) ++ [Event.reconnectSig true t1]) with
          k := triggerReconnect
            (run m (fails.map (Event.reconnectSig false) ++ [Event.reconnectSig true t1])).k }
        (Event.reconnectSig ok t2)).k.sleeps.drop
      (run m (fails.map (Event.reconnectSig false)
        ++ [Event.reconnectSig true t1])).k.sleeps.length).head? = some second := by
  obtain ⟨a, b⟩ := run_failed_redials fails m hrun hsig
  have hr : run m (fails.map (Event.reconnectSig false) ++ [Event.reconnectSig true t1])
      = step (run m (fails.map (Event.reconnectSig false))) (Event.reconnectSig true t1) := by
    simp [run, List.foldl_append]
  rw [hr]
  obtain ⟨c, d, e⟩ := step_successful_redial _ t1 a b
  generalize step (run m (fails.map (Event.reconnectSig false))) (Event.reconnectSig true t1)
    = m1 at c d e
  refine ⟨d, ?_⟩
  have hsig1 : (triggerReconnect m1.k).reconnect = 1 := (triggerReconnect_fields m1.k).1 e
  have hsl : (triggerReconnect m1.k).sleeps = m1.k.sleeps := by
    unfold triggerReconnect
    split <;> rfl
  have := step_reconnect_first_sleep { m1 with k := triggerReconnect m1.k } ok t2 c hsig1
  simp only [hsl] at this
  rw [this, d]

/-- C10 witness: two failed redials, then a successful one, then a signal
whose redial fails. -/
theorem C10_backoff_resets_after_success_witness :
    managerSignalled.running = true ∧ managerSignalled.k.reconnect = 1 ∧
    ((run managerSignalled
        ([5, 9].map (Event.reconnectSig false) ++ [Event.reconnectSig true 20])).backoff
      = second ∧
    ((step
        { run managerSignalled
            ([5, 9].map (Event.reconnectSig false) ++ [Event.reconnectSig true 20]) with
          k := triggerReconnect
            (run managerSignalled
              ([5, 9].map (Event.reconnectSig false) ++ [Event.reconnectSig true 20])).k }
        (Event.reconnectSig false 60)).k.sleeps.drop
      (run managerSignalled ([5, 9].map (Event.reconnectSig false)
        ++ [Event.reconnectSig true 20])).k.sleeps.length).head? = some second) :=
  ⟨rfl, rfl, C10_backoff_resets_after_success managerSignalled [5, 9] 20 60 false rfl rfl⟩

end GoKraken

namespace Bitget

/-- C11: a call of `Reconnect` made while the `reconnecting` flag is set
returns with nothing changed: no transport closed, no dial, no call of
`reconnectListener`, and `ws`, `lastPong` and the flag as they were. -/
theorem C11_Reconnect_noop_in_flight (w : Session) (h : w.b.reconnecting = true) :
    Reconnect w = w ∧
    (Reconnect w).closedConns = w.closedConns ∧
    (Reconnect w).dialCount = w.dialCount ∧
    (Reconnect w).calls = w.calls ∧
    (Reconnect w).b.ws = w.b.ws ∧
    (Reconnect w).b.lastPong = w.b.lastPong ∧
    (Reconnect w).b.reconnecting = true := by
  have e : Reconnect w = w := by simp [Reconnect, h]
  rw [e]
  exact ⟨rfl, rfl, rfl, rfl, rfl, rfl, h⟩

/-- C11 witness: a connected session with a reconnect in flight. -/
theorem C11_Reconnect_noop_in_flight_witness :
    sessionReconnecting.b.reconnecting = true ∧
    (Reconnect sessionReconnecting = sessionReconnecting ∧
    (Reconnect sessionReconnecting).closedConns = sessionReconnecting.closedConns ∧
    (Reconnect sessionReconnecting).dialCount = sessionReconnecting.dialCount ∧
    (Reconnect sessionReconnecting).calls = sessionReconnecting.calls ∧
    (Reconnect sessionReconnecting).b.ws = sessionReconnecting.b.ws ∧
    (Reconnect sessionReconnecting).b.lastPong = sessionReconnecting.b.lastPong ∧
    (Reconnect sessionReconnecting).b.reconnecting = true) :=
  ⟨rfl, C11_Reconnect_noop_in_flight sessionReconnecting rfl⟩

theorem record_b (w w' : Session) (c : Option Call) (h : record w c = some w') :
    w'.b = w.b := by
  cases c with
  | none => simp [record] at h
  | some x =>
    simp only [record, Option.map_some', Option.some.injEq] at h
    rw [← h]

theorem handleData_b (w w' : Session) (msg : List (String × Any)) (raw : String)
    (h : handleData w msg raw = some w') : w'.b = w.b := by
  unfold handleData at h
  split at h <;> exact record_b _ _ _ h

theorem handleCode_b (w w' : Session) (msg : List (String × Any)) (raw : String)
    (h : handleCode w msg raw = some w') : w'.b = w.b := by
  unfold handleCode at h
  split at h
  · split at h
    · exact record_b _ _ _ h
    · exact handleData_b _ _ _ _ h
  · cases h
  · exact handleData_b _ _ _ _ h

/-- C14 (as stated) fails: a subscribe acknowledgement read at time 9 is
handed to the default listener and leaves `lastPong` at 0. -/
theorem C14_lastPong_counterexample :
    (readTurn sampleDecode { session0 with now := 9 }
        (some "\x7b\"event\":\"subscribe\"\x7d")).map (fun w => (w.calls, w.b.lastPong))
      = some ([{ listener := 0, message := "\x7b\"event\":\"subscribe\"\x7d" }], 0) ∧
    (readTurn sampleDecode { session0 with now := 9 }
        (some "\x7b\"event\":\"subscribe\"\x7d")).map (fun w => w.b.lastPong) ≠ some 9 := by
  decide

/-- C14 (amended): `handleMessage` refreshes `lastPong` on pong frames only:
for the frame "pong" it returns with `lastPong` set to the time of receipt
and nothing else changed, and whenever it returns on any other frame
`lastPong` is what it was. -/
theorem C14_lastPong_on_pong_only (jsonToMap : String → List (String × Any)) (w : Session)
    (raw : String) :
    (raw = "pong" →
      handleMessage jsonToMap w raw = some { w with b := { w.b with lastPong := w.now } }) ∧
    (raw ≠ "pong" → ∀ w', handleMessage jsonToMap w raw = some w' →
      w'.b.lastPong = w.b.lastPong) := by
  constructor
  · intro h
    simp [handleMessage, h]
  · intro h w' hw
    unfold handleMessage at hw
    rw [if_neg h] at hw
    split at hw
    · simp only [Option.some.injEq] at hw
      rw [← hw]
    · rw [handleCode_b _ _ _ _ hw]

/-- C14 witness: a pong frame read at second 36. -/
theorem C14_lastPong_on_pong_only_witness :
    handleMessage sampleDecode sessionLate "pong"
      = some { sessionLate with b := { sessionLate.b with lastPong := sessionLate.now } } :=
  (C14_lastPong_on_pong_only sampleDecode sessionLate "pong").1 rfl

/-- C17: `handleMessage` panics on an error frame whose `code` is a string
(the type assertion `code.(float64)` fails) and on a data frame without
`arg` (the type assertion in `dispatch` fails), with default and error
listeners set; the read goroutine, which has no `recover`, dies with it. -/
theorem C17_handleMessage_panics :
    session0.b.defListener ≠ none ∧ session0.b.errorListener ≠ none ∧
    (handleMessage sampleDecode session0 "\x7b\"code\":\"30001\"\x7d").isSome = false ∧
    (handleMessage sampleDecode session0 "\x7b\"data\":[]\x7d").isSome = false ∧
    (readTurn sampleDecode session0 (some "\x7b\"code\":\"30001\"\x7d")).isSome = false ∧
    (readTurn sampleDecode session0 (some "\x7b\"data\":[]\x7d")).isSome = false := by
  decide


/-- A frame with a `code` that is not a number makes `handleMessage` panic,
whatever the decoder and the listeners. -/
theorem handleMessage_panics_of_bad_code (jsonToMap : String → List (String × Any))
    (w : Session) (raw : String) (v : Any) (h1 : raw ≠ "pong")
    (h2 : isLoginEvent (jsonToMap raw) = false)
    (h3 : mapLookup (jsonToMap raw) "code" = some v) (h4 : ∀ n, v ≠ Any.float64 n) :
    handleMessage jsonToMap w raw = none := by
  unfold handleMessage handleCode
  rw [if_neg h1, h2, h3]
  cases v with
  | float64 n => exact absurd rfl (h4 n)
  | nil => simp
  | bool b => simp
  | str s => simp
  | slice l => simp
  | map m => simp

theorem SendByType_pings (b : BitgetBaseWsClient) (r : WsBaseReq) :
    ((SendByType b r).2.sent.filter (fun f => f = Wire.text "ping")).length
      = (b.sent.filter (fun f => f = Wire.text "ping")).length := by
  unfold SendByType Send
  cases b.ws with
  | none => rfl
  | some conn =>
    by_cases hw : conn.writable = true
    · simp [hw, List.filter_append]
    · simp [hw]

theorem login_pings (w : Session) : pingsSent (login w).2 = pingsSent w := by
  have h := SendByType_pings w.b
    { Op := WsOpLogin
      Args := [Arg.login w.cfg.ApiKey w.cfg.PASSPHRASE (toString (w.now / second))
        (signOf w.cfg.SecretKey (toString (w.now / second)))] }
  unfold login pingsSent
  simp only
  generalize SendByType w.b _ = r at h ⊢
  obtain ⟨e, b1⟩ := r
  cases e with
  | some err => exact h
  | none =>
    simp only
    by_cases h1 : b1.loginOK = true
    · simp only [h1, if_true]; exact h
    · simp only [h1]
      by_cases h2 : w.loginAck w.loginCount = true
      · simp only [h2, if_true]; exact h
      · simp only [h2, sleep]; exact h

theorem resubscribe_pings (w : Session) : pingsSent (resubscribe w) = pingsSent w := by
  unfold resubscribe pingsSent
  by_cases h : w.b.allSub.length = 0
  · simp only [h, if_true]
  · simp only [h, if_false]
    exact SendByType_pings _ _

theorem ConnectWebSocket_pings (w : Session) : pingsSent (ConnectWebSocket w) = pingsSent w := by
  unfold ConnectWebSocket
  cases w.dialResult w.dialCount with
  | none => rfl
  | some writable =>
    simp only
    rw [resubscribe_pings]
    by_cases h : w.b.needLogin = true
    · simp only [h, if_true]
      rw [login_pings]
      rfl
    · simp only [h]
      rfl

theorem dropTransport_pings (w : Session) : pingsSent (dropTransport w) = pingsSent w := by
  unfold dropTransport
  cases w.b.ws <;> rfl

theorem notifyReconnected_pings (w : Session) :
    pingsSent (notifyReconnected w) = pingsSent w := by
  unfold notifyReconnected
  cases w.b.reconnectListener <;> rfl

theorem Send_session_fields (b : BitgetBaseWsClient) (msg : Wire) :
    (Send b msg).2.ws = b.ws := by
  unfold Send
  cases hws : b.ws with
  | none => simp [hws]
  | some conn => by_cases hw : conn.writable = true <;> simp [hw, hws]

theorem login_session_fields (w : Session) :
    (login w).2.dialCount = w.dialCount ∧ (login w).2.closedConns = w.closedConns ∧
    (login w).2.b.ws = w.b.ws := by
  unfold login SendByType Send
  cases hws : w.b.ws with
  | none => simp [hws]
  | some conn =>
    by_cases hw : conn.writable = true <;> by_cases h1 : w.b.loginOK = true <;>
      by_cases h2 : w.loginAck w.loginCount = true <;> simp [hw, h1, h2, sleep, hws]

theorem resubscribe_session_fields (w : Session) :
    (resubscribe w).dialCount = w.dialCount ∧ (resubscribe w).closedConns = w.closedConns ∧
    (resubscribe w).b.ws = w.b.ws := by
  unfold resubscribe
  by_cases h : w.b.allSub.length = 0
  · rw [if_pos h]; exact ⟨rfl, rfl, rfl⟩
  · rw [if_neg h]
    exact ⟨rfl, rfl, Send_session_fields _ _⟩

/-- What `ConnectWebSocket` does to the transport: one dial, and the dialed
connection installed if the dial succeeded. -/
theorem ConnectWebSocket_session_fields (w : Session) :
    (ConnectWebSocket w).dialCount = w.dialCount + 1 ∧
    (ConnectWebSocket w).closedConns = w.closedConns ∧
    (ConnectWebSocket w).b.ws
      = match w.dialResult w.dialCount with
        | none => w.b.ws
        | some writable => some { id := w.dialCount + 1, writable := writable } := by
  unfold ConnectWebSocket
  cases w.dialResult w.dialCount with
  | none => exact ⟨rfl, rfl, rfl⟩
  | some writable =>
    simp only
    split
    · exact ⟨(resubscribe_session_fields _).1.trans ((login_session_fields _).1.trans rfl),
        (resubscribe_session_fields _).2.1.trans ((login_session_fields _).2.1.trans rfl),
        (resubscribe_session_fields _).2.2.trans ((login_session_fields _).2.2.trans rfl)⟩
    · exact ⟨(resubscribe_session_fields _).1.trans rfl,
        (resubscribe_session_fields _).2.1.trans rfl,
        (resubscribe_session_fields _).2.2.trans rfl⟩

/-- What `Reconnect` does when no reconnect is in flight: the transport is
closed and dropped, one dial is made, and the transport afterwards is the
dialed connection, or none if the dial failed. -/
theorem Reconnect_effects (w : Session) (h : w.b.reconnecting = false) :
    (Reconnect w).dialCount = w.dialCount + 1 ∧
    (Reconnect w).closedConns = w.closedConns ++ w.b.ws.toList.map (fun c => c.id) ∧
    (Reconnect w).b.ws
      = (w.dialResult w.dialCount).map
          (fun writable => { id := w.dialCount + 1, writable := writable }) := by
  have hn : ∀ x : Session, (notifyReconnected x).dialCount = x.dialCount ∧
      (notifyReconnected x).closedConns = x.closedConns ∧ (notifyReconnected x).b.ws = x.b.ws := by
    intro x; unfold notifyReconnected; cases x.b.reconnectListener <;> exact ⟨rfl, rfl, rfl⟩
  have hd : ∀ x : Session, (dropTransport x).dialCount = x.dialCount ∧
      (dropTransport x).closedConns = x.closedConns ++ x.b.ws.toList.map (fun c => c.id) ∧
      (dropTransport x).b.ws = none ∧ (dropTransport x).dialResult = x.dialResult := by
    intro x; unfold dropTransport
    cases hx : x.b.ws with
    | none => simp [hx]
    | some c => simp
  unfold Reconnect
  simp only [h]
  simp only [Bool.false_eq_true, if_false]
  obtain ⟨n1, n2, n3⟩ := hn (ConnectWebSocket (sleep reconnectBackoff
    (dropTransport { w with b := { w.b with reconnecting := true } })))
  obtain ⟨c1, c2, c3⟩ := ConnectWebSocket_session_fields (sleep reconnectBackoff
    (dropTransport { w with b := { w.b with reconnecting := true } }))
  obtain ⟨d1, d2, d3, d4⟩ := hd { w with b := { w.b with reconnecting := true } }
  refine ⟨?_, ?_, ?_⟩
  · show (notifyReconnected _).dialCount = _
    rw [n1, c1]
    show (dropTransport _).dialCount + 1 = _
    rw [d1]
  · show (notifyReconnected _).closedConns = _
    rw [n2, c2]
    show (dropTransport _).closedConns = _
    rw [d2]
  · show (notifyReconnected _).b.ws = _
    rw [n3, c3]
    have e1 : (sleep reconnectBackoff
        (dropTransport { w with b := { w.b with reconnecting := true } })).dialResult
        = w.dialResult := d4
    have e2 : (sleep reconnectBackoff
        (dropTransport { w with b := { w.b with reconnecting := true } })).dialCount
        = w.dialCount := d1
    have e3 : (sleep reconnectBackoff
        (dropTransport { w with b := { w.b with reconnecting := true } })).b.ws = none := d3
    rw [e1, e2, e3]
    cases w.dialResult w.dialCount <;> rfl

/-- `Reconnect` writes no ping frame. -/
theorem Reconnect_pings (w : Session) : pingsSent (Reconnect w) = pingsSent w := by
  unfold Reconnect
  by_cases h : w.b.reconnecting = true
  · simp only [h, if_true]
  · simp only [h]
    show pingsSent (notifyReconnected (ConnectWebSocket (sleep reconnectBackoff
      (dropTransport { w with b := { w.b with reconnecting := true } })))) = pingsSent w
    rw [notifyReconnected_pings, ConnectWebSocket_pings]
    show pingsSent (dropTransport { w with b := { w.b with reconnecting := true } }) = pingsSent w
    rw [dropTransport_pings]
    rfl

end Bitget

namespace GoKraken

theorem onReconnect_dialCount (m : Manager) (ok : Bool) (t : Nat) :
    (onReconnect m ok t).k.dialCount = m.k.dialCount + 1 := by
  have hs : ∀ k : Kraken, (safeCloseConn k).dialCount = k.dialCount := by
    intro k; unfold safeCloseConn; cases k.conn <;> rfl
  have hw : (afterWait (beforeWait m)).dialCount = m.k.dialCount :=
    (afterWait_fields (beforeWait m)).2.1
  cases ok with
  | false =>
    simp only [onReconnect, dial, Bool.false_eq_true, if_false]
    rw [(triggerReconnect_fields _).2.1]
    simp only [sleep, hs, hw]
  | true =>
    simp only [onReconnect, dial, if_true, resubscribe]
    split <;> simp only [sleep, hs, hw]

theorem send_fields (k : Kraken) (ok : Bool) :
    (send k ok).2.reconnect = k.reconnect ∧ (send k ok).2.dialCount = k.dialCount := by
  unfold send
  cases k.conn with
  | none => exact ⟨rfl, rfl⟩
  | some c => cases ok <;> exact ⟨rfl, rfl⟩

theorem onHeartbeat_reconnect_le (m : Manager) (now : Nat) (ok : Bool)
    (h : m.k.reconnect ≤ 1) : (onHeartbeat m now ok).k.reconnect ≤ 1 := by
  unfold onHeartbeat
  by_cases hx : now - m.k.lastPong > m.k.heartbeatTimeout + m.k.readTimeout
  · rw [if_pos hx]
    show (triggerReconnect m.k).reconnect ≤ 1
    rw [(triggerReconnect_fields _).1 h]
  · rw [if_neg hx]
    have hs := (send_fields m.k ok).1
    generalize send m.k ok = r at hs
    obtain ⟨e, k1⟩ := r
    simp only at hs
    cases e with
    | none => show k1.reconnect ≤ 1; rw [hs]; exact h
    | some err =>
      show (triggerReconnect k1).reconnect ≤ 1
      rw [(triggerReconnect_fields _).1 (by rw [hs]; exact h)]

/-- Every turn of `managerThread` keeps at most one signal queued. -/
theorem step_reconnect_le (m : Manager) (e : Event) (h : m.k.reconnect ≤ 1) :
    (step m e).k.reconnect ≤ 1 := by
  unfold step
  cases hrun : m.running with
  | false => exact h
  | true =>
    simp only [Bool.true_eq_false, if_false]
    cases e with
    | reconnectSig ok t =>
      simp only
      by_cases h0 : m.k.reconnect = 0
      · rw [if_pos h0]; exact h
      · rw [if_neg h0]
        have h1 : m.k.reconnect = 1 := by omega
        obtain ⟨_, _, c, d⟩ := onReconnect_fields m ok t h1
        cases ok with
        | false => rw [c rfl]
        | true => exact (d rfl).2.1
    | stop =>
      simp only
      split <;> exact h
    | heartbeat now ok => exact onHeartbeat_reconnect_le m now ok h

theorem runActions_reconnect_le (actions : List Action) :
    ∀ m : Manager, m.k.reconnect ≤ 1 → (runActions m actions).k.reconnect ≤ 1 := by
  induction actions with
  | nil => intro m h; exact h
  | cons a rest ih =>
    intro m h
    apply ih
    cases a with
    | trigger =>
      show (triggerReconnect m.k).reconnect ≤ 1
      rw [(triggerReconnect_fields _).1 h]
    | manager e => exact step_reconnect_le m e h

theorem runActions_triggers (n : Nat) :
    ∀ m : Manager, m.k.reconnect ≤ 1 →
      (runActions m (List.replicate (n + 1) Action.trigger)).k.reconnect = 1 ∧
      (runActions m (List.replicate (n + 1) Action.trigger)).k.dialCount = m.k.dialCount ∧
      (runActions m (List.replicate (n + 1) Action.trigger)).running = m.running := by
  induction n with
  | zero =>
    intro m h
    exact ⟨(triggerReconnect_fields _).1 h, (triggerReconnect_fields _).2.1, rfl⟩
  | succ n ih =>
    intro m h
    have := ih (act m Action.trigger)
      (by show (triggerReconnect m.k).reconnect ≤ 1; rw [(triggerReconnect_fields _).1 h])
    exact ⟨this.1, this.2.1.trans (triggerReconnect_fields _).2.1, this.2.2⟩

/-- A reconnect signal handled while a listener is running leaves a signal
behind once its redial has succeeded: the listener, which returns only on a
read error, has called `triggerReconnect` during the wait. -/
theorem step_leaves_signal (m : Manager) (t : Nat) (hrun : m.running = true)
    (hsig : m.k.reconnect = 1) (hl : 0 < m.k.listeners) :
    waitReturns (beforeWait m) = false ∧
    (beforeWait m).dialCount = m.k.dialCount ∧
    (step m (Event.reconnectSig true t)).k.reconnect = 1 ∧
    (step m (Event.reconnectSig true t)).k.dialCount = m.k.dialCount + 1 := by
  obtain ⟨_, _, _, d⟩ := onReconnect_fields m true t hsig
  have hstep : step m (Event.reconnectSig true t) = onReconnect m true t := by
    simp only [step, hrun, hsig]
    simp
  refine ⟨?_, rfl, ?_, ?_⟩
  · show decide (m.k.listeners = 0) = false
    simp
    omega
  · rw [hstep]; exact (d rfl).2.2.2 hl
  · rw [hstep, onReconnect_dialCount]

/-- C12: on the connected client `managerStart`, whose listener is reading,
three `triggerReconnect` calls leave one signal queued and make no dial.
`managerThread` takes the signal and then sits in `k.wg.Wait()`, without a
dial, for as long as the listener keeps reading.  When the listener's read
fails and the wait ends, the branch makes its dial, and the signal the
listener queued on its way out is still there after the successful redial:
the next turn redials again, so the one batch of calls gives two dials. -/
theorem C12_one_batch_two_redials :
    (runActions managerStart (List.replicate 3 Action.trigger)).k.reconnect = 1
    ∧ (runActions managerStart (List.replicate 3 Action.trigger)).k.dialCount
        = managerStart.k.dialCount
    ∧ waitReturns (beforeWait (runActions managerStart (List.replicate 3 Action.trigger)))
        = false
    ∧ (beforeWait (runActions managerStart (List.replicate 3 Action.trigger))).dialCount
        = managerStart.k.dialCount
    ∧ (step (runActions managerStart (List.replicate 3 Action.trigger))
        (Event.reconnectSig true 7)).k.dialCount = managerStart.k.dialCount + 1
    ∧ (step (runActions managerStart (List.replicate 3 Action.trigger))
        (Event.reconnectSig true 7)).k.reconnect = 1
    ∧ (step (step (runActions managerStart (List.replicate 3 Action.trigger))
        (Event.reconnectSig true 7)) (Event.reconnectSig true 9)).k.dialCount
        = managerStart.k.dialCount + 2 := by
  decide

/-- A second `Close` always panics: the first one has closed `stop`. -/
theorem Close_twice_panics (k k1 : Kraken) (h : Close k = some k1) : Close k1 = none := by
  unfold Close at h ⊢
  have hs : ∀ k : Kraken, (safeCloseConn k).stopped = k.stopped := by
    intro k; unfold safeCloseConn; cases k.conn <;> rfl
  by_cases hst : (safeCloseConn k).stopped = true
  · simp [hst] at h
  · simp only [hst] at h
    simp only [Bool.false_eq_true, if_false, Option.some.injEq] at h
    rw [← h]
    simp [hs]

/-- C20: on a connected client the first `Close` returns, and the second
`Close` panics ("close of closed channel") instead of returning. -/
theorem C20_second_Close_panics :
    managerStart.k.conn = some 1 ∧
    (Close managerStart.k).isSome = true ∧
    ((Close managerStart.k).bind Close) = none := by
  decide

end GoKraken

namespace Okx

/-- C15: `handle` invokes `hand` exactly once, with `bs`, if and only if
`bs` is not "pong" and `hand` is not nil, and then returns what `hand`
returns; otherwise `hand` is not invoked and the result is nil. -/
theorem C15_handle_skips_pong (hand : Option (Bytes → Option String)) (bs : Bytes) :
    ((handle hand bs).1 = [bs] ↔ bs ≠ pong ∧ hand ≠ none) ∧
    ((handle hand bs).1 = [bs] → ∃ f, hand = some f ∧ (handle hand bs).2 = f bs) ∧
    ((handle hand bs).1 ≠ [bs] → (handle hand bs).1 = [] ∧ (handle hand bs).2 = none) := by
  unfold handle
  by_cases hp : bs = pong
  · simp [hp]
  · cases hand with
    | none => simp [hp]
    | some f => simp [hp]

end Okx

namespace Bybit

theorem dispatch_queue (c : WsClient) (bs : String) (pickSend : Bool) :
    (dispatch c bs pickSend).handleQueue = c.handleQueue ∨
    (c.handleQueue.length < handleQueueSize ∧
      (dispatch c bs pickSend).handleQueue = c.handleQueue ++ [bs]) := by
  unfold dispatch
  by_cases h : c.handleQueue.length < handleQueueSize
  · rw [if_pos h]
    by_cases hc : c.cancelled = true
    · rw [if_pos hc]
      cases pickSend with
      | false => left; rfl
      | true => right; exact ⟨h, rfl⟩
    · rw [if_neg hc]
      right; exact ⟨h, rfl⟩
  · rw [if_neg h]
    left; rfl

/-- The queue stays within its capacity and holds, in order, some of the
frames received. -/
theorem runQueue_invariant (ops : List QueueOp) :
    ∀ (c : WsClient) (received : List String),
      c.handleQueue.length ≤ handleQueueSize → c.handleQueue.Sublist received →
      (runQueue c ops).handleQueue.length ≤ handleQueueSize ∧
      (runQueue c ops).handleQueue.Sublist (received ++ framesOf ops) := by
  induction ops with
  | nil =>
    intro c received h1 h2
    exact ⟨h1, by simpa [framesOf, runQueue] using h2⟩
  | cons op rest ih =>
    intro c received h1 h2
    cases op with
    | frame bs pickSend =>
      have hstep : (applyQueueOp c (QueueOp.frame bs pickSend)).handleQueue.length
            ≤ handleQueueSize ∧
          (applyQueueOp c (QueueOp.frame bs pickSend)).handleQueue.Sublist
            (received ++ [bs]) := by
        show (dispatch c bs pickSend).handleQueue.length ≤ handleQueueSize ∧
          (dispatch c bs pickSend).handleQueue.Sublist (received ++ [bs])
        rcases dispatch_queue c bs pickSend with e | ⟨hlt, e⟩
        · rw [e]
          exact ⟨h1, h2.trans (List.sublist_append_left _ _)⟩
        · rw [e]
          refine ⟨?_, List.Sublist.append h2 (List.Sublist.refl _)⟩
          rw [List.length_append, List.length_singleton]
          omega
      have := ih (applyQueueOp c (QueueOp.frame bs pickSend)) (received ++ [bs])
        hstep.1 hstep.2
      simpa [framesOf, runQueue] using this
    | take =>
      have hstep : (applyQueueOp c QueueOp.take).handleQueue.length ≤ handleQueueSize ∧
          (applyQueueOp c QueueOp.take).handleQueue.Sublist received := by
        show c.handleQueue.tail.length ≤ handleQueueSize ∧ c.handleQueue.tail.Sublist received
        refine ⟨?_, (List.tail_sublist _).trans h2⟩
        rw [List.length_tail]
        omega
      have := ih (applyQueueOp c QueueOp.take) received hstep.1 hstep.2
      simpa [framesOf, runQueue] using this

/-- C16: `dispatch` on a queue that holds `handleQueueSize` messages returns
with the client unchanged (the message is dropped); and over any sequence of
dispatched frames and worker takes, starting from an empty queue, the queue
never holds more than `handleQueueSize` messages and its content is a
subsequence, in order, of the frames received. -/
theorem C16_dispatch_drops_newest (c : WsClient) (bs : String) (pickSend : Bool)
    (ops : List QueueOp) :
    (c.handleQueue.length = handleQueueSize → dispatch c bs pickSend = c) ∧
    (c.handleQueue = [] →
      (runQueue c ops).handleQueue.length ≤ handleQueueSize ∧
      (runQueue c ops).handleQueue.Sublist (framesOf ops)) := by
  constructor
  · intro h
    unfold dispatch
    rw [if_neg (by omega)]
  · intro h
    have := runQueue_invariant ops c [] (by rw [h]; exact Nat.zero_le _)
      (by rw [h])
    simpa using this

/-- C16 witness: a frame dispatched to a full queue. -/
theorem C16_dispatch_drops_newest_witness :
    clientFull.handleQueue.length = handleQueueSize ∧
    dispatch clientFull "new" true = clientFull :=
  ⟨by simp [clientFull],
    (C16_dispatch_drops_newest clientFull "new" true []).1 (by simp [clientFull])⟩

end Bybit

namespace Gatews

/-- C18: `SubscribeWithOption` on a channel marked in `authChannel`, with
`Key` or `Secret` empty, returns the auth-empty error and leaves the service
as it was: no frame written, no queue or receiver created for the channel,
nothing recorded in the subscription history. -/
theorem C18_private_channel_rejected (ws : WsService) (channel : String)
    (payload : List String) (op : Option SubscribeOptions)
    (hauth : ws.authChannel channel = true)
    (hcred : ws.conf.Key = "" ∨ ws.conf.Secret = "") :
    SubscribeWithOption ws channel payload op = Run.done (some errAuthEmpty) ws ∧
    (SubscribeWithOption ws channel payload op).state.wire = ws.wire ∧
    (SubscribeWithOption ws channel payload op).state.msgChs = ws.msgChs ∧
    (SubscribeWithOption ws channel payload op).state.conf.subscribeMsg
      = ws.conf.subscribeMsg := by
  have e : SubscribeWithOption ws channel payload op = Run.done (some errAuthEmpty) ws := by
    unfold SubscribeWithOption
    rw [if_pos ⟨hcred, hauth⟩]
  rw [e]
  exact ⟨rfl, rfl, rfl, rfl⟩

/-- C18 witness: a subscription to "spot.orders" without credentials. -/
theorem C18_private_channel_rejected_witness :
    svcPrivate.authChannel "spot.orders" = true ∧
    (svcPrivate.conf.Key = "" ∨ svcPrivate.conf.Secret = "") ∧
    (SubscribeWithOption svcPrivate "spot.orders" ["BTC_USDT"] none
        = Run.done (some errAuthEmpty) svcPrivate ∧
    (SubscribeWithOption svcPrivate "spot.orders" ["BTC_USDT"] none).state.wire
      = svcPrivate.wire ∧
    (SubscribeWithOption svcPrivate "spot.orders" ["BTC_USDT"] none).state.msgChs
      = svcPrivate.msgChs ∧
    (SubscribeWithOption svcPrivate "spot.orders" ["BTC_USDT"] none).state.conf.subscribeMsg
      = svcPrivate.conf.subscribeMsg) :=
  ⟨by decide, by decide,
    C18_private_channel_rejected svcPrivate "spot.orders" ["BTC_USDT"] none (by decide)
      (by decide)⟩

/-- C19 (as stated) fails: a write that fails with an error that is not a
network error is returned to the caller, but no reconnect is started: the
connection is not closed and nothing is dialed. -/
theorem C19_write_error_counterexample :
    svcWriteFails.muHeld = false ∧
    (safeWrite svcWriteFails (Frame.text "x")).value = some (some "write error") ∧
    (safeWrite svcWriteFails (Frame.text "x")).state.dialCount = svcWriteFails.dialCount ∧
    (safeWrite svcWriteFails (Frame.text "x")).state.closed = svcWriteFails.closed ∧
    (safeWrite svcWriteFails (Frame.text "x")).state.Client = svcWriteFails.Client := by
  decide

/-- C19 (amended): with `ws.mu` free, a successful write puts the frame on
the wire, returns nil and starts no reconnect; a write that fails with an
error for which `isNetErr` is false returns the error, writes nothing and
starts no reconnect either (nothing closed, nothing dialed); in both cases
`ws.mu` is free again. -/
theorem C19_safeWrite_results (ws : WsService) (data : Frame) (hmu : ws.muHeld = false) :
    (ws.writeResult ws.writeCount = WriteResult.ok →
      safeWrite ws data = Run.done none
        { ws with writeCount := ws.writeCount + 1, wire := ws.wire ++ [(ws.Client, data)] }) ∧
    (ws.writeResult ws.writeCount = WriteResult.otherErr →
      safeWrite ws data = Run.done (some "write error")
        { ws with writeCount := ws.writeCount + 1 }) := by
  constructor
  · intro h
    exact safeWrite_ok ws data hmu h
  · intro h
    simp only [safeWrite, safeWriteK, hmu, h]
    simp

/-- C19 witness: one successful write on a fresh service. -/
theorem C19_safeWrite_results_witness :
    svcUp.muHeld = false ∧
    (svcUp.writeResult svcUp.writeCount = WriteResult.ok →
      safeWrite svcUp (Frame.text "x") = Run.done none
        { svcUp with writeCount := svcUp.writeCount + 1,
                     wire := svcUp.wire ++ [(svcUp.Client, Frame.text "x")] }) :=
  ⟨rfl, (C19_safeWrite_results svcUp (Frame.text "x") rfl).1⟩

end Gatews

/-- C13: on a heartbeat tick, Kraken `managerThread` and Bitget
`StartPingLoop` both do the following.  If the time since `lastPong` exceeds
the threshold (`heartbeatTimeout + readTimeout`, resp. `pongTimeout`), a
reconnect is triggered and no ping is sent: Kraken leaves a signal in the
`reconnect` channel (one is queued if none was) and touches nothing else;
Bitget calls `Reconnect`, which, unless a reconnect is already in flight,
closes and drops the transport, dials once and installs what the dial gave.
Otherwise exactly one ping send is made: when it succeeds one ping frame is
written and nothing else happens (no signal, no dial), and when it fails (no
connection, or a write error) no frame is written and the reconnect is
triggered in the same way. -/
theorem C13_heartbeat_tick (m : GoKraken.Manager) (now : Nat) (sendOk : Bool)
    (w : Bitget.Session) :
    (now - m.k.lastPong > m.k.heartbeatTimeout + m.k.readTimeout →
      GoKraken.onHeartbeat m now sendOk
        = { m with k := { m.k with reconnect := max 1 m.k.reconnect } } ∧
      (m.k.reconnect = 0 → (GoKraken.onHeartbeat m now sendOk).k.reconnect = 1) ∧
      (GoKraken.onHeartbeat m now sendOk).k.pings = m.k.pings) ∧
    (¬ now - m.k.lastPong > m.k.heartbeatTimeout + m.k.readTimeout →
      m.k.conn ≠ none → sendOk = true →
      GoKraken.onHeartbeat m now sendOk = { m with k := { m.k with pings := m.k.pings + 1 } }) ∧
    (¬ now - m.k.lastPong > m.k.heartbeatTimeout + m.k.readTimeout →
      (m.k.conn = none ∨ sendOk = false) →
      GoKraken.onHeartbeat m now sendOk
        = { m with k := { m.k with reconnect := max 1 m.k.reconnect } } ∧
      (m.k.reconnect = 0 → (GoKraken.onHeartbeat m now sendOk).k.reconnect = 1) ∧
      (GoKraken.onHeartbeat m now sendOk).k.pings = m.k.pings) ∧
    (w.now - w.b.lastPong > Bitget.pongTimeout →
      Bitget.pingsSent (Bitget.pingTick w) = Bitget.pingsSent w ∧
      (w.b.reconnecting = true → Bitget.pingTick w = w) ∧
      (w.b.reconnecting = false →
        (Bitget.pingTick w).dialCount = w.dialCount + 1 ∧
        (Bitget.pingTick w).closedConns = w.closedConns ++ w.b.ws.toList.map (fun c => c.id) ∧
        (Bitget.pingTick w).b.ws
          = (w.dialResult w.dialCount).map
              (fun writable => { id := w.dialCount + 1, writable := writable }))) ∧
    (¬ w.now - w.b.lastPong > Bitget.pongTimeout →
      ∀ conn, w.b.ws = some conn → conn.writable = true →
        Bitget.pingTick w
          = { w with b := { w.b with sent := w.b.sent ++ [Bitget.Wire.text "ping"] } } ∧
        Bitget.pingsSent (Bitget.pingTick w) = Bitget.pingsSent w + 1) ∧
    (¬ w.now - w.b.lastPong > Bitget.pongTimeout →
      (w.b.ws = none ∨ ∃ conn, w.b.ws = some conn ∧ conn.writable = false) →
      Bitget.pingsSent (Bitget.pingTick w) = Bitget.pingsSent w ∧
      (w.b.reconnecting = true → Bitget.pingTick w = w) ∧
      (w.b.reconnecting = false →
        (Bitget.pingTick w).dialCount = w.dialCount + 1 ∧
        (Bitget.pingTick w).closedConns = w.closedConns ++ w.b.ws.toList.map (fun c => c.id) ∧
        (Bitget.pingTick w).b.ws
          = (w.dialResult w.dialCount).map
              (fun writable => { id := w.dialCount + 1, writable := writable }))) := by
  have htrig : ∀ k : GoKraken.Kraken,
      GoKraken.triggerReconnect k = { k with reconnect := max 1 k.reconnect } := by
    intro k
    unfold GoKraken.triggerReconnect
    by_cases h : k.reconnect < 1
    · have h0 : k.reconnect = 0 := by omega
      rw [if_pos h, h0]
      rfl
    · have h1 : max 1 k.reconnect = k.reconnect := by omega
      rw [if_neg h, h1]
  have hrec : ∀ x : Bitget.Session, x.b.reconnecting = true → Bitget.Reconnect x = x := by
    intro x hx
    unfold Bitget.Reconnect
    rw [if_pos hx]
  refine ⟨?_, ?_, ?_, ?_, ?_, ?_⟩
  · intro h
    have e : GoKraken.onHeartbeat m now sendOk
        = { m with k := { m.k with reconnect := max 1 m.k.reconnect } } := by
      unfold GoKraken.onHeartbeat
      rw [if_pos h, htrig]
    rw [e]
    exact ⟨rfl, fun h0 => by show max 1 m.k.reconnect = 1; omega, rfl⟩
  · intro h hc hs
    unfold GoKraken.onHeartbeat
    rw [if_neg h]
    cases hconn : m.k.conn with
    | none => exact absurd hconn hc
    | some c => simp [GoKraken.send, hconn, hs]
  · intro h hc
    have e : GoKraken.onHeartbeat m now sendOk
        = { m with k := { m.k with reconnect := max 1 m.k.reconnect } } := by
      unfold GoKraken.onHeartbeat
      rw [if_neg h, ← htrig]
      cases hconn : m.k.conn with
      | none => simp [GoKraken.send, hconn]
      | some c =>
        rcases hc with hc | hc
        · rw [hconn] at hc; cases hc
        · simp [GoKraken.send, hconn, hc]
    rw [e]
    exact ⟨rfl, fun h0 => by show max 1 m.k.reconnect = 1; omega, rfl⟩
  · intro h
    have e : Bitget.pingTick w = Bitget.Reconnect w := by
      unfold Bitget.pingTick
      rw [if_pos h]
    rw [e]
    exact ⟨Bitget.Reconnect_pings w, hrec w, Bitget.Reconnect_effects w⟩
  · intro h conn hws hwr
    have e : Bitget.pingTick w
        = { w with b := { w.b with sent := w.b.sent ++ [Bitget.Wire.text "ping"] } } := by
      unfold Bitget.pingTick
      rw [if_neg h]
      simp [Bitget.Send, hws, hwr]
    rw [e]
    refine ⟨rfl, ?_⟩
    simp [Bitget.pingsSent, List.filter_append]
  · intro h hc
    have e : Bitget.pingTick w = Bitget.Reconnect w := by
      unfold Bitget.pingTick
      rw [if_neg h]
      rcases hc with hc | ⟨conn, hc, hwr⟩
      · simp [Bitget.Send, hc]
      · simp [Bitget.Send, hc, hwr]
    rw [e]
    exact ⟨Bitget.Reconnect_pings w, hrec w, Bitget.Reconnect_effects w⟩

/-- C13 witness: a Kraken tick 50 seconds and a Bitget tick 36 seconds after
the last activity: Kraken queues a signal and sends no ping; Bitget closes
connection 1, makes its second dial and sends no ping. -/
theorem C13_heartbeat_tick_witness :
    50 * second - GoKraken.managerStart.k.lastPong
      > GoKraken.managerStart.k.heartbeatTimeout + GoKraken.managerStart.k.readTimeout ∧
    GoKraken.managerStart.k.reconnect = 0 ∧
    (GoKraken.onHeartbeat GoKraken.managerStart (50 * second) true).k.reconnect = 1 ∧
    (GoKraken.onHeartbeat GoKraken.managerStart (50 * second) true).k.pings
      = GoKraken.managerStart.k.pings ∧
    Bitget.sessionLate.now - Bitget.sessionLate.b.lastPong > Bitget.pongTimeout ∧
    Bitget.sessionLate.b.reconnecting = false ∧
    Bitget.pingsSent (Bitget.pingTick Bitget.sessionLate)
      = Bitget.pingsSent Bitget.sessionLate ∧
    (Bitget.pingTick Bitget.sessionLate).dialCount = Bitget.sessionLate.dialCount + 1 ∧
    (Bitget.pingTick Bitget.sessionLate).closedConns = [1] :=
  ⟨by decide, rfl,
    ((C13_heartbeat_tick GoKraken.managerStart (50 * second) true Bitget.sessionLate).1
      (by decide)).2.1 rfl,
    ((C13_heartbeat_tick GoKraken.managerStart (50 * second) true Bitget.sessionLate).1
      (by decide)).2.2,
    by decide, rfl,
    ((C13_heartbeat_tick GoKraken.managerStart (50 * second) true
      Bitget.sessionLate).2.2.2.1 (by decide)).1,
    (((C13_heartbeat_tick GoKraken.managerStart (50 * second) true
      Bitget.sessionLate).2.2.2.1 (by decide)).2.2 rfl).1,
    (((C13_heartbeat_tick GoKraken.managerStart (50 * second) true
      Bitget.sessionLate).2.2.2.1 (by decide)).2.2 rfl).2.1⟩

namespace GoJson

/-- A JSON text is not empty and does not begin with a closing bracket, a
comma or a colon. -/
theorem toks_head (v : Json) :
    ∃ t ts, toks v = t :: ts ∧ t ≠ Tok.rbrack ∧ t ≠ Tok.rbrace ∧ t ≠ Tok.comma
      ∧ t ≠ Tok.colon := by
  cases v <;> simp [toks]

theorem toksItems_head (x : Json) (xs : List Json) :
    ∃ t ts, toksItems (x :: xs) = t :: ts ∧ t ≠ Tok.rbrack := by
  obtain ⟨t, ts, h, h1, _⟩ := toks_head x
  cases xs with
  | nil => exact ⟨t, ts, by simp [toksItems, h], h1⟩
  | cons y ys => exact ⟨t, ts ++ Tok.comma :: toksItems (y :: ys), by simp [toksItems, h], h1⟩

theorem toksMembers_head (m : String × Json) (ms : List (String × Json)) :
    ∃ ts, toksMembers (m :: ms) = Tok.str m.1 :: Tok.colon :: ts := by
  obtain ⟨k, v⟩ := m
  cases ms with
  | nil => exact ⟨toks v, by simp [toksMembers]⟩
  | cons y ys => exact ⟨toks v ++ Tok.comma :: toksMembers (y :: ys), by simp [toksMembers]⟩

theorem parseValue_lbrack (fuel : Nat) (t : Tok) (ts : List Tok) (h : t ≠ Tok.rbrack) :
    parseValue (fuel + 1) (Tok.lbrack :: t :: ts)
      = match parseItems fuel (t :: ts) with
        | some (items, Tok.rbrack :: r1) => some (Json.arr items, r1)
        | _ => none := by
  cases t <;> first | exact absurd rfl h | simp [parseValue]

theorem parseValue_lbrace (fuel : Nat) (k : String) (ts : List Tok) :
    parseValue (fuel + 1) (Tok.lbrace :: Tok.str k :: ts)
      = match parseMembers fuel (Tok.str k :: ts) with
        | some (members, Tok.rbrace :: r1) => some (Json.obj members, r1)
        | _ => none := by
  simp [parseValue]


mutual
/-- The scanner reads back the text of a value, given two units of fuel per
token. -/
theorem parseValue_toks : ∀ (v : Json) (fuel : Nat) (rest : List Tok),
    2 * (toks v).length ≤ fuel → parseValue fuel (toks v ++ rest) = some (v, rest)
  | Json.null, fuel, rest, h => by
    cases fuel with
    | zero => simp [toks] at h
    | succ f => simp [toks, parseValue]
  | Json.bool b, fuel, rest, h => by
    cases fuel with
    | zero => simp [toks] at h
    | succ f => simp [toks, parseValue]
  | Json.int neg n, fuel, rest, h => by
    cases fuel with
    | zero => simp [toks] at h
    | succ f => simp [toks, parseValue]
  | Json.real t, fuel, rest, h => by
    cases fuel with
    | zero => simp [toks] at h
    | succ f => simp [toks, parseValue]
  | Json.str s, fuel, rest, h => by
    cases fuel with
    | zero => simp [toks] at h
    | succ f => simp [toks, parseValue]
  | Json.arr [], fuel, rest, h => by
    cases fuel with
    | zero => simp [toks, toksItems] at h
    | succ f => simp [toks, toksItems, parseValue]
  | Json.arr (x :: xs), fuel, rest, h => by
    cases fuel with
    | zero => simp [toks] at h
    | succ f =>
      obtain ⟨t, ts, ht, hne⟩ := toksItems_head x xs
      have hlen : 2 * (toksItems (x :: xs)).length + 1 ≤ f := by
        simp only [toks, List.length_cons, List.length_append, List.length_singleton] at h
        omega
      have ih := parseItems_toks (x :: xs) f (Tok.rbrack :: rest) (by simp) hlen (by simp)
      have e : toks (Json.arr (x :: xs)) ++ rest
          = Tok.lbrack :: t :: (ts ++ Tok.rbrack :: rest) := by
        simp [toks, ht]
      have e2 : t :: (ts ++ Tok.rbrack :: rest) = toksItems (x :: xs) ++ Tok.rbrack :: rest := by
        simp [ht]
      rw [e, parseValue_lbrack f t _ hne, e2, ih]
  | Json.obj [], fuel, rest, h => by
    cases fuel with
    | zero => simp [toks, toksMembers] at h
    | succ f => simp [toks, toksMembers, parseValue]
  | Json.obj (m :: ms), fuel, rest, h => by
    cases fuel with
    | zero => simp [toks] at h
    | succ f =>
      obtain ⟨ts, ht⟩ := toksMembers_head m ms
      have hlen : 2 * (toksMembers (m :: ms)).length + 1 ≤ f := by
        simp only [toks, List.length_cons, List.length_append, List.length_singleton] at h
        omega
      have ih := parseMembers_toks (m :: ms) f (Tok.rbrace :: rest) (by simp) hlen (by simp)
      have e : toks (Json.obj (m :: ms)) ++ rest
          = Tok.lbrace :: Tok.str m.1 :: (Tok.colon :: ts ++ Tok.rbrace :: rest) := by
        simp [toks, ht]
      have e2 : Tok.str m.1 :: (Tok.colon :: ts ++ Tok.rbrace :: rest)
          = toksMembers (m :: ms) ++ Tok.rbrace :: rest := by
        simp [ht]
      rw [e, parseValue_lbrace, e2, ih]
/-- The scanner reads back the elements of an array. -/
theorem parseItems_toks : ∀ (items : List Json) (fuel : Nat) (rest : List Tok),
    items ≠ [] → 2 * (toksItems items).length + 1 ≤ fuel → rest.head? ≠ some Tok.comma →
    parseItems fuel (toksItems items ++ rest) = some (items, rest)
  | [], _, _, h, _, _ => absurd rfl h
  | [x], fuel, rest, _, h, hr => by
    cases fuel with
    | zero => omega
    | succ f =>
      have ih := parseValue_toks x f rest (by simp only [toksItems] at h; omega)
      simp only [toksItems, parseItems, ih]
      cases rest with
      | nil => rfl
      | cons t ts =>
        cases t <;> first | (exfalso; exact hr rfl) | rfl
  | x :: y :: ys, fuel, rest, _, h, hr => by
    cases fuel with
    | zero => omega
    | succ f =>
      have hl : (toksItems (x :: y :: ys)).length
          = (toks x).length + 1 + (toksItems (y :: ys)).length := by
        simp [toksItems]; omega
      have ih1 := parseValue_toks x f (Tok.comma :: (toksItems (y :: ys) ++ rest)) (by omega)
      have ih2 := parseItems_toks (y :: ys) f rest (by simp) (by omega) hr
      have e : toksItems (x :: y :: ys) ++ rest
          = toks x ++ Tok.comma :: (toksItems (y :: ys) ++ rest) := by
        simp [toksItems]
      rw [e]
      simp only [parseItems, ih1, ih2]
/-- The scanner reads back the members of an object. -/
theorem parseMembers_toks : ∀ (members : List (String × Json)) (fuel : Nat) (rest : List Tok),
    members ≠ [] → 2 * (toksMembers members).length + 1 ≤ fuel →
    rest.head? ≠ some Tok.comma →
    parseMembers fuel (toksMembers members ++ rest) = some (members, rest)
  | [], _, _, h, _, _ => absurd rfl h
  | [(k, v)], fuel, rest, _, h, hr => by
    cases fuel with
    | zero => omega
    | succ f =>
      have ih := parseValue_toks v f rest (by
        simp only [toksMembers, List.length_cons] at h; omega)
      have e : toksMembers [(k, v)] ++ rest = Tok.str k :: Tok.colon :: (toks v ++ rest) := by
        simp [toksMembers]
      rw [e]
      simp only [parseMembers, ih]
      cases rest with
      | nil => rfl
      | cons t ts =>
        cases t <;> first | (exfalso; exact hr rfl) | rfl
  | (k, v) :: m :: ms, fuel, rest, _, h, hr => by
    cases fuel with
    | zero => omega
    | succ f =>
      have hl : (toksMembers ((k, v) :: m :: ms)).length
          = (toks v).length + 3 + (toksMembers (m :: ms)).length := by
        simp [toksMembers]; omega
      have ih1 := parseValue_toks v f (Tok.comma :: (toksMembers (m :: ms) ++ rest)) (by omega)
      have ih2 := parseMembers_toks (m :: ms) f rest (by simp) (by omega) hr
      have e : toksMembers ((k, v) :: m :: ms) ++ rest
          = Tok.str k :: Tok.colon :: (toks v ++ Tok.comma :: (toksMembers (m :: ms) ++ rest)) := by
        simp [toksMembers]
      rw [e]
      simp only [parseMembers, ih1, ih2]
end

/-- Parsing the text of a value gives the value back. -/
theorem parse_toks (v : Json) : parse (toks v) = some v := by
  unfold parse
  have := parseValue_toks v (2 * (toks v).length) [] (le_refl _)
  rw [List.append_nil] at this
  rw [this]

end GoJson

namespace GoKraken

open GoJson

/-- Reading an array as raw messages gives the texts of its elements. -/
theorem unmarshalRawList_arr (items : List Json) :
    unmarshalRawList (toks (Json.arr items)) = Except.ok (items.map toks) := by
  simp [unmarshalRawList, parse_toks]

/-- Joining the texts of values with commas gives the text of the elements
of the array. -/
theorem joinComma_toks : ∀ items : List Json, joinComma (items.map toks) = toksItems items
  | [] => rfl
  | [_] => rfl
  | x :: y :: rest => by
    have ih := joinComma_toks (y :: rest)
    simp only [List.map] at ih
    simp only [List.map, joinComma, toksItems, ih]

/-- The members of two non-empty member lists, one after the other. -/
theorem toksMembers_append : ∀ (a b : List (String × Json)), a ≠ [] → b ≠ [] →
    toksMembers (a ++ b) = toksMembers a ++ Tok.comma :: toksMembers b
  | [], _, h, _ => absurd rfl h
  | [(k, v)], b, _, hb => by
    cases b with
    | nil => exact absurd rfl hb
    | cons m ms => simp [toksMembers]
  | (k, v) :: m :: ms, b, _, hb => by
    have ih := toksMembers_append (m :: ms) b (by simp) hb
    simp only [List.cons_append] at ih
    simp [toksMembers, ih]

/-- Decoding a four-element array with the four targets of a message. -/
theorem unmarshalArray_four (fits : String → Bool) (msg : Message) (i d c p : Json) :
    Message.UnmarshalJSON fits msg (toks (Json.arr [i, d, c, p]))
      = unmarshalArray fits
          [Message.channelIDTarget, Message.dataTarget, Message.channelNameTarget,
            Message.pairTarget]
          (some (toks (Json.arr [i, d, c, p]))) msg := by
  unfold Message.UnmarshalJSON
  rw [unmarshalRawList_arr]
  simp [Message.mergeBook]

/-- Decoding a value that is not `null` into the raw data stores its text. -/
theorem decodeRaw_of_ne_null (d : Json) (h : d ≠ Json.null) :
    decodeRaw d = Assign.set (toks d) := by
  cases d <;> first | exact absurd rfl h | rfl

/-- A message with fewer than three elements is refused. -/
theorem UnmarshalJSON_short (fits : String → Bool) (msg : Message) (items : List Json)
    (h : items.length < 3) :
    Message.UnmarshalJSON fits msg (toks (Json.arr items))
      = (some (Err.other "invalid data length"), msg) := by
  unfold Message.UnmarshalJSON
  rw [unmarshalRawList_arr]
  simp [h]

/-- C22 (as stated) fails: in the four-element envelope `[1, null, "ticker",
"XBT/USD"]` the data element `null` is not stored: the call succeeds and
`Data` stays empty instead of holding the text `null`. -/
theorem C22_null_data_counterexample :
    (Message.UnmarshalJSON (fun _ => true) message0
        (toks (Json.arr [Json.int false 1, Json.null, Json.str "ticker",
          Json.str "XBT/USD"]))).1 = none
    ∧ (Message.UnmarshalJSON (fun _ => true) message0
        (toks (Json.arr [Json.int false 1, Json.null, Json.str "ticker",
          Json.str "XBT/USD"]))).2.Data = []
    ∧ (Message.UnmarshalJSON (fun _ => true) message0
        (toks (Json.arr [Json.int false 1, Json.null, Json.str "ticker",
          Json.str "XBT/USD"]))).2.Data ≠ toks Json.null := by
  decide

/-- C22 (amended): for every four-element array `[id, data, channelName,
pair]` whose id is an integer literal in the range of `int64`, whose data is
not the literal `null` and whose channelName and pair are strings,
`Message.UnmarshalJSON` succeeds and sets `ChannelID`, `Data` (the text of
data), `ChannelName` and `Pair`, leaving `Sequence` alone; for every array
with fewer than three elements it returns an error and leaves the message
as it was. -/
theorem C22_message_positional_envelope (fits : String → Bool) (msg : Message)
    (neg : Bool) (n : Nat) (d : Json) (c p : String)
    (hid : -(2 : Int) ^ 63 ≤ intValue neg n ∧ intValue neg n < (2 : Int) ^ 63)
    (hd : d ≠ Json.null) :
    Message.UnmarshalJSON fits msg (toks (Json.arr [Json.int neg n, d, Json.str c, Json.str p]))
        = (none, { msg with ChannelID := intValue neg n, Data := toks d, ChannelName := c,
                            Pair := p })
    ∧ ∀ items : List Json, items.length < 3 →
        (Message.UnmarshalJSON fits msg (toks (Json.arr items))).1.isSome = true
        ∧ (Message.UnmarshalJSON fits msg (toks (Json.arr items))).2 = msg := by
  refine ⟨?_, ?_⟩
  · rw [unmarshalArray_four]
    simp only [unmarshalArray, Option.bind, parse_toks, decodeArray, Message.channelIDTarget,
      Message.dataTarget, Message.channelNameTarget, Message.pairTarget, decodeInt64,
      decodeString, decodeRaw_of_ne_null d hd, store, hid, and_self, if_true]
  · intro items h
    rw [UnmarshalJSON_short fits msg items h]
    exact ⟨rfl, rfl⟩

/-- C22 witness: the envelope `[42, {"a": null}, "book", "XBT/USD"]`. -/
theorem C22_message_positional_envelope_witness :
    (-(2 : Int) ^ 63 ≤ intValue false 42 ∧ intValue false 42 < (2 : Int) ^ 63)
    ∧ Json.obj [("a", Json.null)] ≠ Json.null
    ∧ Message.UnmarshalJSON (fun _ => true) message0
        (toks (Json.arr [Json.int false 42, Json.obj [("a", Json.null)], Json.str "book",
          Json.str "XBT/USD"]))
        = (none, { message0 with ChannelID := intValue false 42,
                                 Data := toks (Json.obj [("a", Json.null)]),
                                 ChannelName := "book", Pair := "XBT/USD" }) :=
  ⟨by decide, by simp,
    (C22_message_positional_envelope (fun _ => true) message0 false 42
      (Json.obj [("a", Json.null)]) "book" "XBT/USD" (by decide) (by simp)).1⟩

/-- C24: for every five-element array `[id, ask, bid, channelName, pair]`
in which ask and bid are non-empty JSON objects, `Message.UnmarshalJSON`
gives the same error and the same message as for the four-element array
`[id, merged, channelName, pair]`, where merged is the object holding the
members of ask followed by the members of bid; if the text of the second
element does not end with a closing brace or the text of the third does not
start with an opening brace, an error is returned and the message is left
as it was. -/
theorem C24_order_book_frames_merge (fits : String → Bool) (msg : Message)
    (i c p : Json) (a b : List (String × Json)) (ha : a ≠ []) (hb : b ≠ []) :
    Message.UnmarshalJSON fits msg (toks (Json.arr [i, Json.obj a, Json.obj b, c, p]))
        = Message.UnmarshalJSON fits msg (toks (Json.arr [i, Json.obj (a ++ b), c, p]))
    ∧ ∀ x y : Json,
        ((toks x).getLast? ≠ some Tok.rbrace ∨ (toks y).head? ≠ some Tok.lbrace) →
        Message.UnmarshalJSON fits msg (toks (Json.arr [i, x, y, c, p]))
          = (some (Err.other "invalid data length/payload"), msg) := by
  refine ⟨?_, ?_⟩
  · rw [unmarshalArray_four]
    have hmerged : (toks (Json.obj a)).dropLast ++ Tok.comma :: (toks (Json.obj b)).drop 1
        = toks (Json.obj (a ++ b)) := by
      have e : toks (Json.obj a) = (Tok.lbrace :: toksMembers a) ++ [Tok.rbrace] := by
        simp [toks]
      rw [e, List.dropLast_concat]
      simp [toks, toksMembers_append a b ha hb]
    have hjoin : Tok.lbrack ::
        (joinComma [toks i, toks (Json.obj (a ++ b)), toks c, toks p] ++ [Tok.rbrack])
        = toks (Json.arr [i, Json.obj (a ++ b), c, p]) := by
      simp [toks, toksItems, joinComma]
    have hlast : (toks (Json.obj a)).getLast? = some Tok.rbrace := by
      have e : toks (Json.obj a) = (Tok.lbrace :: toksMembers a) ++ [Tok.rbrace] := by
        simp [toks]
      rw [e, List.getLast?_concat]
    have hhead : (toks (Json.obj b)).head? = some Tok.lbrace := by
      simp [toks]
    unfold Message.UnmarshalJSON
    rw [unmarshalRawList_arr]
    simp only [List.map, List.length, Message.mergeBook, hlast, hhead, hmerged, marshalRawList,
      List.all_cons, List.all_nil, parse_toks, Option.isSome_some, Bool.and_self, hjoin]
    simp
  · intro x y h
    unfold Message.UnmarshalJSON
    rw [unmarshalRawList_arr]
    simp only [List.map, List.length, Message.mergeBook]
    simp [h]

/-- C24 witness: the frame `[7, {"a": [1]}, {"b": [2]}, "book-10",
"XBT/USD"]` decodes to the message of `[7, {"a": [1], "b": [2]},
"book-10", "XBT/USD"]`. -/
theorem C24_order_book_frames_merge_witness :
    [("a", Json.arr [Json.int false 1])] ≠ []
    ∧ [("b", Json.arr [Json.int false 2])] ≠ []
    ∧ Message.UnmarshalJSON (fun _ => true) message0
        (toks (Json.arr [Json.int false 7, Json.obj [("a", Json.arr [Json.int false 1])],
          Json.obj [("b", Json.arr [Json.int false 2])], Json.str "book-10",
          Json.str "XBT/USD"]))
      = Message.UnmarshalJSON (fun _ => true) message0
        (toks (Json.arr [Json.int false 7,
          Json.obj ([("a", Json.arr [Json.int false 1])] ++ [("b", Json.arr [Json.int false 2])]),
          Json.str "book-10", Json.str "XBT/USD"]))
    ∧ Message.UnmarshalJSON (fun _ => true) message0
        (toks (Json.arr [Json.int false 7, Json.obj [("a", Json.arr [Json.int false 1])],
          Json.obj [("b", Json.arr [Json.int false 2])], Json.str "book-10",
          Json.str "XBT/USD"]))
      = (none, { message0 with
          ChannelID := 7,
          Data := toks (Json.obj [("a", Json.arr [Json.int false 1]),
            ("b", Json.arr [Json.int false 2])]),
          ChannelName := "book-10", Pair := "XBT/USD" }) :=
  ⟨by simp, by simp,
    (C24_order_book_frames_merge (fun _ => true) message0 (Json.int false 7)
      (Json.str "book-10") (Json.str "XBT/USD") [("a", Json.arr [Json.int false 1])]
      [("b", Json.arr [Json.int false 2])] (by simp) (by simp)).1,
    by decide⟩

/-- C28: on the object `{"": 1}`, whose only key is the empty string,
`OrderBookUpdate.UnmarshalJSON` panics at `key[0]`. -/
theorem C28_empty_key_panics :
    OrderBookUpdate.UnmarshalJSON (fun body => body) update0
        (toks (Json.obj [("", Json.int false 1)]))
      = Crash.panicked "index out of range [0] with length 0" := by
  decide

/-- C30: on the payload `["5698.4", "5700.0", "1542057299.5", "1.5", "0.25"]`
`Spread.UnmarshalJSON` stores the fourth element in `AskVolume` and the
fifth in `BidVolume`, not the other way round. -/
theorem C30_spread_volumes_swapped (fits : String → Bool) :
    Spread.UnmarshalJSON fits spread0 spreadSample
      = (none, { Bid := "5698.4", Ask := "5700.0", Time := "1542057299.5",
                 AskVolume := "1.5", BidVolume := "0.25" })
    ∧ (Spread.UnmarshalJSON fits spread0 spreadSample).2.BidVolume ≠ "1.5"
    ∧ (Spread.UnmarshalJSON fits spread0 spreadSample).2.AskVolume ≠ "0.25" := by
  have h : Spread.UnmarshalJSON fits spread0 spreadSample
      = (none, { Bid := "5698.4", Ask := "5700.0", Time := "1542057299.5",
                 AskVolume := "1.5", BidVolume := "0.25" }) := by
    rfl
  rw [h]
  decide

end GoKraken

namespace Huobi

/-- With a full backlog and `closeCh` open, a frame that is read, unzipped
and is not a ping leaves the read loop as it was: the frame is dropped. -/
theorem readTurn_full (isPing : String → Bool) (r : ReadLoop) (bs : String) (pick : Bool)
    (hrun : r.exited = false) (hopen : r.client.closed = false)
    (hfull : r.handleCh.length = handleBacklog) (hping : isPing bs = false) :
    readTurn isPing r
        { readOk := true, deadlineOk := true, unzipped := some bs, pongWriteOk := true,
          pongDeadlineOk := true, pickClose := pick } = r := by
  simp [readTurn, hrun, hopen, hfull, hping]

/-- C25: with the backlog full ("oldest" at the head, 4096 messages in all)
the read loop keeps running, but the frame "newest" it has just read is
the one that is dropped: the backlog is as before, "oldest" still at its
head. -/
theorem C25_full_backlog_drops_newest :
    loopFull.handleCh.length = handleBacklog
    ∧ readTurn (fun _ => false) loopFull (frameOf "newest") = loopFull
    ∧ (readTurn (fun _ => false) loopFull (frameOf "newest")).handleCh.head? = some "oldest"
    ∧ "newest" ∉ (readTurn (fun _ => false) loopFull (frameOf "newest")).handleCh
    ∧ (readTurn (fun _ => false) loopFull (frameOf "newest")).exited = false := by
  have hlen : loopFull.handleCh.length = handleBacklog := by
    show ("oldest" :: List.replicate 4095 "m").length = 4096
    rw [List.length_cons, List.length_replicate]
  have h : readTurn (fun _ => false) loopFull (frameOf "newest") = loopFull :=
    readTurn_full (fun _ => false) loopFull "newest" false rfl rfl hlen rfl
  refine ⟨hlen, h, ?_, ?_, ?_⟩
  · rw [h]; rfl
  · rw [h]
    intro hmem
    have hmem2 : "newest" ∈ "oldest" :: List.replicate 4095 "m" := hmem
    rcases List.mem_cons.mp hmem2 with h1 | h1
    · exact absurd h1 (by decide)
    · exact absurd (List.eq_of_mem_replicate h1) (by decide)
  · rw [h]; rfl

/-- A call of `Close` that returns leaves `closeCh` closed and the context
done. -/
theorem Close_closed (c c1 : WsClient) (h : Close c = some c1) : c1.closed = true := by
  unfold Close at h
  by_cases hc : c.closed = true
  · simp only [hc, if_true, Option.some.injEq] at h
    rw [← h]; exact hc
  · simp only [hc] at h
    cases hp : c.pingCancel <;> cases hk : c.conn <;> simp [hp, hk] at h <;> rw [← h]

/-- On a closed client `triggerReDial` at most sets `isRedial`. -/
theorem triggerReDial_closed (c : WsClient) (h : c.closed = true) :
    (triggerReDial c).closed = true
    ∧ (triggerReDial c).dialCount = c.dialCount
    ∧ (triggerReDial c).readLoops = c.readLoops
    ∧ (triggerReDial c).redialTasks = c.redialTasks
    ∧ (triggerReDial c).conn = c.conn
    ∧ (triggerReDial c).closedConns = c.closedConns := by
  unfold triggerReDial
  by_cases hr : c.isRedial = true
  · simp [hr, h]
  · simp [hr, h]

/-- On a closed client any number of calls of `triggerReDial` dial nothing
and start nothing. -/
theorem triggerReDial_iterate_closed (n : Nat) (c : WsClient) (h : c.closed = true) :
    (triggerReDial^[n] c).closed = true
    ∧ (triggerReDial^[n] c).dialCount = c.dialCount
    ∧ (triggerReDial^[n] c).readLoops = c.readLoops
    ∧ (triggerReDial^[n] c).redialTasks = c.redialTasks
    ∧ (triggerReDial^[n] c).conn = c.conn
    ∧ (triggerReDial^[n] c).closedConns = c.closedConns := by
  induction n generalizing c with
  | zero => exact ⟨h, rfl, rfl, rfl, rfl, rfl⟩
  | succ n ih =>
    have h1 := triggerReDial_closed c h
    have h2 := ih (triggerReDial c) h1.1
    rw [Function.iterate_succ_apply]
    exact ⟨h2.1, h2.2.1.trans h1.2.1, h2.2.2.1.trans h1.2.2.1, h2.2.2.2.1.trans h1.2.2.2.1,
      h2.2.2.2.2.1.trans h1.2.2.2.2.1, h2.2.2.2.2.2.trans h1.2.2.2.2.2⟩

end Huobi

namespace Bybit

/-- After `Close` the context is done. -/
theorem Close_cancelled (c : WsClient) : (Close c).cancelled = true := by
  unfold Close
  cases c.conn <;> rfl

/-- With the context done `redialBlocking` returns the context error at the
top of its first iteration. -/
theorem redialBlocking_cancelled (fuel : Nat) (c : WsClient) (h : c.cancelled = true) :
    redialBlocking (fuel + 1) c = Outcome.done (some "context canceled") c := by
  simp [redialBlocking, redialLoop, h]

/-- C27: for every `ExtFields` value the method `MarshalJSON` calls itself
through `json.Marshal` without end: at every depth of unrolling the nested
call is still pending, so no bytes are ever returned. -/
theorem C27_MarshalJSON_never_returns (depth : Nat) (e : ExtFields) :
    ExtFields.MarshalJSON depth e = Encoded.nesting
    ∧ ∀ bytes : String, ExtFields.MarshalJSON depth e ≠ Encoded.returned bytes := by
  have h : ∀ d : Nat, ExtFields.MarshalJSON d e = Encoded.nesting := by
    intro d
    induction d with
    | zero => rfl
    | succ d ih => simpa [ExtFields.MarshalJSON, jsonMarshal] using ih
  refine ⟨h depth, ?_⟩
  intro bytes
  rw [h depth]
  exact fun hne => Encoded.noConfusion hne

end Bybit

namespace Bitget

/-- C23: on `sessionPrivate` the first login is acknowledged; after that
`loginOK` stays set, so the login of the following `Reconnect` (request 1,
never acknowledged) returns without waiting, and a further login (request
2, never acknowledged) returns nil instead of "login timeout". -/
theorem C23_login_returns_nil_without_ack :
    (login sessionPrivate).1 = none
    ∧ (Reconnect (login sessionPrivate).2).loginCount = 2
    ∧ (Reconnect (login sessionPrivate).2).sleeps = [reconnectBackoff]
    ∧ sessionPrivate.loginAck 1 = false
    ∧ sessionPrivate.loginAck 2 = false
    ∧ (login (Reconnect (login sessionPrivate).2)).1 = none
    ∧ (login (Reconnect (login sessionPrivate).2)).2.sleeps = [reconnectBackoff] := by
  decide

/-- Whenever `loginOK` is already set and the login frame can be written,
`login` returns nil whatever the acknowledgements are. -/
theorem login_stale (w : Session) (conn : Conn) (hws : w.b.ws = some conn)
    (hwr : conn.writable = true) (hok : w.b.loginOK = true) :
    (login w).1 = none := by
  simp [login, SendByType, Send, hws, hwr, hok]

/-- C29: on `sessionUnreachable`, where the dial of `ConnectWebSocket`
fails, `Reconnect` still calls `reconnectListener("reconnected")` and
returns with no transport installed. -/
theorem C29_reconnected_reported_without_transport :
    (Reconnect sessionUnreachable).calls = [{ listener := 2, message := "reconnected" }]
    ∧ (Reconnect sessionUnreachable).b.ws = none
    ∧ (Reconnect sessionUnreachable).dialCount = sessionUnreachable.dialCount + 1 := by
  decide

/-- On a session with a reconnect listener and no reconnect in flight,
`Reconnect` reports "reconnected" and leaves no transport whenever its dial
fails. -/
theorem Reconnect_reports_failed_dial (w : Session) (l : Nat)
    (hrec : w.b.reconnecting = false) (hl : w.b.reconnectListener = some l)
    (hdial : w.dialResult w.dialCount = none) :
    (Reconnect w).calls = w.calls ++ [{ listener := l, message := "reconnected" }]
    ∧ (Reconnect w).b.ws = none := by
  cases hws : w.b.ws <;>
    simp [Reconnect, hrec, dropTransport, hws, sleep, ConnectWebSocket, hdial,
      notifyReconnected, hl]

end Bitget

namespace Gatews

/-- Whatever `safeWrite` does, it leaves the configuration alone. -/
theorem safeWrite_conf (ws : WsService) (data : Frame) :
    (safeWrite ws data).state.conf = ws.conf := by
  unfold safeWrite safeWriteK
  by_cases hmu : ws.muHeld = true
  · simp [hmu, Run.state]
  · simp only [hmu]
    cases ws.writeResult ws.writeCount <;>
      simp [Run.state, reconnectInner, reconnectK]

/-- A `baseSubscribe` with the flag `IsReConnect` set leaves the history
alone, whatever the write does. -/
theorem baseSubscribe_replay_history (ws : WsService) (event channel : String)
    (payload : List String) (o : SubscribeOptions) (hflag : o.IsReConnect = true) :
    (baseSubscribe ws event channel payload (some o)).state.conf.subscribeMsg
      = ws.conf.subscribeMsg := by
  unfold baseSubscribe baseSubscribeK
  simp only
  generalize hreq : Frame.request _ = req
  have h := safeWrite_conf ws req
  cases hr : safeWrite ws req with
  | blocked s => rw [hr] at h; simp [Run.state] at h ⊢; rw [h]
  | exhausted s => rw [hr] at h; simp [Run.state] at h ⊢; rw [h]
  | done e s =>
    rw [hr] at h
    simp only [Run.state] at h
    cases e <;> simp [Run.state, recordsHistory, hflag, h]

/-- A `baseSubscribe` on a ping or time channel leaves the history alone,
whatever the options and whatever the write does. -/
theorem baseSubscribe_ping_history (ws : WsService) (event channel : String)
    (payload : List String) (op : Option SubscribeOptions)
    (hch : hasSuffix channel ".ping" = true ∨ hasSuffix channel ".time" = true) :
    (baseSubscribe ws event channel payload op).state.conf.subscribeMsg
      = ws.conf.subscribeMsg := by
  unfold baseSubscribe baseSubscribeK
  simp only
  generalize hreq : Frame.request _ = req
  have h := safeWrite_conf ws req
  have hch2 : (hasSuffix channel ".ping" || hasSuffix channel ".time") = true := by
    cases hch with
    | inl h1 => simp [h1]
    | inr h2 => simp [h2]
  cases hr : safeWrite ws req with
  | blocked s => rw [hr] at h; simp [Run.state] at h ⊢; rw [h]
  | exhausted s => rw [hr] at h; simp [Run.state] at h ⊢; rw [h]
  | done e s =>
    rw [hr] at h
    simp only [Run.state] at h
    cases e <;> simp [Run.state, hch2, h]

/-- Setting the flag twice is setting it once. -/
theorem markOp_idem (x : requestHistory) : markOp (markOp x) = markOp x := by
  cases x with
  | mk c e p op => cases op <;> rfl

/-- The pointer write of `resubscribe` changes the history in the flags
only. -/
theorem markAll_markReConnect (ws : WsService) (r : requestHistory) :
    markAll (markReConnect ws r).conf.subscribeMsg = markAll ws.conf.subscribeMsg := by
  simp only [markAll, markReConnect, List.map_map]
  apply List.map_congr_left
  intro e _
  simp only [Function.comp, List.map_map, Prod.mk.injEq, true_and]
  apply List.map_congr_left
  intro x _
  simp only [Function.comp]
  by_cases hx : x = r
  · simp only [hx, if_true]
    exact markOp_idem r
  · simp [hx]

/-- The replay loop over any list of requests changes the history in the
flags only, whether `ws.mu` is free or held and whatever the writes do. -/
theorem resubscribeEach_flags (l : List requestHistory) :
    ∀ ws : WsService,
      markAll (resubscribeEach safeWrite l ws).state.conf.subscribeMsg
        = markAll ws.conf.subscribeMsg := by
  induction l with
  | nil => intro ws; rfl
  | cons r rest ih =>
    intro ws
    have hstep : ∀ (ws1 : WsService) (o : SubscribeOptions), o.IsReConnect = true →
        markAll ws1.conf.subscribeMsg = markAll ws.conf.subscribeMsg →
        markAll (match baseSubscribeK safeWrite ws1 r.Event r.Channel r.Payload (some o) with
          | Run.blocked s => Run.blocked s
          | Run.exhausted s => Run.exhausted s
          | Run.done _ ws2 => resubscribeEach safeWrite rest ws2).state.conf.subscribeMsg
          = markAll ws.conf.subscribeMsg := by
      intro ws1 o ho h1
      have hb := baseSubscribe_replay_history ws1 r.Event r.Channel r.Payload o ho
      unfold baseSubscribe at hb
      cases hr : baseSubscribeK safeWrite ws1 r.Event r.Channel r.Payload (some o) with
      | blocked s => rw [hr] at hb; simp only [Run.state] at hb ⊢; rw [hb, h1]
      | exhausted s => rw [hr] at hb; simp only [Run.state] at hb ⊢; rw [hb, h1]
      | done e s =>
        rw [hr] at hb
        simp only [Run.state] at hb
        simp only
        rw [ih s, hb, h1]
    cases hop : r.op with
    | none =>
      simp only [resubscribeEach, hop, if_true]
      exact hstep ws _ rfl rfl
    | some o =>
      simp only [resubscribeEach, hop, if_false, reduceCtorEq]
      exact hstep (markReConnect ws r) _ rfl (markAll_markReConnect ws r)

/-- C26 (as stated) fails: on the service that stores one request with the
options `ID = 7`, `IsReConnect = false`, a `reconnect` entered with `ws.mu`
free dials, calls `resubscribe` and never returns; nothing has been resent,
and the history is not as it was: the stored options now have the flag
set. -/
theorem C26_resubscribe_marks_history_counterexample :
    svcWithOption.muHeld = false
    ∧ svcWithOption.conf.subscribeMsg = [("spot.tickers", [tickerRequest false])]
    ∧ (reconnect svcWithOption).isBlocked = true
    ∧ (reconnect svcWithOption).state.Client = 1
    ∧ (reconnect svcWithOption).state.wire = svcWithOption.wire
    ∧ (reconnect svcWithOption).state.conf.subscribeMsg
        = [("spot.tickers", [tickerRequest true])]
    ∧ (reconnect svcWithOption).state.conf.subscribeMsg ≠ svcWithOption.conf.subscribeMsg := by
  decide

/-- C26 (amended): `baseSubscribe` called with `op.IsReConnect = true`, and
`baseSubscribe` on any channel whose name ends in ".ping" or ".time", leave
`subscribeMsg` unchanged, whatever the write does; and the replay loop of
`resubscribe`, over whatever requests in whatever order, with `ws.mu` free
or held and however far it gets, changes nothing in the history but the
flags `IsReConnect` of stored options. -/
theorem C26_replay_keeps_history :
    (∀ (s : WsService) (event channel : String) (payload : List String) (o : SubscribeOptions),
        o.IsReConnect = true →
        (baseSubscribe s event channel payload (some o)).state.conf.subscribeMsg
          = s.conf.subscribeMsg)
    ∧ (∀ (s : WsService) (event channel : String) (payload : List String)
        (op : Option SubscribeOptions),
        (hasSuffix channel ".ping" = true ∨ hasSuffix channel ".time" = true) →
        (baseSubscribe s event channel payload op).state.conf.subscribeMsg
          = s.conf.subscribeMsg)
    ∧ (∀ (l : List requestHistory) (s : WsService),
        markAll (resubscribeEach safeWrite l s).state.conf.subscribeMsg
          = markAll s.conf.subscribeMsg)
    ∧ (∀ s : WsService,
        markAll (resubscribe s).state.conf.subscribeMsg = markAll s.conf.subscribeMsg) := by
  refine ⟨?_, ?_, ?_, ?_⟩
  · intro s event channel payload o ho
    exact baseSubscribe_replay_history s event channel payload o ho
  · intro s event channel payload op hch
    exact baseSubscribe_ping_history s event channel payload op hch
  · intro l s
    exact resubscribeEach_flags l s
  · intro s
    exact resubscribeEach_flags _ s

end Gatews

namespace Okx

/-- A call of `CloseWs` that returns leaves the client closed. -/
theorem CloseWs_closed (ws ws1 : WsConn) (h : CloseWs ws = some ws1) : ws1.closed = true := by
  unfold CloseWs at h
  by_cases hc : ws.closed = true
  · simp only [hc, if_true, Option.some.injEq] at h
    rw [← h]; exact hc
  · by_cases hw : ws.writers = 0
    · simp [hc, hw] at h
    · have hc2 : ws.closed = false := by simpa using hc
      simp [hc2, hw] at h
      rw [← h]

end Okx

/-- C21: closed is terminal.  Once `Close` (huobi, bybit) or `CloseWs` (okx)
has returned, every later reconnect trigger returns without dialing and
without starting a read loop: any number of calls of huobi `triggerReDial`
leave the dials made, the read loops started, the redial goroutines
started, the connection and the connections closed as they were; bybit
`redialBlocking` returns the context error at once and changes nothing;
okx `reconnect` returns at once and changes nothing. -/
theorem C21_closed_is_terminal
    (h h1 : Huobi.WsClient) (hh : Huobi.Close h = some h1)
    (b : Bybit.WsClient)
    (o o1 : Okx.WsConn) (ho : Okx.CloseWs o = some o1)
    (n fuel : Nat) :
    ((Huobi.triggerReDial^[n] h1).closed = true
      ∧ (Huobi.triggerReDial^[n] h1).dialCount = h1.dialCount
      ∧ (Huobi.triggerReDial^[n] h1).readLoops = h1.readLoops
      ∧ (Huobi.triggerReDial^[n] h1).redialTasks = h1.redialTasks
      ∧ (Huobi.triggerReDial^[n] h1).conn = h1.conn
      ∧ (Huobi.triggerReDial^[n] h1).closedConns = h1.closedConns)
    ∧ Bybit.redialBlocking (fuel + 1) (Bybit.Close b)
        = Bybit.Outcome.done (some "context canceled") (Bybit.Close b)
    ∧ Okx.reconnect fuel o1 = Okx.Outcome.done () o1 := by
  refine ⟨?_, ?_, ?_⟩
  · exact Huobi.triggerReDial_iterate_closed n h1 (Huobi.Close_closed h h1 hh)
  · exact Bybit.redialBlocking_cancelled fuel (Bybit.Close b) (Bybit.Close_cancelled b)
  · have hc : o1.closed = true := Okx.CloseWs_closed o o1 ho
    simp [Okx.reconnect, hc]

/-- C21 witness: the huobi client `clientUp`, the bybit client
`clientDown` and the okx client `wsDown`, each closed and then triggered. -/
theorem C21_closed_is_terminal_witness :
    Huobi.Close Huobi.clientUp = some Huobi.clientClosed
    ∧ Okx.CloseWs Okx.wsDown = some Okx.wsClosed
    ∧ ((Huobi.triggerReDial^[3] Huobi.clientClosed).closed = true
      ∧ (Huobi.triggerReDial^[3] Huobi.clientClosed).dialCount = Huobi.clientClosed.dialCount
      ∧ (Huobi.triggerReDial^[3] Huobi.clientClosed).readLoops = Huobi.clientClosed.readLoops
      ∧ (Huobi.triggerReDial^[3] Huobi.clientClosed).redialTasks
          = Huobi.clientClosed.redialTasks
      ∧ (Huobi.triggerReDial^[3] Huobi.clientClosed).conn = Huobi.clientClosed.conn
      ∧ (Huobi.triggerReDial^[3] Huobi.clientClosed).closedConns
          = Huobi.clientClosed.closedConns)
    ∧ Bybit.redialBlocking (4 + 1) (Bybit.Close Bybit.clientDown)
        = Bybit.Outcome.done (some "context canceled") (Bybit.Close Bybit.clientDown)
    ∧ Okx.reconnect 4 Okx.wsClosed = Okx.Outcome.done () Okx.wsClosed :=
  ⟨rfl, rfl,
    C21_closed_is_terminal Huobi.clientUp Huobi.clientClosed rfl Bybit.clientDown Okx.wsDown
      Okx.wsClosed rfl 3 4⟩
